import Mathlib

/-!
# Calendar service: transactional outbox relay

A shallow embedding of the outbox relay of the calendar service
(`internal/application/service/relay.go`, `internal/application/repo/*.go`,
`internal/transport/producer/kafka_producer.go`, `pkg/db/postgres.go`,
`internal/application/common/utils.go`) and theorems about it.

Conventions of the embedding:

* Go `int`, `int64` and `time.Duration` values are integers; an operation that can
  leave the 64-bit range is wrapped with `wrap64`.
* Instants (`time.Time`, `timestamptz`) are integers counting nanoseconds.
* A Go `error` is a value of `Error`; `nil` is `none`.
* A panic is an explicit result (`none` of an `Option`, or a `panicked` flag).
* What the outside world decides (the broker's answer to a send, a cancelled
  context, a failing database statement, a random draw, the clock) is an
  explicit argument of the function that consults it.
-/

namespace Calendar

/-! ## Machine integers and durations -/

/-- Largest value of a Go `int` / `int64`. -/
def maxInt64 : Int := 9223372036854775807

/-- Two's complement wrap-around of a 64-bit signed integer. -/
def wrap64 (x : Int) : Int := (x + 9223372036854775808) % 18446744073709551616 - 9223372036854775808

/-- Go `x << n` on `int64` for a shift count `n ≥ 0`: bits shifted out are lost,
a count of 64 or more gives 0. -/
def shl64 (x : Int) (n : Int) : Int :=
  if n ≥ 64 then 0 else wrap64 (x * 2 ^ n.toNat)

/-- Constant `time.Nanosecond * 1e9`. -/
def Second : Int := 1000000000

/-- Constant `time.Minute`. -/
def Minute : Int := 60 * Second

/-! ## Errors -/

/-- Kafka broker error code (`sarama.KError`, an `int16`). -/
abbrev KError := Int

def ErrInvalidMessage : KError := 2
def ErrLeaderNotAvailable : KError := 5
def ErrRequestTimedOut : KError := 7
def ErrMessageSizeTooLarge : KError := 10
def ErrNotEnoughReplicas : KError := 19
def ErrNotEnoughReplicasAfterAppend : KError := 20
def ErrTopicAuthorizationFailed : KError := 29
def ErrGroupAuthorizationFailed : KError := 30
def ErrClusterAuthorizationFailed : KError := 31
def ErrInvalidRequest : KError := 42
def ErrSASLAuthenticationFailed : KError := 58

/-- Go `error` values met by the relay and the writer. -/
inductive Error where
  /-- an error of the database driver or server, with its SQLSTATE -/
  | pg (sqlstate : String)
  /-- `pgx.ErrNoRows` -/
  | noRows
  /-- `ctx.Err()`: `context.Canceled` or `context.DeadlineExceeded` -/
  | ctx
  /-- a `sarama.KError` -/
  | kafka (k : KError)
  /-- an error of the broker client that is not a `sarama.KError` -/
  | client (text : String)
  /-- `appers.ErrorResp` -/
  | resp (statusCode : Int) (statusDesc : String)
  /-- `fmt.Errorf` without `%w` -/
  | msg (text : String)
  /-- `fmt.Errorf("text: %w", inner)` -/
  | wrap (text : String) (inner : Error)
  deriving DecidableEq, Repr

/-- Error `appers.ErrEventAlreadyExists` (`http.StatusForbidden`). -/
def ErrEventAlreadyExists : Error := Error.resp 403 "уже создан"

/-- Error `appers.ErrEventNotFound` (`http.StatusNotFound`). -/
def ErrEventNotFound : Error := Error.resp 404 "не найден"

/-! ## `common.NextBackoffWithJitter`, `common.SleepCtx`, `common.PgInterval` -/

/-- Function `rand.Int63n n` with the generator's draw made explicit: it panics
(`none`) when `n ≤ 0` and otherwise returns a value of `[0, n)`. -/
def Int63n (n : Int) (draw : Nat) : Option Int :=
  if n ≤ 0 then none else some ((draw : Int) % n)

/-- Function `common.NextBackoffWithJitter`; `none` is the panic of `rand.Int63n`. -/
def NextBackoffWithJitter (attempts : Int) (draw : Nat) : Option Int :=
  let attempts := if attempts < 0 then 0 else attempts
  let base := shl64 Second attempts
  let limit := 30 * Minute
  let base := if base > limit then limit else base
  match Int63n (Int.tdiv base 2) draw with
  | none => none
  | some jitter => some (Int.tdiv base 2 + jitter)

/-- Function `common.SleepCtx`: `ctxDone` says whether the context is done
before the timer fires. -/
def SleepCtx (ctxDone : Bool) (d : Int) : Option Error :=
  if d ≤ 0 then none
  else if ctxDone then some Error.ctx else none

/-- Function `common.PgInterval`: the whole seconds of a duration (the text
`"<sec> seconds"` is represented by its number). -/
def PgInterval (d : Int) : Int := Int.tdiv d Second

/-! ## Broker producer (`producer.KafkaProducerConfig`) -/

/-- Result of `SyncProducer.SendMessage`. -/
inductive SendOutcome where
  | ok
  | kerr (k : KError)
  | other (text : String)
  deriving DecidableEq, Repr

/-- The error value of a failed send. -/
def SendOutcome.toError : SendOutcome → Option Error
  | SendOutcome.ok => none
  | SendOutcome.kerr k => some (Error.kafka k)
  | SendOutcome.other s => some (Error.client s)

/-- What the outside world does during one iteration of the send loop. -/
structure AttemptEnv where
  /-- `ctx.Err() != nil` at the top of the iteration -/
  ctxDone : Bool
  /-- the broker's answer to this send -/
  send : SendOutcome
  /-- the draw of the jitter of the sleep after this send -/
  draw : Nat
  /-- the context is done before the sleep after this send ends -/
  sleepCanceled : Bool
  deriving DecidableEq, Repr

/-- A `sarama.ProducerMessage` as handed to the broker (topic and timestamp left out). -/
structure ProducerMessage where
  Key : String
  Value : List Nat
  deriving DecidableEq, Repr

/-- What one call of `ProduceMessage` did. -/
structure ProduceResult where
  /-- the returned error, `none` for `nil` -/
  err : Option Error
  /-- the call panicked instead of returning -/
  panicked : Bool
  /-- the messages handed to `SendMessage`, in order -/
  sent : List ProducerMessage
  /-- the durations slept through (or into, when cancelled), in order -/
  sleeps : List Int
  deriving DecidableEq, Repr

/-- Function `producer.isPermanent`. -/
def isPermanent (k : KError) : Bool :=
  k == ErrTopicAuthorizationFailed ||
  k == ErrClusterAuthorizationFailed ||
  k == ErrInvalidRequest ||
  k == ErrInvalidMessage ||
  k == ErrMessageSizeTooLarge ||
  k == ErrSASLAuthenticationFailed

/-- The `maxAttempts` stored by `producer.NewProducer`. -/
def NewProducer (maxAttempts : Int) : Int :=
  if maxAttempts < 1 then 1 else maxAttempts

/-- The message built in every iteration of `ProduceMessage`. -/
def mkMessage (id : Int) (message : List Nat) : ProducerMessage :=
  { Key := toString id, Value := message }

/-- The return after the loop of `ProduceMessage`: the error
`produce failed after <maxAttempts> attempts` wrapping the last send error. -/
def produceFailed (maxAttempts : Int) (lastErr : Option Error) : Error :=
  match lastErr with
  | some e => Error.wrap ("produce failed after " ++ toString maxAttempts ++ " attempts") e
  | none => Error.msg ("produce failed after " ++ toString maxAttempts ++ " attempts: %!w(<nil>)")

/-- The part of an iteration of `ProduceMessage` after a send that failed with the
retryable error `e`: leave the loop on the last attempt, otherwise sleep and let
`next` run the next iteration. -/
def afterRetryable (maxAttempts : Int) (a : AttemptEnv) (attempt : Int) (e : Error)
    (sent : List ProducerMessage) (sleeps : List Int)
    (next : List Int → ProduceResult) : ProduceResult :=
  if attempt = maxAttempts then
    { err := some (produceFailed maxAttempts (some e)), panicked := false, sent := sent, sleeps := sleeps }
  else
    match NextBackoffWithJitter (attempt - 1) a.draw with
    | none => { err := none, panicked := true, sent := sent, sleeps := sleeps }
    | some d =>
      match SleepCtx a.sleepCanceled d with
      | some c => { err := some c, panicked := false, sent := sent, sleeps := sleeps ++ [d] }
      | none => next (sleeps ++ [d])

/-- The loop of `ProduceMessage` from iteration `attempt` on; `fuel` is the number
of iterations the loop condition `attempt <= p.maxAttempts` still admits and
`lastErr` the error of the previous send. -/
def produceLoop (maxAttempts : Int) (env : Int → AttemptEnv) (id : Int) (message : List Nat) :
    Nat → Int → Option Error → List ProducerMessage → List Int → ProduceResult
  | 0, _, lastErr, sent, sleeps =>
    { err := some (produceFailed maxAttempts lastErr), panicked := false, sent := sent, sleeps := sleeps }
  | fuel + 1, attempt, _, sent, sleeps =>
    if (env attempt).ctxDone then
      { err := some Error.ctx, panicked := false, sent := sent, sleeps := sleeps }
    else
      match (env attempt).send with
      | SendOutcome.ok =>
        { err := none, panicked := false, sent := sent ++ [mkMessage id message], sleeps := sleeps }
      | SendOutcome.kerr k =>
        if isPermanent k then
          { err := some (Error.wrap "permanent kafka error" (Error.kafka k)),
            panicked := false, sent := sent ++ [mkMessage id message], sleeps := sleeps }
        else
          afterRetryable maxAttempts (env attempt) attempt (Error.kafka k)
            (sent ++ [mkMessage id message]) sleeps
            (produceLoop maxAttempts env id message fuel (attempt + 1) (some (Error.kafka k))
              (sent ++ [mkMessage id message]))
      | SendOutcome.other s =>
        afterRetryable maxAttempts (env attempt) attempt (Error.client s)
          (sent ++ [mkMessage id message]) sleeps
          (produceLoop maxAttempts env id message fuel (attempt + 1) (some (Error.client s))
            (sent ++ [mkMessage id message]))

/-- Method `ProduceMessage` of a producer whose field `maxAttempts` is `maxAttempts`;
`env k` is what the outside world does in iteration `k` (counted from 1). -/
def ProduceMessage (maxAttempts : Int) (env : Int → AttemptEnv) (id : Int) (message : List Nat) :
    ProduceResult :=
  produceLoop maxAttempts env id message maxAttempts.toNat 1 none [] []

/-! ## Entities (`entity.Event`, `entity.OutboxEvent`) -/

/-- Type `entity.OutboxStatus` with its four constants. -/
inductive OutboxStatus where
  | NEW
  | SENT
  | FAILED
  | GAVE_UP
  deriving DecidableEq, Repr

/-- Constant `entity.AggregateEvent`. -/
def AggregateEvent : String := "event"

/-- Constant `entity.EventCreated`. -/
def EventCreated : String := "event_created"

/-- Struct `entity.Event`; the identifier is the number of the UUID. -/
structure Event where
  ID : Nat
  Title : String
  DateEvent : String
  CreationDate : String
  EndDateEvent : String
  DescriptionEvent : String
  UserID : String
  TimeForNotification : String
  RqTm : String
  deriving DecidableEq, Repr

/-- Struct `entity.OutboxEvent`, also a row of table `outbox_event`. -/
structure OutboxEvent where
  ID : Int
  AggregateID : Nat
  AggregateType : String
  EventType : String
  Payload : List Nat
  Status : OutboxStatus
  Attempts : Int
  NextAttemptAt : Int
  CreatedAt : Int
  deriving DecidableEq, Repr

/-! ## The store -/

/-- A row of table `events`: the columns written by `createEvent` and `updated_at`. -/
structure EventRow where
  id : Nat
  title : String
  start_date_event : String
  creation_date : String
  end_date_event : String
  description_event : String
  user_id : String
  time_for_notification : String
  rq_tm : String
  updated_at : Int
  deriving DecidableEq, Repr

/-- The database: both tables and the sequence behind `outbox_event.id`
(`outboxSeq` is the last value it handed out). -/
structure Store where
  events : List EventRow
  outbox : List OutboxEvent
  outboxSeq : Int
  deriving DecidableEq, Repr

/-- Modelled from the spec: the largest value of column `attempts int` of
`outbox_event` (the migration that declares the table is not among the sources). -/
def attemptsColumnMax : Int := 2147483647

/-- What a rollback leaves of the state `after` reached inside a transaction begun
at `before`: the tables as they were; a sequence is not rolled back. -/
def rollback (before after : Store) : Store :=
  { before with outboxSeq := after.outboxSeq }

/-- How a callback run inside a transaction ends. -/
inductive FnResult where
  | returned (err : Option Error)
  | panicked
  deriving DecidableEq, Repr

/-- Method `Postgres.WithinTransaction`. `beginErr` and `commitErr` are the
failures of `BeginTx` and `Commit`. The deferred function commits when the named
result `err` is nil, which is also the case while a panic of `tFunc` unwinds. -/
def WithinTransaction (beginErr commitErr : Option Error)
    (tFunc : Store → FnResult × Store) (s : Store) : FnResult × Store :=
  match beginErr with
  | some e => (FnResult.returned (some e), s)
  | none =>
    match tFunc s with
    | (FnResult.returned (some e), s1) => (FnResult.returned (some e), rollback s s1)
    | (FnResult.returned none, s1) =>
      match commitErr with
      | some e => (FnResult.returned (some e), rollback s s1)
      | none => (FnResult.returned none, s1)
    | (FnResult.panicked, s1) =>
      match commitErr with
      | some _ => (FnResult.panicked, rollback s s1)
      | none => (FnResult.panicked, s1)

/-! ## Outbox repository (`repo/outbox-repo.go`, `repo/sql-queries.go`) -/

/-- Statement `UPDATE outbox_event SET ... WHERE id=$1`: the rows of the given id are
replaced by their image under `set`. -/
def updateWhereId (id : Int) (set : OutboxEvent → OutboxEvent) (t : List OutboxEvent) :
    List OutboxEvent :=
  t.map (fun r => if r.ID = id then set r else r)

/-- The number of rows an `UPDATE ... WHERE id=$1` affects. -/
def rowsAffected (id : Int) (t : List OutboxEvent) : Nat :=
  t.countP (fun r => r.ID = id)

/-- Some row of the given id has `attempts + 1` outside the column's range, so that
`SET attempts=attempts+1` fails. -/
def attemptsOverflow (id : Int) (t : List OutboxEvent) : Bool :=
  t.any (fun r => decide (r.ID = id) && decide (r.Attempts + 1 > attemptsColumnMax))

/-- Error of a statement that computes a value outside the range of an integer column. -/
def errOutOfRange : Error := Error.pg "22003"

/-- The `SET` clause of `markFailedSQL` with `$2 = entity.OutboxFailed`. -/
def setFailed (nextAttemptAt : Int) (r : OutboxEvent) : OutboxEvent :=
  { r with Status := OutboxStatus.FAILED, Attempts := r.Attempts + 1,
           NextAttemptAt := nextAttemptAt }

/-- The `SET` clause of `markGaveUpSQL` with `$2 = entity.OutboxGaveUp`. -/
def setGaveUp (dbNow : Int) (r : OutboxEvent) : OutboxEvent :=
  { r with Status := OutboxStatus.GAVE_UP, Attempts := r.Attempts + 1, NextAttemptAt := dbNow }

/-- The `SET` clause of `markSentSQL` with `$2 = entity.OutboxSent`. -/
def setSent (r : OutboxEvent) : OutboxEvent :=
  { r with Status := OutboxStatus.SENT }

/-- Method `RepoImpl.MarkFailedWithBackoff` (statement `markFailedSQL`);
`execErr` is a failure of the statement for a reason outside the model. -/
def MarkFailedWithBackoff (execErr : Option Error) (outboxID : Int) (nextAttemptAt : Int)
    (s : Store) : Option Error × Store :=
  match execErr with
  | some e => (some (Error.wrap "outbox mark failed" e), s)
  | none =>
    if attemptsOverflow outboxID s.outbox then
      (some (Error.wrap "outbox mark failed" errOutOfRange), s)
    else
      (none, { s with outbox := updateWhereId outboxID (setFailed nextAttemptAt) s.outbox })

/-- Method `RepoImpl.MarkGaveUp` (statement `markGaveUpSQL`); `dbNow` is the
database's `now()`. -/
def MarkGaveUp (execErr : Option Error) (dbNow : Int) (outboxID : Int)
    (s : Store) : Option Error × Store :=
  match execErr with
  | some e => (some (Error.wrap "outbox mark gave_up" e), s)
  | none =>
    if attemptsOverflow outboxID s.outbox then
      (some (Error.wrap "outbox mark gave_up" errOutOfRange), s)
    else
      (none, { s with outbox := updateWhereId outboxID (setGaveUp dbNow) s.outbox })

/-- The `WHERE` clause of the `picked` sub-select of `reserveBatchSQL`. -/
def eligible (dbNow maxAttempts : Int) (r : OutboxEvent) : Bool :=
  (r.Status == OutboxStatus.NEW || r.Status == OutboxStatus.FAILED) &&
  decide (r.NextAttemptAt ≤ dbNow) &&
  decide (r.Attempts < maxAttempts)

/-- The sub-select `picked` of `reserveBatchSQL` without concurrent lock holders:
the eligible rows in ascending order of id, cut at `limit`. -/
def picked (dbNow limit maxAttempts : Int) (t : List OutboxEvent) : List OutboxEvent :=
  ((t.filter (eligible dbNow maxAttempts)).insertionSort (fun a b => a.ID ≤ b.ID)).take limit.toNat

/-- The `SET` clause of `reserveBatchSQL`: the lease, in whole seconds, counted from `now()`. -/
def stampLease (dbNow leaseSeconds : Int) (r : OutboxEvent) : OutboxEvent :=
  { r with NextAttemptAt := dbNow + leaseSeconds * Second }

/-- Error of a statement whose `LIMIT` is negative. -/
def errNegativeLimit : Error := Error.pg "2201W"

/-- The rows of `UPDATE ... RETURNING` in the order in which the database delivers
them. The statement `reserveBatchSQL` has no `ORDER BY` of its own (that of the
sub-select decides which rows `LIMIT` keeps), so the order is the database's:
`rank id` is the position at which the update reaches the row of `id`, and the rows
come back by ascending rank. -/
def returning (rank : Int → Int) (rows : List OutboxEvent) : List OutboxEvent :=
  rows.insertionSort (fun a b => rank a.ID ≤ rank b.ID)

/-- The database that delivers updated rows in ascending order of id, as when it
walks the sub-select `picked` and looks each row up by its key. -/
def byId : Int → Int := fun id => id

/-- Method `RepoImpl.ReserveOutboxBatch` (statement `reserveBatchSQL`). `queryErr` and
`rowsErr` are failures of `Query` and of the row stream; a row of the declared
column types is scanned without error. The slice is built in the order in which
the rows arrive (`rank`). -/
def ReserveOutboxBatch (queryErr rowsErr : Option Error) (rank : Int → Int) (dbNow : Int)
    (lease limit maxAttempts : Int) (s : Store) : Except Error (List OutboxEvent) × Store :=
  match queryErr with
  | some e => (Except.error (Error.wrap "reserve outbox batch" e), s)
  | none =>
    if limit < 0 then
      (Except.error (Error.wrap "reserve outbox batch" errNegativeLimit), s)
    else
      let ids := (picked dbNow limit maxAttempts s.outbox).map (fun r => r.ID)
      let set : OutboxEvent → OutboxEvent := fun r =>
        if r.ID ∈ ids then stampLease dbNow (PgInterval lease) r else r
      let s1 := { s with outbox := s.outbox.map set }
      match rowsErr with
      | some e => (Except.error (Error.wrap "reserve rows err" e), s1)
      | none =>
        (Except.ok (returning rank
          ((picked dbNow limit maxAttempts s.outbox).map (stampLease dbNow (PgInterval lease)))), s1)

/-- Faults of the database during one transaction with one statement. -/
structure TxFaults where
  beginErr : Option Error
  stmtErr : Option Error
  rowsErr : Option Error
  commitErr : Option Error
  deriving DecidableEq, Repr

/-- A database that does not fail. -/
def noFaults : TxFaults := { beginErr := none, stmtErr := none, rowsErr := none, commitErr := none }

/-- Method `TransactionsImpl.GetOperationsFromOutbox`: the reservation inside a
transaction of its own, with the fields of `config.RelayConfig` it reads. The
variable `events` of the source is the batch the callback obtained. -/
def GetOperationsFromOutbox (f : TxFaults) (rank : Int → Int) (dbNow : Int)
    (lease batchSize maxAttempts : Int) (s : Store) : (FnResult × List OutboxEvent) × Store :=
  let tFunc : Store → FnResult × Store := fun s0 =>
    match ReserveOutboxBatch f.stmtErr f.rowsErr rank dbNow lease batchSize maxAttempts s0 with
    | (Except.error e, s1) => (FnResult.returned (some e), s1)
    | (Except.ok _, s1) => (FnResult.returned none, s1)
  match WithinTransaction f.beginErr f.commitErr tFunc s with
  | (FnResult.returned none, s1) =>
    match (ReserveOutboxBatch f.stmtErr f.rowsErr rank dbNow lease batchSize maxAttempts s).1 with
    | Except.ok events => ((FnResult.returned none, events), s1)
    | Except.error _ => ((FnResult.returned none, []), s1)
  | (r, s1) => ((r, []), s1)

/-- Method `TransactionsImpl.MarkSentAndUpdateEvent` (statement `markSentSQL`). -/
def MarkSentAndUpdateEvent (f : TxFaults) (outboxID : Int) (s : Store) : FnResult × Store :=
  let tFunc : Store → FnResult × Store := fun s0 =>
    match f.stmtErr with
    | some e => (FnResult.returned (some (Error.wrap "outbox mark sent" e)), s0)
    | none =>
      if rowsAffected outboxID s0.outbox = 0 then
        (FnResult.returned (some (Error.msg ("[ID " ++ toString outboxID ++ "] outbox not found"))), s0)
      else
        (FnResult.returned none, { s0 with outbox := updateWhereId outboxID setSent s0.outbox })
  WithinTransaction f.beginErr f.commitErr tFunc s

/-! ## Relay worker (`service/relay.go`) -/

/-- A call made by the worker to one of its collaborators. -/
inductive Call where
  | ProduceMessage (id : Int) (message : List Nat)
  | MarkSentAndUpdateEvent (outboxID : Int)
  | MarkGaveUp (outboxID : Int)
  | MarkFailedWithBackoff (outboxID : Int) (nextAttemptAt : Int)
  deriving DecidableEq, Repr

/-- What the outside world does during one call of `ProcessOne`. -/
structure ProcessEnv where
  /-- what `s.kafkaProducer.ProduceMessage` does -/
  produce : ProduceResult
  /-- the draw of the jitter of `NextBackoffWithJitter(e.Attempts)` -/
  draw : Nat
  /-- the value of `time.Now().UTC()` read by `markOutboxFailedOrGaveUp` -/
  clock : Int
  /-- the database's `now()` when a mark statement runs -/
  dbNow : Int
  /-- a failure of the statement of `MarkFailedWithBackoff` or `MarkGaveUp` -/
  markErr : Option Error
  /-- the faults of the transaction of `MarkSentAndUpdateEvent` -/
  sentFaults : TxFaults
  deriving DecidableEq, Repr

/-- What one call of `ProcessOne` did. -/
structure ProcessResult where
  store : Store
  calls : List Call
  panicked : Bool
  deriving DecidableEq, Repr

/-- Method `ServiceImpl.markOutboxFailedOrGaveUp`, with the call it makes. -/
def markOutboxFailedOrGaveUp (execErr : Option Error) (clock dbNow : Int)
    (outboxID attempts maxAttempts backoff : Int) (s : Store) :
    (Option Error × Store) × List Call :=
  if wrap64 (attempts + 1) ≥ maxAttempts then
    (MarkGaveUp execErr dbNow outboxID s, [Call.MarkGaveUp outboxID])
  else
    (MarkFailedWithBackoff execErr outboxID (clock + backoff) s,
      [Call.MarkFailedWithBackoff outboxID (clock + backoff)])

/-- Method `ServiceImpl.ProcessOne` with `s.cfg.MaxAttempts = maxAttempts`. The
argument `common.NextBackoffWithJitter(e.Attempts)` is evaluated before
`markOutboxFailedOrGaveUp` is entered. -/
def ProcessOne (maxAttempts : Int) (env : ProcessEnv) (e : OutboxEvent) (s : Store) :
    ProcessResult :=
  if env.produce.panicked then
    { store := s, calls := [Call.ProduceMessage e.ID e.Payload], panicked := true }
  else
    match env.produce.err with
    | some _ =>
      match NextBackoffWithJitter e.Attempts env.draw with
      | none => { store := s, calls := [Call.ProduceMessage e.ID e.Payload], panicked := true }
      | some backoff =>
        let r := markOutboxFailedOrGaveUp env.markErr env.clock env.dbNow e.ID e.Attempts
          maxAttempts backoff s
        { store := r.1.2, calls := Call.ProduceMessage e.ID e.Payload :: r.2, panicked := false }
    | none =>
      match MarkSentAndUpdateEvent env.sentFaults e.ID s with
      | (FnResult.panicked, s1) =>
        { store := s1,
          calls := [Call.ProduceMessage e.ID e.Payload, Call.MarkSentAndUpdateEvent e.ID],
          panicked := true }
      | (FnResult.returned (some _), s1) =>
        { store := (MarkGaveUp env.markErr env.dbNow e.ID s1).2,
          calls := [Call.ProduceMessage e.ID e.Payload, Call.MarkSentAndUpdateEvent e.ID,
                    Call.MarkGaveUp e.ID],
          panicked := false }
      | (FnResult.returned none, s1) =>
        { store := s1,
          calls := [Call.ProduceMessage e.ID e.Payload, Call.MarkSentAndUpdateEvent e.ID],
          panicked := false }

/-! ## Transactional writer (`repo/repo.go`, `repo/transactions.go`) -/

/-- Test `errors.Is(err, pgx.ErrNoRows)`. -/
def isNoRows : Error → Bool
  | Error.noRows => true
  | Error.wrap _ e => isNoRows e
  | _ => false

/-- Function `repo.isDuplicateKeyError`: the first driver error of the chain has
SQLSTATE 23505. -/
def isDuplicateKeyError : Error → Bool
  | Error.pg c => c == "23505"
  | Error.wrap _ e => isDuplicateKeyError e
  | _ => false

/-- The row statement `createEvent` writes for an event. -/
def eventRow (dbNow : Int) (evt : Event) : EventRow :=
  { id := evt.ID, title := evt.Title, start_date_event := evt.DateEvent,
    creation_date := evt.CreationDate, end_date_event := evt.EndDateEvent,
    description_event := evt.DescriptionEvent, user_id := evt.UserID,
    time_for_notification := evt.TimeForNotification, rq_tm := evt.RqTm,
    updated_at := dbNow }

/-- Statement `createEvent` followed by `Scan`: `queryErr` is a failure of the
statement for a reason outside the model; on a conflict of the primary key nothing
is inserted and no row comes back. -/
def execCreateEvent (queryErr : Option Error) (dbNow : Int) (evt : Event) (s : Store) :
    Option Error × Store :=
  match queryErr with
  | some e => (some e, s)
  | none =>
    if s.events.any (fun r => r.id == evt.ID) then (some Error.noRows, s)
    else (none, { s with events := s.events ++ [eventRow dbNow evt] })

/-- Method `RepoImpl.CreateEvent`. -/
def RepoCreateEvent (queryErr : Option Error) (dbNow : Int) (evt : Event) (s : Store) :
    (Bool × Option Error) × Store :=
  match execCreateEvent queryErr dbNow evt s with
  | (none, s1) => ((true, none), s1)
  | (some err, s1) =>
    if isNoRows err then ((false, some ErrEventAlreadyExists), s1)
    else if isDuplicateKeyError err then ((false, some ErrEventAlreadyExists), s1)
    else ((false, some (Error.wrap "error inserting into DB" err)), s1)

/-- Error of an insert that violates a foreign key. -/
def errForeignKey : Error := Error.pg "23503"

/-- Modelled from the spec: column `aggregate_id` of `outbox_event` references
`events(id)` (the migration that declares it is not among the sources), so an outbox
row is accepted only for an aggregate that is in table `events`. -/
@[reducible] def aggregateExists (aggregateID : Nat) (s : Store) : Bool :=
  s.events.any (fun r => r.id == aggregateID)

/-- Modelled from the spec: column `id` of `outbox_event` is a `bigserial` (the
migration that declares it is not among the sources), so a new row takes the next
value of the sequence. -/
@[reducible] def nextOutboxID (s : Store) : Int := s.outboxSeq + 1

/-- Error of a text that the database does not read as JSON. -/
def errInvalidJSON : Error := Error.pg "22P02"

/-- A byte of white space of JSON: space, tab, line feed or carriage return. -/
def isJsonSpace (b : Nat) : Bool := b == 32 || b == 9 || b == 10 || b == 13

/-- A JSON text in the spacing in which the database writes a `jsonb` value: outside
of strings white space is dropped and one space follows every colon and comma. The
two flags say that the text is inside a string and that the last byte was the
backslash of an escape. -/
def respace : Bool → Bool → List Nat → List Nat
  | _, _, [] => []
  | true, true, b :: bs => b :: respace true false bs
  | true, false, b :: bs =>
    if b = 92 then b :: respace true true bs
    else if b = 34 then b :: respace false false bs
    else b :: respace true false bs
  | false, _, b :: bs =>
    if isJsonSpace b then respace false false bs
    else if b = 34 then b :: respace true false bs
    else if b = 58 ∨ b = 44 then b :: 32 :: respace false false bs
    else b :: respace false false bs

/-- The cast `($4)::jsonb` followed by the reading of the column as text, for a
document that is JSON, whose objects have their keys in the order `jsonb` keeps
(shorter first, then by bytes) with no key twice, and whose numbers and strings are
written as `jsonb` writes them: the column gives the document back in the spacing of
the database. Other texts, which the database reorders, rewrites or refuses, are not
read here; the theorems that hold for whatever the cast does take the cast as an
argument. -/
def jsonbText (document : List Nat) : Option (List Nat) := some (respace false false document)

/-- Method `RepoImpl.InsertOutbox` (statement `insertOutboxQuery`). The payload is
written as `($4)::jsonb`: `jsonb` is that cast as the column later gives it back,
`none` for a text the database refuses. `execErr` is a failure of the statement for
a reason outside the model. -/
def InsertOutbox (jsonb : List Nat → Option (List Nat)) (execErr : Option Error) (dbNow : Int)
    (e : OutboxEvent) (s : Store) : Option Error × Store :=
  match execErr with
  | some err => (some (Error.wrap "insert outbox_event" err), s)
  | none =>
    match jsonb e.Payload with
    | none => (some (Error.wrap "insert outbox_event" errInvalidJSON), s)
    | some document =>
      if aggregateExists e.AggregateID s then
        let row : OutboxEvent :=
          { ID := nextOutboxID s, AggregateID := e.AggregateID, AggregateType := e.AggregateType,
            EventType := e.EventType, Payload := document, Status := e.Status, Attempts := 0,
            NextAttemptAt := dbNow, CreatedAt := dbNow }
        (none, { s with outbox := s.outbox ++ [row], outboxSeq := nextOutboxID s })
      else
        (some (Error.wrap "insert outbox_event" errForeignKey), s)

/-- Faults of the database during the transaction of `TransactionsImpl.CreateEvent`. -/
structure CreateFaults where
  beginErr : Option Error
  insertEventErr : Option Error
  insertOutboxErr : Option Error
  commitErr : Option Error
  deriving DecidableEq, Repr

/-- The callback `TransactionsImpl.CreateEvent` runs inside its transaction. -/
def createEventFn (jsonb : List Nat → Option (List Nat)) (f : CreateFaults) (dbNow : Int)
    (ev : Event) (payload : List Nat) (s : Store) : FnResult × Store :=
  match RepoCreateEvent f.insertEventErr dbNow ev s with
  | ((_, some err), s1) => (FnResult.returned (some err), s1)
  | ((true, none), s1) =>
    let evt : OutboxEvent :=
      { ID := 0, AggregateID := ev.ID, AggregateType := AggregateEvent,
        EventType := EventCreated, Payload := payload, Status := OutboxStatus.NEW,
        Attempts := 0, NextAttemptAt := 0, CreatedAt := 0 }
    match InsertOutbox jsonb f.insertOutboxErr dbNow evt s1 with
    | (some err, s2) => (FnResult.returned (some err), s2)
    | (none, s2) => (FnResult.returned none, s2)
  | ((false, none), s1) => (FnResult.returned (some ErrEventAlreadyExists), s1)

/-- Method `TransactionsImpl.CreateEvent`; `jsonb` is the cast of the payload by the
database (see `InsertOutbox`). -/
def CreateEvent (jsonb : List Nat → Option (List Nat)) (f : CreateFaults) (dbNow : Int)
    (ev : Event) (payload : List Nat) (s : Store) : FnResult × Store :=
  WithinTransaction f.beginErr f.commitErr (createEventFn jsonb f dbNow ev payload) s

/-! ## Reading the store -/

/-- The row of table `outbox_event` with the given id, if there is one. -/
def rowOf (id : Int) (s : Store) : Option OutboxEvent :=
  s.outbox.find? (fun r => decide (r.ID = id))

/-- The primary key of `outbox_event`: no two rows share an id. -/
@[reducible] def primaryKey (s : Store) : Prop :=
  (s.outbox.map (fun r => r.ID)).Nodup

/-- The call is one to the producer. -/
def isProduceCall : Call → Bool
  | Call.ProduceMessage _ _ => true
  | _ => false

/-- The call is one of the two failure marks of the repository. -/
def isMarkCall : Call → Bool
  | Call.MarkGaveUp _ => true
  | Call.MarkFailedWithBackoff _ _ => true
  | _ => false

/-! ## Example inputs -/

/-- A freshly inserted outbox row with id 1 for event 7. -/
def freshRow : OutboxEvent :=
  { ID := 1, AggregateID := 7, AggregateType := AggregateEvent, EventType := EventCreated,
    Payload := [123, 125], Status := OutboxStatus.NEW, Attempts := 0, NextAttemptAt := 0,
    CreatedAt := 0 }

/-- The event the fresh row belongs to. -/
def freshEvent : Event :=
  { ID := 7, Title := "t", DateEvent := "2026-01-20T11:00:00Z",
    CreationDate := "2026-01-20T10:00:00Z", EndDateEvent := "2026-01-20T12:00:00Z",
    DescriptionEvent := "", UserID := "u1", TimeForNotification := "",
    RqTm := "2026-01-20T10:00:00Z" }

/-- A store that holds the fresh event and its outbox row. -/
def freshStore : Store :=
  { events := [eventRow 0 freshEvent], outbox := [freshRow], outboxSeq := 1 }

/-- The fresh row as a reservation at database time 10 with a lease of 5 s returns it. -/
def leasedRow : OutboxEvent := stampLease 10 5 freshRow

/-- The store after that reservation. -/
def leasedStore : Store := { freshStore with outbox := [leasedRow] }

/-- The fresh row after 34 failed rounds under a budget of 35. -/
def row34 : OutboxEvent :=
  { freshRow with Status := OutboxStatus.FAILED, Attempts := 34, NextAttemptAt := 5 }

/-- The store that holds that row. -/
def store34 : Store := { freshStore with outbox := [row34] }

/-- The store after `row34` has been reserved at database time 10 with a lease of 5 s. -/
def leasedStore34 : Store := { freshStore with outbox := [stampLease 10 5 row34] }

/-- An empty database. -/
def emptyStore : Store := { events := [], outbox := [], outboxSeq := 0 }

/-- The world around a `ProcessOne` whose producer did `r`: jitter draw 0, clock and
database time 100, no database fault. -/
def calmEnv (r : ProduceResult) : ProcessEnv :=
  { produce := r, draw := 0, clock := 100, dbNow := 100, markErr := none, sentFaults := noFaults }

/-- A broker that answers every send with `o`, under a context that is never done. -/
def always (o : SendOutcome) : Int → AttemptEnv :=
  fun _ => { ctxDone := false, send := o, draw := 0, sleepCanceled := false }

/-- A broker that answers the first send with leader-not-available, under a context
that is cancelled during the sleep that follows. -/
def cancelledInSleep : Int → AttemptEnv :=
  fun _ => { ctxDone := false, send := SendOutcome.kerr ErrLeaderNotAvailable, draw := 0,
             sleepCanceled := true }

/-- A database that cannot be reached: every statement and transaction fails. -/
def dbDown : TxFaults :=
  { beginErr := some (Error.pg "08006"), stmtErr := some (Error.pg "08006"),
    rowsErr := some (Error.pg "08006"), commitErr := some (Error.pg "08006") }

/-- A context that is already done when `ProduceMessage` is entered. -/
def cancelled : Int → AttemptEnv :=
  fun _ => { ctxDone := true, send := SendOutcome.ok, draw := 0, sleepCanceled := true }

/-- One round of the relay for the only record of a store with one outbox row:
reservation of a batch at database time `dbNow` (lease 5 s, batch size 10), then
`ProcessOne` of the reserved record against a broker that answers every send with
leader-not-available (producer budget 3), at clock `dbNow`. A store whose row is not
reserved is left alone. -/
def failingRound (maxAttempts dbNow : Int) (s : Store) : Store :=
  match GetOperationsFromOutbox noFaults byId dbNow (5 * Second) 10 maxAttempts s with
  | ((_, e :: _), s1) =>
    (ProcessOne maxAttempts
      { produce := ProduceMessage 3 (always (SendOutcome.kerr ErrLeaderNotAvailable)) e.ID e.Payload,
        draw := 0, clock := dbNow, dbNow := dbNow, markErr := none, sentFaults := noFaults }
      e s1).store
  | ((_, []), s1) => s1

/-- The fresh row as a second reservation, at database time 6 000 000 000 after the
first lease has expired, returns it. -/
def releasedRow : OutboxEvent := stampLease 6000000000 5 freshRow

/-- The store after that second reservation. -/
def releasedStore : Store := { freshStore with outbox := [releasedRow] }

/-- The row after the holder of the second reservation has sent it. -/
def sentRow : OutboxEvent := { releasedRow with Status := OutboxStatus.SENT }

/-- The store that holds the sent row. -/
def sentStore : Store := { freshStore with outbox := [sentRow] }

/-- Every row of the table that is `NEW` or `FAILED` has between 0 and
`maxAttempts - 1` attempts. -/
def attemptsInBudget (maxAttempts : Int) (t : List OutboxEvent) : Prop :=
  ∀ r ∈ t, (r.Status = OutboxStatus.NEW ∨ r.Status = OutboxStatus.FAILED) →
    0 ≤ r.Attempts ∧ r.Attempts < maxAttempts

/-- Modelled from the spec: the foreign key of `outbox_event`, whose column
`aggregate_id` references `events(id)` (the migration is not among the sources). -/
@[reducible] def foreignKey (s : Store) : Prop :=
  ∀ r ∈ s.outbox, s.events.any (fun x => x.id == r.AggregateID) = true

/-- The number of outbox rows of an aggregate. -/
def outboxRowsOf (aggregateID : Nat) (s : Store) : Nat :=
  s.outbox.countP (fun r => r.AggregateID == aggregateID)

/-- A second event. -/
def freshEvent2 : Event := { freshEvent with ID := 8 }

/-- The freshly inserted outbox row, id 2, of the second event. -/
def freshRow2 : OutboxEvent := { freshRow with ID := 2, AggregateID := 8 }

/-- A store that holds both events and their fresh outbox rows. -/
def twoRowStore : Store :=
  { events := [eventRow 0 freshEvent, eventRow 0 freshEvent2],
    outbox := [freshRow, freshRow2], outboxSeq := 2 }

/-- The database that delivers updated rows in descending order of id, as when it
walks the table and the row of id 2 lies before that of id 1. -/
def byIdDescending : Int → Int := fun id => -id

/-- The base delay in the words of the spec: `min(1 s · 2^attempt, 30 min)`. -/
def specBase (attempt : Int) : Int := min (Second * 2 ^ attempt.toNat) (30 * Minute)

/-- The value of `base` in `NextBackoffWithJitter` after the cap, for `attempts ≥ 0`. -/
def cappedBase (attempts : Int) : Int :=
  if shl64 Second attempts > 30 * Minute then 30 * Minute else shl64 Second attempts

/-- A store that holds the fresh event and no outbox row yet. -/
def eventOnlyStore : Store :=
  { events := [eventRow 0 freshEvent], outbox := [], outboxSeq := 0 }

/-- A callback that inserts the fresh outbox row and then panics. -/
def insertThenPanic : Store → FnResult × Store :=
  fun s => (FnResult.panicked, (InsertOutbox jsonbText none 0 freshRow s).2)

/-- A callback that inserts the fresh outbox row and then returns an error. -/
def insertThenFail : Store → FnResult × Store :=
  fun s => (FnResult.returned (some (Error.msg "failed")), (InsertOutbox jsonbText none 0 freshRow s).2)

/-- The send outcome ends the loop of `ProduceMessage` at once: a success or a
permanent broker error. -/
def SendOutcome.isFinal : SendOutcome → Bool
  | SendOutcome.ok => true
  | SendOutcome.kerr k => isPermanent k
  | SendOutcome.other _ => false

/-- What `ProduceMessage` returns when its loop ends on a success or on a permanent
broker error. -/
def SendOutcome.finalResult : SendOutcome → Option Error
  | SendOutcome.ok => none
  | SendOutcome.kerr k => some (Error.wrap "permanent kafka error" (Error.kafka k))
  | SendOutcome.other _ => none

/-- The value of a decimal digit. -/
def digitValue (c : Char) : Nat := c.toNat - 48

/-- The number a string of decimal digits denotes. -/
def parseNat (cs : List Char) : Nat :=
  cs.foldl (fun acc c => acc * 10 + digitValue c) 0

/-- The integer a base-10 string denotes: an optional minus sign, then decimal digits. -/
def parseDecimal (s : String) : Int :=
  match s.data with
  | [] => 0
  | c :: cs => if c = '-' then -(parseNat cs : Int) else (parseNat (c :: cs) : Int)

/-! ## Instants (`time.Time`) -/

/-- A value of `time.Time` as a text denotes it: the instant, in nanoseconds since
the epoch, and the zone offset, in seconds, that was written. -/
structure Time where
  unixNano : Int
  offset : Int
  deriving DecidableEq, Repr

/-- Method `Time.After`: the instant of `t` is later than that of `u`. -/
def Time.After (t u : Time) : Bool := decide (u.unixNano < t.unixNano)

/-- Method `Time.Before`: the instant of `t` is earlier than that of `u`. -/
def Time.Before (t u : Time) : Bool := decide (t.unixNano < u.unixNano)

/-- The number two decimal digits denote. -/
def twoDigits (a b : Char) : Option Nat :=
  if a.isDigit && b.isDigit then some (digitValue a * 10 + digitValue b) else none

/-- The year is a leap year. -/
def isLeap (y : Nat) : Bool := y % 4 == 0 && (y % 100 != 0 || y % 400 == 0)

/-- The number of days of a month. -/
def daysIn (y m : Nat) : Nat :=
  if m == 2 then (if isLeap y then 29 else 28)
  else if m == 4 || m == 6 || m == 9 || m == 11 then 30 else 31

/-- The number of days from 1970-01-01 to the given date of the civil calendar. -/
def daysFromCivil (y m d : Int) : Int :=
  let y1 := if m ≤ 2 then y - 1 else y
  let era := y1 / 400
  let yoe := y1 - era * 400
  let doy := (153 * (if m > 2 then m - 3 else m + 9) + 2) / 5 + d - 1
  let doe := yoe * 365 + yoe / 4 - yoe / 100 + doy
  era * 146097 + doe - 719468

/-- The zone of an RFC 3339 text: `Z`, or a sign, hours, a colon and minutes. -/
def zoneOffset : List Char → Option Int
  | [z] => if z = 'Z' then some 0 else none
  | [sg, a, b, c, d, e] =>
    match twoDigits a b, twoDigits d e with
    | some hh, some mm =>
      if c = ':' ∧ hh < 24 ∧ mm < 60 then
        if sg = '+' then some (((hh * 60 + mm) * 60 : Nat) : Int)
        else if sg = '-' then some (-(((hh * 60 + mm) * 60 : Nat) : Int))
        else none
      else none
    | _, _ => none
  | _ => none

/-- Function `time.Parse` of the Go library with layout `time.RFC3339`, for texts in
the plain form of the layout: a four-digit year, two digits for each other number,
`T`, and a zone `Z` or a numeric offset, every number in its range. Other texts the
library also reads (a fraction of a second, an hour of one digit) are not read
here. The theorems that hold for any reading of a text as an instant take the
reading as an argument; this one serves where a text of the plain form has to be
read. -/
def ParseRFC3339 (value : String) : Option Time :=
  match value.data with
  | y1 :: y2 :: y3 :: y4 :: c1 :: m1 :: m2 :: c2 :: d1 :: d2 :: t :: h1 :: h2 :: c3 ::
      n1 :: n2 :: c4 :: s1 :: s2 :: zone =>
    match twoDigits y1 y2, twoDigits y3 y4, twoDigits m1 m2, twoDigits d1 d2,
          twoDigits h1 h2, twoDigits n1 n2, twoDigits s1 s2, zoneOffset zone with
    | some ya, some yb, some mo, some dd, some hh, some mi, some ss, some off =>
      if c1 = '-' ∧ c2 = '-' ∧ t = 'T' ∧ c3 = ':' ∧ c4 = ':' ∧
          1 ≤ mo ∧ mo ≤ 12 ∧ 1 ≤ dd ∧ dd ≤ daysIn (ya * 100 + yb) mo ∧
          hh < 24 ∧ mi < 60 ∧ ss < 60 then
        some { unixNano :=
                 ((daysFromCivil ((ya * 100 + yb : Nat) : Int) (mo : Int) (dd : Int)) * 86400
                   + ((hh * 3600 + mi * 60 + ss : Nat) : Int) - off) * Second,
               offset := off }
      else none
    | _, _, _, _, _, _, _, _ => none
  | _ => none

/-! ## Events repository (`repo/repo.go`) -/

/-- Constant `defaultDeleteDays`. -/
def defaultDeleteDays : Int := 365

/-- One day of an interval `make_interval(days => n)` subtracted from `now()`, in
nanoseconds (the session's time zone is UTC). -/
def Day : Int := 86400 * Second

/-- Modelled from the spec: column `aggregate_id` of `outbox_event` references
`events(id)` with no action on delete (the migration that declares it is not among
the sources), so a row of `events` that an outbox row refers to cannot be deleted. -/
@[reducible] def referenced (id : Nat) (s : Store) : Bool :=
  s.outbox.any (fun r => r.AggregateID == id)

/-- A `DELETE FROM events WHERE ...` statement: `execErr` is a failure of the
statement for a reason outside the model, `doomed` its `WHERE` clause. The result
is the error and the number of rows affected. -/
def execDelete (execErr : Option Error) (doomed : EventRow → Bool) (s : Store) :
    (Option Error × Nat) × Store :=
  match execErr with
  | some e => ((some e, 0), s)
  | none =>
    if (s.events.filter doomed).any (fun r => referenced r.id s) then
      ((some errForeignKey, 0), s)
    else
      ((none, (s.events.filter doomed).length),
       { s with events := s.events.filter (fun r => !doomed r) })

/-- The `WHERE` clause of statement `deleteOldEvents`:
`creation_date < now() - make_interval(days => $1)`. The stored text of
`creation_date` is read as the instant it denotes. -/
def olderThan (parse : String → Option Time) (dbNow d : Int) (r : EventRow) : Bool :=
  match parse r.creation_date with
  | some t => decide (t.unixNano < dbNow - d * Day)
  | none => false

/-- What a call of `DeleteOldEvents` did: the error it returned, the day count bound
to statement `deleteOldEvents` if the statement was issued, and the store. -/
structure PurgeResult where
  err : Option Error
  bound : Option Int
  store : Store
  deriving DecidableEq, Repr

/-- The part of `DeleteOldEvents` from `r.db.Exec(ctx, deleteOldEvents, d)` on. -/
def execDeleteOld (execErr : Option Error) (parse : String → Option Time) (dbNow d : Int)
    (s : Store) : PurgeResult :=
  match execDelete execErr (olderThan parse dbNow d) s with
  | ((some e, _), s1) =>
    { err := some (Error.wrap "error deleting old events from DB" e), bound := some d, store := s1 }
  | ((none, _), s1) => { err := none, bound := some d, store := s1 }

/-- Method `RepoImpl.DeleteOldEvents`; `days` is the pointer argument, `none` for nil. -/
def DeleteOldEvents (execErr : Option Error) (parse : String → Option Time) (dbNow : Int)
    (days : Option Int) (s : Store) : PurgeResult :=
  match days with
  | some n =>
    if n > 0 then execDeleteOld execErr parse dbNow n s
    else if n = 0 then { err := none, bound := none, store := s }
    else execDeleteOld execErr parse dbNow defaultDeleteDays s
  | none => execDeleteOld execErr parse dbNow defaultDeleteDays s

/-- Method `ServiceImpl.DeleteOldEventsByYear`: the error of the repository is
dropped. The result is the day count bound to the statement, if it was issued, and
the store. -/
def ServiceDeleteOldEventsByYear (execErr : Option Error) (parse : String → Option Time)
    (dbNow : Int) (days : Option Int) (s : Store) : Option Int × Store :=
  ((DeleteOldEvents execErr parse dbNow days s).bound,
   (DeleteOldEvents execErr parse dbNow days s).store)

/-- Struct `config.Cron`. -/
structure Cron where
  DaysToDelete : Int
  Schedule : String
  Interval : String
  deriving DecidableEq, Repr

/-- The value `viper.Unmarshal` leaves in the field `Cron` of a zero `Config`: a key
that is not configured leaves its field at the zero value of its type. -/
def unmarshalCron (daysToDelete : Option Int) (schedule interval : Option String) : Cron :=
  { DaysToDelete := daysToDelete.getD 0, Schedule := schedule.getD "",
    Interval := interval.getD "" }

/-- Method `UseCase.DeleteOldEventsByYear`: the address of a copy of
`conf.Cron.DaysToDelete` is handed on, never nil. -/
def UseCaseDeleteOldEventsByYear (execErr : Option Error) (parse : String → Option Time)
    (dbNow : Int) (conf : Cron) (s : Store) : Option Int × Store :=
  ServiceDeleteOldEventsByYear execErr parse dbNow (some conf.DaysToDelete) s

/-- An event created on 2020-01-01. -/
def oldEvent : Event :=
  { freshEvent with ID := 9, CreationDate := "2020-01-01T00:00:00Z" }

/-- A store whose only row is the event of 2020, with no outbox row. -/
def oldStore : Store := { events := [eventRow 0 oldEvent], outbox := [], outboxSeq := 0 }

/-- The instant 2026-01-20T10:00:00Z. -/
def jan2026 : Int := 1768903200 * Second

/-- An argument bound to a placeholder of a statement on table `events`. -/
inductive Arg where
  | text (value : String)
  | uuid (id : Nat)
  deriving DecidableEq, Repr

/-- The variables `set`, `args` and `i` of `createPatchQuery`. -/
structure PatchState where
  set : List String
  args : List Arg
  i : Nat
  deriving DecidableEq, Repr

/-- The closure `add` of `createPatchQuery`. -/
def add (field : String) (value : String) (st : PatchState) : PatchState :=
  { set := st.set ++ [field ++ " = $" ++ toString st.i],
    args := st.args ++ [Arg.text value],
    i := st.i + 1 }

/-- Function `createPatchQuery`. -/
def createPatchQuery (patch : Event) : String × List Arg :=
  let st0 : PatchState := { set := [], args := [], i := 1 }
  let st1 := if patch.Title ≠ "" then add "title" patch.Title st0 else st0
  let st2 := if patch.DescriptionEvent ≠ "" then
    add "description_event" patch.DescriptionEvent st1 else st1
  let st3 := if patch.UserID ≠ "" then add "user_id" patch.UserID st2 else st2
  let st4 := if patch.DateEvent ≠ "" then add "start_date_event" patch.DateEvent st3 else st3
  let st5 := if patch.EndDateEvent ≠ "" then add "end_date_event" patch.EndDateEvent st4 else st4
  let st6 := if patch.CreationDate ≠ "" then add "creation_date" patch.CreationDate st5 else st5
  let st7 := if patch.RqTm ≠ "" then add "rq_tm" patch.RqTm st6 else st6
  let st8 := if patch.TimeForNotification ≠ "" then
    add "time_for_notification" patch.TimeForNotification st7 else st7
  if st8.set.length = 0 then ("", [])
  else
    ("UPDATE events SET " ++ ", ".intercalate (st8.set ++ ["updated_at = now()"])
        ++ " WHERE id = $" ++ toString st8.i,
     st8.args ++ [Arg.uuid patch.ID])

/-- The fields a patch can carry, each with its column, in the order in which the
spec names them: title, description, user id, start, end, creation date, request
time and notification time. -/
def patchFields (patch : Event) : List (String × String) :=
  [("title", patch.Title), ("description_event", patch.DescriptionEvent),
   ("user_id", patch.UserID), ("start_date_event", patch.DateEvent),
   ("end_date_event", patch.EndDateEvent), ("creation_date", patch.CreationDate),
   ("rq_tm", patch.RqTm), ("time_for_notification", patch.TimeForNotification)]

/-- The non-empty fields of a patch. -/
def providedFields (patch : Event) : List (String × String) :=
  (patchFields patch).filter (fun f => decide (f.2 ≠ ""))

/-- The `SET` list of the spec: the columns of the given fields, each assigned the
placeholder of the next number from `first` on. -/
def assignments (first : Nat) (fs : List (String × String)) : List String :=
  List.zipWith (fun f j => f.1 ++ " = $" ++ toString j) fs (List.range' first fs.length)

/-- The partial update in the words of the spec: the non-empty fields are assigned
to the placeholders 1 to k, then `updated_at = now()`, and the row is chosen by
placeholder k + 1, bound to the id. -/
def specPatchQuery (patch : Event) : String × List Arg :=
  ("UPDATE events SET "
      ++ ", ".intercalate (assignments 1 (providedFields patch) ++ ["updated_at = now()"])
      ++ " WHERE id = $" ++ toString ((providedFields patch).length + 1),
   (providedFields patch).map (fun f => Arg.text f.2) ++ [Arg.uuid patch.ID])

/-- The assignment `column = value` of a `SET` list, applied to a row. -/
def setColumn (f : String × String) (r : EventRow) : EventRow :=
  if f.1 = "title" then { r with title := f.2 }
  else if f.1 = "description_event" then { r with description_event := f.2 }
  else if f.1 = "user_id" then { r with user_id := f.2 }
  else if f.1 = "start_date_event" then { r with start_date_event := f.2 }
  else if f.1 = "end_date_event" then { r with end_date_event := f.2 }
  else if f.1 = "creation_date" then { r with creation_date := f.2 }
  else if f.1 = "rq_tm" then { r with rq_tm := f.2 }
  else if f.1 = "time_for_notification" then { r with time_for_notification := f.2 }
  else r

/-- The `SET` list of the statement that `createPatchQuery` builds for a patch,
applied to a row: the non-empty fields replace the stored values and `updated_at`
becomes `now()`. -/
def applyPatch (dbNow : Int) (patch : Event) (r : EventRow) : EventRow :=
  { (providedFields patch).foldl (fun row f => setColumn f row) r with updated_at := dbNow }

/-- Method `RepoImpl.UpdateEvent`. `execErr` is a failure of the statement for a
reason outside the model, such as a text the database does not read as a time. -/
def RepoUpdateEvent (execErr : Option Error) (dbNow : Int) (evt : Event) (s : Store) :
    Option Error × Store :=
  if (createPatchQuery evt).1 = "" then (none, s)
  else
    match execErr with
    | some e => (some (Error.wrap "error updating in DB" e), s)
    | none =>
      if (s.events.filter (fun r => r.id == evt.ID)).length = 0 then
        (some ErrEventNotFound, s)
      else
        (none, { s with events :=
                   s.events.map (fun r => if r.id == evt.ID then applyPatch dbNow evt r else r) })

/-- Method `RepoImpl.DeleteEvent` (statement `deleteEvent`); `id` is the number of
the UUID the text denotes. A text that denotes none makes the statement fail, which
is one of the failures `execErr`. -/
def RepoDeleteEvent (execErr : Option Error) (id : Nat) (s : Store) : Option Error × Store :=
  match execDelete execErr (fun r => r.id == id) s with
  | ((some e, _), s1) => (some (Error.wrap "error deleting from DB" e), s1)
  | ((none, n), s1) => if n = 0 then (some ErrEventNotFound, s1) else (none, s1)

/-- A patch for event 9 that carries no field. -/
def emptyPatch : Event :=
  { ID := 9, Title := "", DateEvent := "", CreationDate := "", EndDateEvent := "",
    DescriptionEvent := "", UserID := "", TimeForNotification := "", RqTm := "" }

/-- A patch for event 9 that carries a new title and a new end. -/
def titlePatch : Event :=
  { emptyPatch with Title := "new", EndDateEvent := "2026-01-20T13:00:00Z" }

/-- One `if <field> != "" { add(...) }` of `createPatchQuery`. -/
def addIfProvided (st : PatchState) (f : String × String) : PatchState :=
  if f.2 ≠ "" then add f.1 f.2 st else st

/-! ## Validation (`pkg/validator/validator.go`, `entity/event.go`) -/

/-- Function `validateRFC3339`; `parse` is `time.Parse` with layout `time.RFC3339`. -/
def validateRFC3339 (parse : String → Option Time) (dateStr : String) : Bool :=
  if dateStr = "" then false else (parse dateStr).isSome

/-- Function `validateRFC3339Optional`. -/
def validateRFC3339Optional (parse : String → Option Time) (dateStr : String) : Bool :=
  if dateStr = "" then true else (parse dateStr).isSome

/-- A tag of the `validate` key of a string field of struct `entity.Event`. -/
inductive Tag where
  | required
  | omitempty
  | min (n : Nat)
  | max (n : Nat)
  | rfc3339
  | rfc3339_optional
  deriving DecidableEq, Repr

/-- The tags of a string field run in the order written, and the name of the first
one the value fails is the result: `required` fails on the empty string, `omitempty`
ends the run for an empty string, `min` and `max` bound the number of characters,
`rfc3339` and `rfc3339_optional` are the two functions registered under these
names. -/
def failedTag (parse : String → Option Time) : List Tag → String → Option String
  | [], _ => none
  | Tag.required :: ts, v => if v = "" then some "required" else failedTag parse ts v
  | Tag.omitempty :: ts, v => if v = "" then none else failedTag parse ts v
  | Tag.min n :: ts, v => if v.length < n then some "min" else failedTag parse ts v
  | Tag.max n :: ts, v => if v.length > n then some "max" else failedTag parse ts v
  | Tag.rfc3339 :: ts, v =>
    if validateRFC3339 parse v then failedTag parse ts v else some "rfc3339"
  | Tag.rfc3339_optional :: ts, v =>
    if validateRFC3339Optional parse v then failedTag parse ts v else some "rfc3339_optional"

/-- The validation error of one string field, if it has one. -/
def fieldError (parse : String → Option Time) (field : String) (tags : List Tag)
    (v : String) : List (String × String) :=
  match failedTag parse tags v with
  | some tag => [(field, tag)]
  | none => []

/-- Call `validator.Validate.Struct(&event)` with the tags of struct `entity.Event`:
the list of the fields that fail, each with the tag it fails; the empty list is the
nil error. The tag `required` of the id fails on the zero UUID. -/
def ValidateStruct (parse : String → Option Time) (event : Event) : List (String × String) :=
  (if event.ID = 0 then [("ID", "required")] else [])
  ++ fieldError parse "Title" [Tag.required, Tag.min 1, Tag.max 200] event.Title
  ++ fieldError parse "DateEvent" [Tag.required, Tag.rfc3339] event.DateEvent
  ++ fieldError parse "CreationDate" [Tag.required, Tag.rfc3339] event.CreationDate
  ++ fieldError parse "EndDateEvent" [Tag.required, Tag.rfc3339] event.EndDateEvent
  ++ fieldError parse "DescriptionEvent" [Tag.omitempty, Tag.max 1000] event.DescriptionEvent
  ++ fieldError parse "UserID" [Tag.required, Tag.min 1, Tag.max 100] event.UserID
  ++ fieldError parse "TimeForNotification" [Tag.omitempty, Tag.rfc3339_optional]
      event.TimeForNotification
  ++ fieldError parse "RqTm" [Tag.omitempty, Tag.rfc3339_optional] event.RqTm

/-! ## Handlers (`controllers/handler/handler.go`) -/

/-- The error `time.Parse` returns for a text it cannot read. -/
def errParse : Error := Error.msg "parsing time"

/-- Function `validateEventDates`; `parse` is `time.Parse` with layout `time.RFC3339`. -/
def validateEventDates (parse : String → Option Time) (event : Event) : Option Error :=
  match parse event.DateEvent with
  | none => some (Error.wrap "неверный формат dateEvent" errParse)
  | some dateEvent =>
    match parse event.EndDateEvent with
    | none => some (Error.wrap "неверный формат durationEvent" errParse)
    | some endDateEvent =>
      if !endDateEvent.After dateEvent then
        some (Error.msg "дата окончания события должна быть после даты начала")
      else if event.TimeForNotification ≠ "" then
        match parse event.TimeForNotification with
        | none => some (Error.wrap "неверный формат timeForNotification" errParse)
        | some notificationTime =>
          if !notificationTime.Before dateEvent then
            some (Error.msg "время уведомления должно быть до начала события")
          else none
      else none

/-- The value of a hexadecimal digit. -/
def hexValue (c : Char) : Option Nat :=
  if c.isDigit then some (c.toNat - 48)
  else if 'a' ≤ c ∧ c ≤ 'f' then some (c.toNat - 87)
  else if 'A' ≤ c ∧ c ≤ 'F' then some (c.toNat - 55)
  else none

/-- The number a run of hexadecimal digits denotes. -/
def parseHex (cs : List Char) : Option Nat :=
  cs.foldl (fun acc c => acc.bind (fun n => (hexValue c).map (fun d => n * 16 + d))) (some 0)

/-- Method `UUID.UnmarshalText` of the UUID library for a text in the canonical form
of five groups of hexadecimal digits: the number of the UUID. Other forms the
library also reads (in braces, with the prefix `urn:uuid:`, without hyphens) are not
read here. The theorems that hold for any reading of a text as a UUID take the
reading as an argument. -/
def FromString (text : String) : Option Nat :=
  let cs := text.data
  if cs.length = 36 ∧ cs.get? 8 = some '-' ∧ cs.get? 13 = some '-' ∧ cs.get? 18 = some '-'
      ∧ cs.get? 23 = some '-' then
    parseHex (cs.take 8 ++ (cs.drop 9).take 4 ++ (cs.drop 14).take 4 ++ (cs.drop 19).take 4
      ++ cs.drop 24)
  else none

/-- The functions of libraries that the handlers call on a text. -/
structure Lib where
  /-- the call `time.Parse(time.RFC3339, text)` -/
  parse : String → Option Time
  /-- the reading of the text of a JSON string as a `uuid.UUID` -/
  uuid : String → Option Nat

/-- The library functions as modelled in this file. -/
def goLib : Lib := { parse := ParseRFC3339, uuid := FromString }

/-- The zero value of struct `entity.Event`. -/
def zeroEvent : Event :=
  { ID := 0, Title := "", DateEvent := "", CreationDate := "", EndDateEvent := "",
    DescriptionEvent := "", UserID := "", TimeForNotification := "", RqTm := "" }

/-- A key of a JSON object with its letters in lower case: the decoder matches a key
with the `json` tag of a field without regard to case. -/
def foldKey (key : String) : List Char := key.data.map Char.toLower

/-- One member of the JSON object of a request body, decoded into the struct: the
field whose `json` tag is the key takes the value, a key that is no tag is skipped,
and an id that is no UUID is an error. -/
def setField (uuid : String → Option Nat) (event : Event) (kv : String × String) :
    Option Event :=
  if foldKey kv.1 = foldKey "id" then (uuid kv.2).map (fun u => { event with ID := u })
  else if foldKey kv.1 = foldKey "title" then some { event with Title := kv.2 }
  else if foldKey kv.1 = foldKey "dateEvent" then some { event with DateEvent := kv.2 }
  else if foldKey kv.1 = foldKey "creationDate" then some { event with CreationDate := kv.2 }
  else if foldKey kv.1 = foldKey "durationEvent" then some { event with EndDateEvent := kv.2 }
  else if foldKey kv.1 = foldKey "descriptionEvent" then
    some { event with DescriptionEvent := kv.2 }
  else if foldKey kv.1 = foldKey "userID" then some { event with UserID := kv.2 }
  else if foldKey kv.1 = foldKey "timeForNotification" then
    some { event with TimeForNotification := kv.2 }
  else if foldKey kv.1 = foldKey "RqTm" then some { event with RqTm := kv.2 }
  else some event

/-- Call `c.BodyParser(&event)` for a request of content type `application/json`
whose body is a JSON object with string values, given as its members in the order
written; `none` is the error. -/
def BodyParser (uuid : String → Option Nat) (body : List (String × String)) : Option Event :=
  body.foldl (fun acc kv => acc.bind (fun event => setField uuid event kv)) (some zeroEvent)

/-- Test `errors.Is(err, target)`. -/
def errorsIs (target : Error) : Error → Bool
  | Error.wrap t e => decide (Error.wrap t e = target) || errorsIs target e
  | e => decide (e = target)

/-- What a handler did: the status of the response (`none` when a panic of the use
case passed through it), the event it handed to the use case if it got that far, and
the store. -/
structure HandlerResult where
  status : Option Nat
  forwarded : Option Event
  store : Store
  deriving DecidableEq, Repr

/-- Method `HandlerImpl.CreateEvent`; `usecase` is `h.usecase.CreateEvent`. -/
def HandlerCreateEvent (lib : Lib) (usecase : Event → Store → FnResult × Store)
    (body : List (String × String)) (s : Store) : HandlerResult :=
  match BodyParser lib.uuid body with
  | none => { status := some 400, forwarded := none, store := s }
  | some event =>
    if ValidateStruct lib.parse event ≠ [] then
      { status := some 400, forwarded := none, store := s }
    else
      match validateEventDates lib.parse event with
      | some _ => { status := some 400, forwarded := none, store := s }
      | none =>
        match usecase event s with
        | (FnResult.panicked, s1) => { status := none, forwarded := some event, store := s1 }
        | (FnResult.returned none, s1) =>
          { status := some 200, forwarded := some event, store := s1 }
        | (FnResult.returned (some err), s1) =>
          if errorsIs ErrEventAlreadyExists err then
            { status := some 409, forwarded := some event, store := s1 }
          else { status := some 500, forwarded := some event, store := s1 }

/-- Method `HandlerImpl.UpdateEvent`; `usecase` is `h.usecase.UpdateEvent`. -/
def HandlerUpdateEvent (lib : Lib) (usecase : Event → Store → FnResult × Store)
    (body : List (String × String)) (s : Store) : HandlerResult :=
  match BodyParser lib.uuid body with
  | none => { status := some 400, forwarded := none, store := s }
  | some event =>
    if ValidateStruct lib.parse event ≠ [] then
      { status := some 400, forwarded := none, store := s }
    else
      match validateEventDates lib.parse event with
      | some _ => { status := some 400, forwarded := none, store := s }
      | none =>
        match usecase event s with
        | (FnResult.panicked, s1) => { status := none, forwarded := some event, store := s1 }
        | (FnResult.returned none, s1) =>
          { status := some 200, forwarded := some event, store := s1 }
        | (FnResult.returned (some err), s1) =>
          if errorsIs ErrEventNotFound err then
            { status := some 404, forwarded := some event, store := s1 }
          else { status := some 500, forwarded := some event, store := s1 }

/-- Methods `UseCase.CreateEvent` and `ServiceImpl.CreateEvent`: the event is
marshalled (`marshal` is `json.Marshal`, which has no error for this struct) and
handed to the transactional writer. -/
def UseCaseCreateEvent (marshal : Event → List Nat) (jsonb : List Nat → Option (List Nat))
    (f : CreateFaults) (dbNow : Int) (event : Event) (s : Store) : FnResult × Store :=
  CreateEvent jsonb f dbNow event (marshal event) s

/-- Methods `UseCase.UpdateEvent` and `ServiceImpl.UpdateEvent`, which hand the
patch to the repository. -/
def UseCaseUpdateEvent (execErr : Option Error) (dbNow : Int) (event : Event) (s : Store) :
    FnResult × Store :=
  (FnResult.returned (RepoUpdateEvent execErr dbNow event s).1,
   (RepoUpdateEvent execErr dbNow event s).2)

/-- A database that does not fail during `TransactionsImpl.CreateEvent`. -/
def noCreateFaults : CreateFaults :=
  { beginErr := none, insertEventErr := none, insertOutboxErr := none, commitErr := none }

/-- The body of the create request of the spec's first scenario, with the keys as
the spec writes them. -/
def scenarioBody : List (String × String) :=
  [("id", "11111111-1111-1111-1111-111111111111"), ("title", "t"),
   ("dateEvent", "2026-01-20T11:00:00Z"), ("endDateEvent", "2026-01-20T12:00:00Z"),
   ("creationDate", "2026-01-20T10:00:00Z"), ("userID", "u1"),
   ("rqTm", "2026-01-20T10:00:00Z")]

/-- The same request with the end under the key `durationEvent`, the `json` tag of
field `EndDateEvent`. -/
def durationBody : List (String × String) :=
  [("id", "11111111-1111-1111-1111-111111111111"), ("title", "t"),
   ("dateEvent", "2026-01-20T11:00:00Z"), ("durationEvent", "2026-01-20T12:00:00Z"),
   ("creationDate", "2026-01-20T10:00:00Z"), ("userID", "u1"),
   ("rqTm", "2026-01-20T10:00:00Z")]

/-- The event the second body decodes to. -/
def scenarioEvent : Event :=
  { ID := 0x11111111111111111111111111111111, Title := "t",
    DateEvent := "2026-01-20T11:00:00Z", CreationDate := "2026-01-20T10:00:00Z",
    EndDateEvent := "2026-01-20T12:00:00Z", DescriptionEvent := "", UserID := "u1",
    TimeForNotification := "", RqTm := "2026-01-20T10:00:00Z" }

/-- A marshaller that renders every event as the empty JSON object. -/
def emptyDocument : Event → List Nat := fun _ => [123, 125]

/-- An update request that carries the id and a new title only. -/
def titleOnlyBody : List (String × String) :=
  [("id", "11111111-1111-1111-1111-111111111111"), ("title", "new title")]

/-- The body has no member whose key is the given tag, in any case of the letters. -/
def lacksKey (tag : String) (body : List (String × String)) : Prop :=
  ∀ kv ∈ body, foldKey kv.1 ≠ foldKey tag

/-! ## The relay loop (`service/relay.go`) -/

/-- What a worker did with the records it received. -/
structure WorkerResult where
  store : Store
  calls : List Call
  /-- a panic left the loop, the goroutine and with it the process -/
  panicked : Bool
  /-- the number of records whose `ProcessOne` returned -/
  processed : Nat
  deriving DecidableEq, Repr

/-- Method `ServiceImpl.worker` over the records it receives from the channel, each
with the world of its `ProcessOne`, until the context is done. The loop has no
`recover`: a panic of `ProcessOne` passes through it, and the records that were
still to come are not processed. -/
def worker (maxAttempts : Int) : List (OutboxEvent × ProcessEnv) → Store → WorkerResult
  | [], s => { store := s, calls := [], panicked := false, processed := 0 }
  | (e, env) :: jobs, s =>
    if (ProcessOne maxAttempts env e s).panicked then
      { store := (ProcessOne maxAttempts env e s).store,
        calls := (ProcessOne maxAttempts env e s).calls, panicked := true, processed := 0 }
    else
      { store := (worker maxAttempts jobs (ProcessOne maxAttempts env e s).store).store,
        calls := (ProcessOne maxAttempts env e s).calls
          ++ (worker maxAttempts jobs (ProcessOne maxAttempts env e s).store).calls,
        panicked := (worker maxAttempts jobs (ProcessOne maxAttempts env e s).store).panicked,
        processed :=
          (worker maxAttempts jobs (ProcessOne maxAttempts env e s).store).processed + 1 }

/-- Struct `config.RelayConfig`; the durations are in nanoseconds. -/
structure RelayConfig where
  Workers : Int
  BatchSize : Int
  Lease : Int
  PollPeriod : Int
  MaxAttempts : Int
  deriving DecidableEq, Repr

/-- The relay between two steps of its goroutines: the database, the records of the
last batch that the poller has yet to send on the channel, the channel `jobs`
(oldest first), the record each busy worker is in `ProcessOne` with, and whether a
panic has ended the process. -/
structure RelayState where
  store : Store
  pending : List OutboxEvent
  jobs : List OutboxEvent
  busy : List (Int × OutboxEvent)
  crashed : Bool
  deriving DecidableEq, Repr

/-- A step of one goroutine of the relay. -/
inductive Tick where
  /-- the ticker fires and the poller calls `GetOperationsFromOutbox`: the faults of
  the database, the order in which it returns rows, and its `now()` -/
  | poll (f : TxFaults) (rank : Int → Int) (dbNow : Int)
  /-- the poller sends the next record of its batch on the channel -/
  | send
  /-- the idle worker `id` receives the oldest record of the channel -/
  | receive (id : Int)
  /-- the call of `ProcessOne` of worker `id` ends, in the given world -/
  | done (id : Int) (env : ProcessEnv)

/-- The relay as `RelayEventRun` starts it on a database. -/
def initial (s : Store) : RelayState :=
  { store := s, pending := [], jobs := [], busy := [], crashed := false }

/-- One step of `RelayEventRun` and its workers; `none` when the step cannot be
taken in the state. The poller polls only once it has sent its last batch; a send
needs room in the channel, whose capacity is `BatchSize * 2`; a worker receives only
when it is idle. -/
def relayStep (cfg : RelayConfig) : Tick → RelayState → Option RelayState
  | Tick.poll f rank dbNow, st =>
    if st.crashed = true ∨ st.pending ≠ [] then none
    else
      match GetOperationsFromOutbox f rank dbNow cfg.Lease cfg.BatchSize cfg.MaxAttempts
          st.store with
      | ((FnResult.returned none, events), s1) => some { st with store := s1, pending := events }
      | ((FnResult.returned (some _), _), s1) => some { st with store := s1 }
      | ((FnResult.panicked, _), s1) => some { st with store := s1, crashed := true }
  | Tick.send, st =>
    if st.crashed = true then none
    else
      match st.pending with
      | [] => none
      | e :: rest =>
        if (st.jobs.length : Int) < cfg.BatchSize * 2 then
          some { st with pending := rest, jobs := st.jobs ++ [e] }
        else none
  | Tick.receive id, st =>
    if st.crashed = true ∨ id < 0 ∨ cfg.Workers ≤ id ∨ st.busy.any (fun b => b.1 == id) then none
    else
      match st.jobs with
      | [] => none
      | e :: rest => some { st with jobs := rest, busy := (id, e) :: st.busy }
  | Tick.done id env, st =>
    if st.crashed = true then none
    else
      match st.busy.find? (fun b => b.1 == id) with
      | none => none
      | some b =>
        some { st with
          store := (ProcessOne cfg.MaxAttempts env b.2 st.store).store,
          busy := st.busy.filter (fun x => !(x.1 == id)),
          crashed := (ProcessOne cfg.MaxAttempts env b.2 st.store).panicked }

/-- An execution of the relay: the steps taken in order; `none` when one of them
cannot be taken. -/
def run (cfg : RelayConfig) : List Tick → RelayState → Option RelayState
  | [], st => some st
  | t :: ts, st =>
    match relayStep cfg t st with
    | some st1 => run cfg ts st1
    | none => none

/-- The records that are reserved and not yet dealt with: waiting to be sent, in
the channel, or in the hands of a worker. -/
def inflight (st : RelayState) : List OutboxEvent :=
  st.pending ++ st.jobs ++ st.busy.map (fun b => b.2)

/-- At database time `dbNow` the lease of every record in flight is still running:
the `next_attempt_at` of its row lies in the future. -/
def leaseHeld (dbNow : Int) (st : RelayState) : Bool :=
  (inflight st).all (fun e =>
    st.store.outbox.all (fun r => !(r.ID == e.ID) || decide (dbNow < r.NextAttemptAt)))

/-- The database time of a poll. -/
def pollTime : Tick → Option Int
  | Tick.poll _ _ dbNow => some dbNow
  | _ => none

/-- Every poll of the execution happens while the leases of all records in flight
are still running. -/
def timely (cfg : RelayConfig) : List Tick → RelayState → Bool
  | [], _ => true
  | t :: ts, st =>
    (match pollTime t with
     | some dbNow => leaseHeld dbNow st
     | none => true) &&
    (match relayStep cfg t st with
     | some st1 => timely cfg ts st1
     | none => true)

/-- A relay of two workers with a batch of 10, a lease of 5 s and a budget of 3. -/
def demoRelay : RelayConfig :=
  { Workers := 2, BatchSize := 10, Lease := 5 * Second, PollPeriod := 6 * Second,
    MaxAttempts := 3 }

/-- A producer that has sent the message. -/
def sentResult : ProduceResult :=
  { err := none, panicked := false, sent := [mkMessage 1 [123, 125]], sleeps := [] }

/-- An execution in which the only record is still with worker 0 when its lease
runs out: it is reserved at time 10, sent and received by worker 0; the poll at
6 s reserves it again, and worker 1 receives it. -/
def overrun : List Tick :=
  [Tick.poll noFaults byId 10, Tick.send, Tick.receive 0,
   Tick.poll noFaults byId 6000000000, Tick.send, Tick.receive 1]

/-- An execution in which worker 0 is done within the lease: the poll at 1 s finds
the record leased and reserves nothing. -/
def inTime : List Tick :=
  [Tick.poll noFaults byId 10, Tick.send, Tick.receive 0,
   Tick.poll noFaults byId 1000000000, Tick.done 0 (calmEnv sentResult)]

/-- The producer result of three retryable failures. -/
def failedResult : ProduceResult :=
  ProduceMessage 3 (always (SendOutcome.kerr ErrLeaderNotAvailable)) 1 [123, 125]

/-- A relay of three workers with a batch of 10, a lease of 5 s and a budget of 2. -/
def staleRelay : RelayConfig :=
  { Workers := 3, BatchSize := 10, Lease := 5 * Second, PollPeriod := 6 * Second,
    MaxAttempts := 2 }

/-- An execution in which the only record outlasts its lease twice: it is reserved
at time 10 and received by worker 0, reserved again at 6 s and received by worker 1,
reserved again at 12 s and received by worker 2, each time with attempts 0; then the
three sends fail one after the other. -/
def staleMarks : List Tick :=
  [Tick.poll noFaults byId 10, Tick.send, Tick.receive 0,
   Tick.poll noFaults byId 6000000000, Tick.send, Tick.receive 1,
   Tick.poll noFaults byId 12000000000, Tick.send, Tick.receive 2,
   Tick.done 0 (calmEnv failedResult), Tick.done 1 (calmEnv failedResult),
   Tick.done 2 (calmEnv failedResult)]

/-- An execution in which the failed send of worker 0 is marked within the lease and
the record is reserved again only when its backoff has passed. -/
def retried : List Tick :=
  [Tick.poll noFaults byId 10, Tick.send, Tick.receive 0,
   Tick.done 0 (calmEnv failedResult),
   Tick.poll noFaults byId 6000000000, Tick.send, Tick.receive 1,
   Tick.done 1 (calmEnv failedResult)]

/-- What holds of the relay while every poll finds the leases of the records in
flight running: the table has its primary key, every row that is `NEW` or `FAILED`
is within the budget `m`, the records in flight have pairwise distinct ids, and each
of them is the row of its id as the table holds it, within the budget. -/
def relayInv (m : Int) (st : RelayState) : Prop :=
  primaryKey st.store ∧ attemptsInBudget m st.store.outbox ∧
  ((inflight st).map (fun r => r.ID)).Nodup ∧
  ∀ e ∈ inflight st, rowOf e.ID st.store = some e ∧ 0 ≤ e.Attempts ∧ e.Attempts < m

/-- The state in which the execution `retried` ends: the record given up with
attempts 2, nothing in flight. -/
def retriedEnd : RelayState :=
  { store := { freshStore with
                 outbox := [{ freshRow with Status := OutboxStatus.GAVE_UP, Attempts := 2,
                                            NextAttemptAt := 100 }] },
    pending := [], jobs := [], busy := [], crashed := false }

/-! ## Auxiliary facts -/

/-- An `int64` sum that stays in range is not changed by the wrap-around. -/
theorem wrap64_of_inRange (x : Int) (h0 : -9223372036854775808 ≤ x) (h1 : x ≤ maxInt64) :
    wrap64 x = x := by
  unfold wrap64
  unfold maxInt64 at h1
  omega

/-- The backoff of a first failure: half a second plus the jitter. -/
theorem NextBackoffWithJitter_zero (draw : Nat) :
    NextBackoffWithJitter 0 draw = some (500000000 + (draw : Int) % 500000000) := by
  have h : Int.tdiv 1000000000 2 = 500000000 := by decide
  simp [NextBackoffWithJitter, shl64, wrap64, Second, Minute, Int63n, h]

/-- Up to 33 earlier attempts the backoff is computed without a panic and is positive. -/
theorem NextBackoffWithJitter_small (a : Int) (draw : Nat) (h0 : 0 ≤ a) (h1 : a ≤ 33) :
    ∃ d, NextBackoffWithJitter a draw = some d ∧ 0 < d := by
  have hz := NextBackoffWithJitter_zero draw
  have hdraw : (0 : Int) ≤ (draw : Int) := Int.ofNat_nonneg draw
  have e1 : Int.tdiv 2000000000 2 = 1000000000 := by decide
  have e2 : Int.tdiv 4000000000 2 = 2000000000 := by decide
  have e3 : Int.tdiv 8000000000 2 = 4000000000 := by decide
  have e4 : Int.tdiv 16000000000 2 = 8000000000 := by decide
  have e5 : Int.tdiv 32000000000 2 = 16000000000 := by decide
  have e6 : Int.tdiv 64000000000 2 = 32000000000 := by decide
  have e7 : Int.tdiv 128000000000 2 = 64000000000 := by decide
  have e8 : Int.tdiv 256000000000 2 = 128000000000 := by decide
  have e9 : Int.tdiv 512000000000 2 = 256000000000 := by decide
  have e10 : Int.tdiv 1024000000000 2 = 512000000000 := by decide
  have e11 : Int.tdiv 1800000000000 2 = 900000000000 := by decide
  interval_cases a
  · exact ⟨_, hz, by omega⟩
  all_goals
    simp [NextBackoffWithJitter, shl64, wrap64, Second, Minute, Int63n,
      e1, e2, e3, e4, e5, e6, e7, e8, e9, e10, e11]
    omega

/-- An update by id that keeps the id maps the row of that id. -/
theorem find_updateWhereId_self (id : Int) (set : OutboxEvent → OutboxEvent)
    (hset : ∀ r, (set r).ID = r.ID) (t : List OutboxEvent) :
    (updateWhereId id set t).find? (fun r => decide (r.ID = id))
      = (t.find? (fun r => decide (r.ID = id))).map set := by
  induction t with
  | nil => rfl
  | cons r t ih =>
    unfold updateWhereId at ih ⊢
    by_cases h : r.ID = id
    · have h3 : (set r).ID = id := by rw [hset]; exact h
      rw [List.map_cons, if_pos h, List.find?_cons_of_pos _ (by simpa using h3),
        List.find?_cons_of_pos _ (by simpa using h)]
      rfl
    · rw [List.map_cons, if_neg h, List.find?_cons_of_neg _ (by simpa using h),
        List.find?_cons_of_neg _ (by simpa using h)]
      exact ih

/-- An update by id that keeps the id leaves the rows of other ids alone. -/
theorem find_updateWhereId_other (id id2 : Int) (set : OutboxEvent → OutboxEvent)
    (hset : ∀ r, (set r).ID = r.ID) (hne : id2 ≠ id) (t : List OutboxEvent) :
    (updateWhereId id set t).find? (fun r => decide (r.ID = id2))
      = t.find? (fun r => decide (r.ID = id2)) := by
  induction t with
  | nil => rfl
  | cons r t ih =>
    unfold updateWhereId at ih ⊢
    by_cases h : r.ID = id
    · have h2 : ¬ r.ID = id2 := fun h3 => hne (h3.symm.trans h)
      have h3 : ¬ (set r).ID = id2 := by rw [hset]; exact h2
      rw [List.map_cons, if_pos h, List.find?_cons_of_neg _ (by simpa using h3),
        List.find?_cons_of_neg _ (by simpa using h2)]
      exact ih
    · by_cases h2 : r.ID = id2
      · rw [List.map_cons, if_neg h, List.find?_cons_of_pos _ (by simpa using h2),
          List.find?_cons_of_pos _ (by simpa using h2)]
      · rw [List.map_cons, if_neg h, List.find?_cons_of_neg _ (by simpa using h2),
          List.find?_cons_of_neg _ (by simpa using h2)]
        exact ih

/-- An update by id keeps the ids of the table. -/
theorem map_ID_updateWhereId (id : Int) (set : OutboxEvent → OutboxEvent)
    (hset : ∀ r, (set r).ID = r.ID) (t : List OutboxEvent) :
    (updateWhereId id set t).map (fun r => r.ID) = t.map (fun r => r.ID) := by
  unfold updateWhereId
  rw [List.map_map]
  apply List.map_congr_left
  intro r _
  by_cases h : r.ID = id
  · simp [h, hset]
  · simp [h]

/-- Under the primary key the range test of `attempts + 1` looks at the one row of the id. -/
theorem attemptsOverflow_of_find (id : Int) (e : OutboxEvent) (t : List OutboxEvent)
    (hpk : (t.map (fun r => r.ID)).Nodup)
    (hrow : t.find? (fun r => decide (r.ID = id)) = some e) :
    attemptsOverflow id t = decide (e.Attempts + 1 > attemptsColumnMax) := by
  induction t with
  | nil => simp at hrow
  | cons r t ih =>
    rw [List.map_cons, List.nodup_cons] at hpk
    unfold attemptsOverflow at ih ⊢
    by_cases h : r.ID = id
    · simp [List.find?, h] at hrow
      subst hrow
      have hno : ∀ x ∈ t, ¬ x.ID = id := by
        intro x hx hxid
        exact hpk.1 (List.mem_map.mpr ⟨x, hx, by rw [hxid, h]⟩)
      have hany : (t.any fun r => decide (r.ID = id) && decide (r.Attempts + 1 > attemptsColumnMax)) = false := by
        rw [List.any_eq_false]
        intro x hx
        simp [hno x hx]
      rw [List.any_cons, hany]
      simp [h]
    · simp [List.find?, h] at hrow
      rw [List.any_cons, ih hpk.2 hrow]
      simp [h]

/-! ## Finalisation policy of a record -/

/-- C1: for every outbox id, every `attempts ≥ 0` (whose successor is still a Go
`int`) and every `maxAttempts`, `markOutboxFailedOrGaveUp` calls `MarkGaveUp`, and
nothing else, if and only if `attempts + 1 ≥ maxAttempts`; otherwise it calls
`MarkFailedWithBackoff` exactly once, with `next_attempt_at = now + backoff`.
`ProcessOne`, when the producer returned an error, makes that call with the
record's id and attempts, the configured `maxAttempts` and
`backoff = NextBackoffWithJitter(record.attempts)`. -/
theorem markOutboxFailedOrGaveUp_policy
    (execErr : Option Error) (clock dbNow outboxID attempts maxAttempts backoff : Int) (s : Store)
    (cfgMax : Int) (env : ProcessEnv) (e : OutboxEvent) (s0 : Store) (d : Int)
    (h0 : 0 ≤ attempts) (h1 : attempts < maxInt64)
    (hret : env.produce.panicked = false) (herr : env.produce.err.isSome = true)
    (hd : NextBackoffWithJitter e.Attempts env.draw = some d) :
    ((markOutboxFailedOrGaveUp execErr clock dbNow outboxID attempts maxAttempts backoff s).2
        = [Call.MarkGaveUp outboxID] ↔ attempts + 1 ≥ maxAttempts) ∧
    (attempts + 1 ≥ maxAttempts →
      markOutboxFailedOrGaveUp execErr clock dbNow outboxID attempts maxAttempts backoff s
        = (MarkGaveUp execErr dbNow outboxID s, [Call.MarkGaveUp outboxID])) ∧
    (¬ attempts + 1 ≥ maxAttempts →
      markOutboxFailedOrGaveUp execErr clock dbNow outboxID attempts maxAttempts backoff s
        = (MarkFailedWithBackoff execErr outboxID (clock + backoff) s,
            [Call.MarkFailedWithBackoff outboxID (clock + backoff)])) ∧
    ProcessOne cfgMax env e s0 =
      { store := (markOutboxFailedOrGaveUp env.markErr env.clock env.dbNow e.ID e.Attempts
                    cfgMax d s0).1.2,
        calls := Call.ProduceMessage e.ID e.Payload ::
          (markOutboxFailedOrGaveUp env.markErr env.clock env.dbNow e.ID e.Attempts
            cfgMax d s0).2,
        panicked := false } := by
  have hw : wrap64 (attempts + 1) = attempts + 1 :=
    wrap64_of_inRange _ (by omega) (by unfold maxInt64 at *; omega)
  refine ⟨?_, ?_, ?_, ?_⟩
  · unfold markOutboxFailedOrGaveUp
    rw [hw]
    by_cases h : attempts + 1 ≥ maxAttempts
    · simp [h]
    · simp [h]
  · intro h
    unfold markOutboxFailedOrGaveUp
    rw [hw, if_pos h]
  · intro h
    unfold markOutboxFailedOrGaveUp
    rw [hw, if_neg h]
  · obtain ⟨x, hx⟩ := Option.isSome_iff_exists.mp herr
    unfold ProcessOne
    simp [hret, hx, hd]

/-- C1 at a concrete input: the fresh record, a cancelled producer and a budget of 3. -/
theorem markOutboxFailedOrGaveUp_policy_witness :
    markOutboxFailedOrGaveUp none 100 100 1 0 3 500000000 freshStore
      = (MarkFailedWithBackoff none 1 (100 + 500000000) freshStore,
          [Call.MarkFailedWithBackoff 1 (100 + 500000000)]) ∧
    (ProcessOne 3 (calmEnv (ProduceMessage 3 cancelled 1 [123, 125])) freshRow freshStore).calls
      = [Call.ProduceMessage 1 [123, 125], Call.MarkFailedWithBackoff 1 500000100] :=
  ⟨(markOutboxFailedOrGaveUp_policy none 100 100 1 0 3 500000000 freshStore 3
      (calmEnv (ProduceMessage 3 cancelled 1 [123, 125])) freshRow freshStore 500000000
      (by decide) (by decide) rfl rfl (by decide)).2.2.1 (by decide),
   by decide⟩

/-! ## What the failure marks do to the row of a record -/

/-- A successful `MarkGaveUp` of a stored record. -/
theorem rowOf_MarkGaveUp (dbNow id : Int) (e : OutboxEvent) (s : Store)
    (hpk : primaryKey s) (hrow : rowOf id s = some e)
    (hr : e.Attempts + 1 ≤ attemptsColumnMax) :
    (MarkGaveUp none dbNow id s).1 = none ∧
    rowOf id (MarkGaveUp none dbNow id s).2
      = some (setGaveUp dbNow e) := by
  have hov : attemptsOverflow id s.outbox = false := by
    rw [attemptsOverflow_of_find id e s.outbox hpk hrow]
    simpa using hr
  unfold MarkGaveUp
  simp only [hov]
  refine ⟨rfl, ?_⟩
  unfold rowOf at hrow ⊢
  simp only [Bool.false_eq_true, if_false]
  rw [find_updateWhereId_self id (setGaveUp dbNow) (fun _ => rfl), hrow]
  rfl

/-- A successful `MarkFailedWithBackoff` of a stored record. -/
theorem rowOf_MarkFailedWithBackoff (id nextAttemptAt : Int) (e : OutboxEvent) (s : Store)
    (hpk : primaryKey s) (hrow : rowOf id s = some e)
    (hr : e.Attempts + 1 ≤ attemptsColumnMax) :
    (MarkFailedWithBackoff none id nextAttemptAt s).1 = none ∧
    rowOf id (MarkFailedWithBackoff none id nextAttemptAt s).2
      = some (setFailed nextAttemptAt e) := by
  have hov : attemptsOverflow id s.outbox = false := by
    rw [attemptsOverflow_of_find id e s.outbox hpk hrow]
    simpa using hr
  unfold MarkFailedWithBackoff
  simp only [hov]
  refine ⟨rfl, ?_⟩
  unfold rowOf at hrow ⊢
  simp only [Bool.false_eq_true, if_false]
  rw [find_updateWhereId_self id (setFailed nextAttemptAt) (fun _ => rfl), hrow]
  rfl

/-- The path of `ProcessOne` after a producer error, when the backoff is computed. -/
theorem ProcessOne_of_error (maxAttempts : Int) (env : ProcessEnv) (e : OutboxEvent) (s : Store)
    (err : Error) (d : Int)
    (hret : env.produce.panicked = false) (herr : env.produce.err = some err)
    (hd : NextBackoffWithJitter e.Attempts env.draw = some d) :
    ProcessOne maxAttempts env e s =
      { store := (markOutboxFailedOrGaveUp env.markErr env.clock env.dbNow e.ID e.Attempts
                    maxAttempts d s).1.2,
        calls := Call.ProduceMessage e.ID e.Payload ::
          (markOutboxFailedOrGaveUp env.markErr env.clock env.dbNow e.ID e.Attempts
            maxAttempts d s).2,
        panicked := false } := by
  unfold ProcessOne
  simp [hret, herr, hd]

/-- The row of a stored record after a `ProcessOne` whose producer returned an
error, whose backoff `d` was computed and whose mark statement did not fail:
one more attempt, `GAVE_UP` when the budget is used up and `FAILED` otherwise. -/
theorem rowOf_ProcessOne_of_error (maxAttempts : Int) (env : ProcessEnv) (e : OutboxEvent)
    (s : Store) (err : Error) (d : Int)
    (hpk : primaryKey s) (hrow : rowOf e.ID s = some e)
    (h0 : 0 ≤ e.Attempts) (hr : e.Attempts + 1 ≤ attemptsColumnMax)
    (hret : env.produce.panicked = false) (herr : env.produce.err = some err)
    (hd : NextBackoffWithJitter e.Attempts env.draw = some d)
    (hmark : env.markErr = none) :
    (e.Attempts + 1 ≥ maxAttempts →
      (ProcessOne maxAttempts env e s).calls
        = [Call.ProduceMessage e.ID e.Payload, Call.MarkGaveUp e.ID] ∧
      rowOf e.ID (ProcessOne maxAttempts env e s).store
        = some (setGaveUp env.dbNow e)) ∧
    (e.Attempts + 1 < maxAttempts →
      (ProcessOne maxAttempts env e s).calls
        = [Call.ProduceMessage e.ID e.Payload,
           Call.MarkFailedWithBackoff e.ID (env.clock + d)] ∧
      rowOf e.ID (ProcessOne maxAttempts env e s).store
        = some (setFailed (env.clock + d) e)) := by
  have hw : wrap64 (e.Attempts + 1) = e.Attempts + 1 :=
    wrap64_of_inRange _ (by omega) (by unfold maxInt64; unfold attemptsColumnMax at hr; omega)
  rw [ProcessOne_of_error maxAttempts env e s err d hret herr hd, hmark]
  unfold markOutboxFailedOrGaveUp
  rw [hw]
  constructor
  · intro h
    rw [if_pos h]
    exact ⟨rfl, (rowOf_MarkGaveUp env.dbNow e.ID e s hpk hrow hr).2⟩
  · intro h
    rw [if_neg (by omega)]
    exact ⟨rfl, (rowOf_MarkFailedWithBackoff e.ID (env.clock + d) e s hpk hrow hr).2⟩

/-! ## Permanent broker errors -/

/-- C2 does not hold as stated: with a budget of 3 the fresh record, reserved and then
processed against a broker that answers topic-authorisation-failed (the producer
returns its permanent error after one send), is left `FAILED` with one attempt and
is reserved again once its backoff has passed. -/
theorem permanent_error_counterexample :
    ProduceMessage 3 (always (SendOutcome.kerr ErrTopicAuthorizationFailed)) 1 [123, 125]
      = { err := some (Error.wrap "permanent kafka error" (Error.kafka ErrTopicAuthorizationFailed)),
          panicked := false, sent := [mkMessage 1 [123, 125]], sleeps := [] } ∧
    GetOperationsFromOutbox noFaults byId 10 (5 * Second) 10 3 freshStore
      = ((FnResult.returned none, [leasedRow]), leasedStore) ∧
    rowOf 1 (ProcessOne 3
        (calmEnv (ProduceMessage 3 (always (SendOutcome.kerr ErrTopicAuthorizationFailed)) 1 [123, 125]))
        leasedRow leasedStore).store
      = some { leasedRow with Status := OutboxStatus.FAILED, Attempts := 1,
                              NextAttemptAt := 500000100 } ∧
    (GetOperationsFromOutbox noFaults byId 500000100 (5 * Second) 10 3
        (ProcessOne 3
          (calmEnv (ProduceMessage 3 (always (SendOutcome.kerr ErrTopicAuthorizationFailed)) 1 [123, 125]))
          leasedRow leasedStore).store).1.2.map (fun r => r.ID) = [1] := by
  decide

/-- C2, amended: for every reserved record with `attempts = 0`, if the producer
returns a permanent error (and the mark statement does not fail) then after
`ProcessOne` the record has `attempts = 1`; its status is `GAVE_UP` when the
record-level `maxAttempts` is at most 1, and `FAILED` with
`next_attempt_at = now + backoff(0)` when `maxAttempts ≥ 2`, in which case the record
is eligible for reservation again from that instant on. -/
theorem permanent_error_finalisation (maxAttempts : Int) (env : ProcessEnv) (e : OutboxEvent)
    (s : Store) (k : KError)
    (hpk : primaryKey s) (hrow : rowOf e.ID s = some e) (ha : e.Attempts = 0)
    (hret : env.produce.panicked = false)
    (herr : env.produce.err = some (Error.wrap "permanent kafka error" (Error.kafka k)))
    (hmark : env.markErr = none) :
    (maxAttempts ≤ 1 →
      rowOf e.ID (ProcessOne maxAttempts env e s).store = some (setGaveUp env.dbNow e) ∧
      (setGaveUp env.dbNow e).Status = OutboxStatus.GAVE_UP ∧
      (setGaveUp env.dbNow e).Attempts = 1) ∧
    (2 ≤ maxAttempts →
      rowOf e.ID (ProcessOne maxAttempts env e s).store
        = some (setFailed (env.clock + (500000000 + (env.draw : Int) % 500000000)) e) ∧
      (setFailed (env.clock + (500000000 + (env.draw : Int) % 500000000)) e).Status
        = OutboxStatus.FAILED ∧
      (setFailed (env.clock + (500000000 + (env.draw : Int) % 500000000)) e).Attempts = 1 ∧
      ∀ now, env.clock + (500000000 + (env.draw : Int) % 500000000) ≤ now →
        eligible now maxAttempts
          (setFailed (env.clock + (500000000 + (env.draw : Int) % 500000000)) e) = true) := by
  have hd : NextBackoffWithJitter e.Attempts env.draw
      = some (500000000 + (env.draw : Int) % 500000000) := by
    rw [ha]; exact NextBackoffWithJitter_zero env.draw
  have hmain := rowOf_ProcessOne_of_error maxAttempts env e s _ _ hpk hrow
    (by omega) (by rw [ha]; decide) hret herr hd hmark
  constructor
  · intro hm
    refine ⟨(hmain.1 (by omega)).2, rfl, ?_⟩
    simp [setGaveUp, ha]
  · intro hm
    refine ⟨(hmain.2 (by omega)).2, rfl, ?_, ?_⟩
    · simp [setFailed, ha]
    · intro now hnow
      simp only [eligible, setFailed, ha]
      simp
      exact ⟨hnow, by omega⟩

/-- C2 (amended) at a concrete input: the reserved fresh record, a broker that
answers topic-authorisation-failed, a budget of 3. -/
theorem permanent_error_finalisation_witness :
    rowOf 1 (ProcessOne 3
        (calmEnv (ProduceMessage 3 (always (SendOutcome.kerr ErrTopicAuthorizationFailed)) 1 [123, 125]))
        leasedRow leasedStore).store
      = some (setFailed (100 + (500000000 + ((0 : Nat) : Int) % 500000000)) leasedRow) :=
  ((permanent_error_finalisation 3
      (calmEnv (ProduceMessage 3 (always (SendOutcome.kerr ErrTopicAuthorizationFailed)) 1 [123, 125]))
      leasedRow leasedStore ErrTopicAuthorizationFailed
      (by decide) (by decide) (by decide) (by decide) (by decide) (by decide)).2 (by decide)).1

/-! ## Cancellation -/

/-- C3 does not hold as stated: when the context is already done the producer
returns the context's error without a send, and `ProcessOne` then marks the reserved
fresh record `FAILED`, with one attempt and a new `next_attempt_at`. -/
theorem cancellation_counterexample :
    ProduceMessage 3 cancelled 1 [123, 125]
      = { err := some Error.ctx, panicked := false, sent := [], sleeps := [] } ∧
    rowOf 1 leasedStore = some leasedRow ∧
    (ProcessOne 3 (calmEnv (ProduceMessage 3 cancelled 1 [123, 125])) leasedRow leasedStore).calls
      = [Call.ProduceMessage 1 [123, 125], Call.MarkFailedWithBackoff 1 500000100] ∧
    rowOf 1 (ProcessOne 3 (calmEnv (ProduceMessage 3 cancelled 1 [123, 125]))
        leasedRow leasedStore).store
      = some { leasedRow with Status := OutboxStatus.FAILED, Attempts := 1,
                              NextAttemptAt := 500000100 } := by
  decide

/-- C3, amended: for every reserved record, if `ProduceMessage` returns because the
context was cancelled (before a send or during the backoff sleep) and the backoff of
the record is computed, `ProcessOne` finalises the record as after any other producer
error: it invokes exactly one of `MarkGaveUp` (when `attempts + 1 ≥ maxAttempts`) and
`MarkFailedWithBackoff` (otherwise, with `next_attempt_at = now + backoff`), and when
that statement does not fail the row has one attempt more and status `GAVE_UP`,
respectively `FAILED`. -/
theorem cancellation_is_finalised (maxAttempts pmax : Int) (script : Int → AttemptEnv)
    (env : ProcessEnv) (e : OutboxEvent) (s : Store) (d : Int)
    (hpk : primaryKey s) (hrow : rowOf e.ID s = some e)
    (h0 : 0 ≤ e.Attempts) (hr : e.Attempts + 1 ≤ attemptsColumnMax)
    (hprod : env.produce = ProduceMessage pmax script e.ID e.Payload)
    (hret : (ProduceMessage pmax script e.ID e.Payload).panicked = false)
    (herr : (ProduceMessage pmax script e.ID e.Payload).err = some Error.ctx)
    (hd : NextBackoffWithJitter e.Attempts env.draw = some d)
    (hmark : env.markErr = none) :
    ((ProcessOne maxAttempts env e s).calls.countP isMarkCall = 1) ∧
    (e.Attempts + 1 ≥ maxAttempts →
      (ProcessOne maxAttempts env e s).calls
        = [Call.ProduceMessage e.ID e.Payload, Call.MarkGaveUp e.ID] ∧
      rowOf e.ID (ProcessOne maxAttempts env e s).store = some (setGaveUp env.dbNow e)) ∧
    (e.Attempts + 1 < maxAttempts →
      (ProcessOne maxAttempts env e s).calls
        = [Call.ProduceMessage e.ID e.Payload,
           Call.MarkFailedWithBackoff e.ID (env.clock + d)] ∧
      rowOf e.ID (ProcessOne maxAttempts env e s).store
        = some (setFailed (env.clock + d) e)) := by
  rw [← hprod] at hret herr
  have hmain := rowOf_ProcessOne_of_error maxAttempts env e s _ d hpk hrow h0 hr hret herr
    hd hmark
  refine ⟨?_, hmain.1, hmain.2⟩
  by_cases h : e.Attempts + 1 ≥ maxAttempts
  · rw [(hmain.1 h).1]; rfl
  · rw [(hmain.2 (by omega)).1]; rfl

/-- C3 (amended) at a concrete input: the reserved fresh record and a context that
is cancelled during the producer's sleep after a first failed send. -/
theorem cancellation_is_finalised_witness :
    (ProduceMessage 3 cancelledInSleep 1 [123, 125]).err = some Error.ctx ∧
    (ProduceMessage 3 cancelledInSleep 1 [123, 125]).sent = [mkMessage 1 [123, 125]] ∧
    rowOf 1 (ProcessOne 3 (calmEnv (ProduceMessage 3 cancelledInSleep 1 [123, 125]))
        leasedRow leasedStore).store
      = some (setFailed (100 + 500000000) leasedRow) :=
  ⟨by decide, by decide,
   ((cancellation_is_finalised 3 3 cancelledInSleep
      (calmEnv (ProduceMessage 3 cancelledInSleep 1 [123, 125])) leasedRow leasedStore 500000000
      (by decide) (by decide) (by decide) (by decide) rfl (by decide) (by decide) (by decide)
      (by decide)).2.2 (by decide)).2⟩

/-! ## Finalisation after a successful send -/

/-- C4: `ProcessOne` calls the producer exactly once in every case, as its first
call; and when the producer succeeds and `MarkSentAndUpdateEvent` then returns an
error, the calls of `ProcessOne` are that one send, the failed
`MarkSentAndUpdateEvent` and one `MarkGaveUp` of the record, and nothing more. -/
theorem no_resend_after_failed_finalisation (maxAttempts : Int) (env : ProcessEnv)
    (e : OutboxEvent) (s : Store) :
    (ProcessOne maxAttempts env e s).calls.countP isProduceCall = 1 ∧
    (ProcessOne maxAttempts env e s).calls.head? = some (Call.ProduceMessage e.ID e.Payload) ∧
    (env.produce.panicked = false → env.produce.err = none →
      ∀ err, (MarkSentAndUpdateEvent env.sentFaults e.ID s).1 = FnResult.returned (some err) →
        (ProcessOne maxAttempts env e s).calls
          = [Call.ProduceMessage e.ID e.Payload, Call.MarkSentAndUpdateEvent e.ID,
             Call.MarkGaveUp e.ID]) := by
  refine ⟨?_, ?_, ?_⟩
  · unfold ProcessOne markOutboxFailedOrGaveUp
    split
    · rfl
    · split
      · split
        · rfl
        · dsimp only
          split <;> rfl
      · split <;> rfl
  · unfold ProcessOne
    split
    · rfl
    · split
      · split <;> rfl
      · split <;> rfl
  · intro hret hok err hfin
    unfold ProcessOne
    rw [if_neg (by simp [hret])]
    simp only [hok]
    generalize MarkSentAndUpdateEvent env.sentFaults e.ID s = r at hfin
    obtain ⟨r1, s1⟩ := r
    simp only at hfin
    subst hfin
    rfl

/-- C4 at a concrete input: the send of the reserved fresh record succeeds and the
database is unreachable afterwards. -/
theorem no_resend_after_failed_finalisation_witness :
    (MarkSentAndUpdateEvent dbDown 1 leasedStore).1 = FnResult.returned (some (Error.pg "08006")) ∧
    (ProcessOne 3
        { calmEnv (ProduceMessage 3 (always SendOutcome.ok) 1 [123, 125]) with sentFaults := dbDown }
        leasedRow leasedStore).calls
      = [Call.ProduceMessage 1 [123, 125], Call.MarkSentAndUpdateEvent 1, Call.MarkGaveUp 1] :=
  ⟨by decide,
   (no_resend_after_failed_finalisation 3
      { calmEnv (ProduceMessage 3 (always SendOutcome.ok) 1 [123, 125]) with sentFaults := dbDown }
      leasedRow leasedStore).2.2 (by decide) (by decide) (Error.pg "08006") (by decide)⟩

/-! ## The retry budget of a record -/

/-- One failing round of a stored record with at most 33 earlier attempts: the
backoff is computed, and the row gets one attempt more and becomes `GAVE_UP` when the
budget is used up and `FAILED` otherwise. -/
theorem failing_round (maxAttempts : Int) (env : ProcessEnv) (e : OutboxEvent) (s : Store)
    (err : Error)
    (hpk : primaryKey s) (hrow : rowOf e.ID s = some e)
    (h0 : 0 ≤ e.Attempts) (h33 : e.Attempts ≤ 33)
    (hret : env.produce.panicked = false) (herr : env.produce.err = some err)
    (hmark : env.markErr = none) :
    ∃ d, NextBackoffWithJitter e.Attempts env.draw = some d ∧ 0 < d ∧
      (e.Attempts + 1 ≥ maxAttempts →
        rowOf e.ID (ProcessOne maxAttempts env e s).store = some (setGaveUp env.dbNow e)) ∧
      (e.Attempts + 1 < maxAttempts →
        rowOf e.ID (ProcessOne maxAttempts env e s).store
          = some (setFailed (env.clock + d) e)) := by
  obtain ⟨d, hd, hpos⟩ := NextBackoffWithJitter_small e.Attempts env.draw h0 h33
  have hmain := rowOf_ProcessOne_of_error maxAttempts env e s err d hpk hrow h0
    (by unfold attemptsColumnMax; omega) hret herr hd hmark
  exact ⟨d, hd, hpos, fun h => (hmain.1 h).2, fun h => (hmain.2 h).2⟩

/-- The trajectory of the spec for a budget of 3 and a broker that fails retryably
on every send: `NEW` → `FAILED` (1) → `FAILED` (2) → `GAVE_UP` (3), after which no round
reserves the record any more. -/
theorem retry_trajectory_three :
    (rowOf 1 (failingRound 3 10 freshStore)).map (fun r => (r.Status, r.Attempts))
      = some (OutboxStatus.FAILED, 1) ∧
    (rowOf 1 (failingRound 3 2000000000 (failingRound 3 10 freshStore))).map
        (fun r => (r.Status, r.Attempts))
      = some (OutboxStatus.FAILED, 2) ∧
    (rowOf 1 (failingRound 3 4000000000 (failingRound 3 2000000000
        (failingRound 3 10 freshStore)))).map (fun r => (r.Status, r.Attempts))
      = some (OutboxStatus.GAVE_UP, 3) ∧
    (GetOperationsFromOutbox noFaults byId 8000000000 (5 * Second) 10 3
        (failingRound 3 4000000000 (failingRound 3 2000000000
          (failingRound 3 10 freshStore)))).1.2 = [] := by
  decide

/-- C5 fails on the code for a budget of 35: the record that has failed 34 times is
reserved for its round 35, the producer fails retryably, and `ProcessOne` panics while
it computes `NextBackoffWithJitter(34)` (the shift `time.Second << 34` overflows to a
negative duration and `rand.Int63n` panics on it, whatever the draw). No mark
statement runs: the row stays `FAILED` with 34 attempts instead of becoming `GAVE_UP`
with 35. -/
theorem retry_budget_35_panics :
    (∀ draw, NextBackoffWithJitter 34 draw = none) ∧
    GetOperationsFromOutbox noFaults byId 10 (5 * Second) 10 35 store34
      = ((FnResult.returned none, [stampLease 10 5 row34]), leasedStore34) ∧
    ProduceMessage 3 (always (SendOutcome.kerr ErrLeaderNotAvailable)) 1 [123, 125]
      = { err := some (Error.wrap "produce failed after 3 attempts" (Error.kafka ErrLeaderNotAvailable)),
          panicked := false,
          sent := [mkMessage 1 [123, 125], mkMessage 1 [123, 125], mkMessage 1 [123, 125]],
          sleeps := [500000000, 1000000000] } ∧
    ProcessOne 35
        (calmEnv (ProduceMessage 3 (always (SendOutcome.kerr ErrLeaderNotAvailable)) 1 [123, 125]))
        (stampLease 10 5 row34) leasedStore34
      = { store := leasedStore34, calls := [Call.ProduceMessage 1 [123, 125]], panicked := true } ∧
    (rowOf 1 (failingRound 35 10 store34)).map (fun r => (r.Status, r.Attempts))
      = some (OutboxStatus.FAILED, 34) := by
  refine ⟨?_, by decide, by decide, by decide, by decide⟩
  intro draw
  have h : Int.tdiv (-1266874889709551616) 2 = -633437444854775808 := by decide
  simp [NextBackoffWithJitter, shl64, wrap64, Second, Minute, Int63n, h]

/-! ## The shapes of the table after an operation -/

/-- The table after `MarkGaveUp`: untouched, or the rows of the id given up. -/
theorem MarkGaveUp_outbox (execErr : Option Error) (dbNow id : Int) (s : Store) :
    (MarkGaveUp execErr dbNow id s).2.outbox = s.outbox ∨
    (MarkGaveUp execErr dbNow id s).2.outbox = updateWhereId id (setGaveUp dbNow) s.outbox := by
  unfold MarkGaveUp
  split
  · exact Or.inl rfl
  · split
    · exact Or.inl rfl
    · exact Or.inr rfl

/-- The table after `MarkFailedWithBackoff`: untouched, or the rows of the id failed. -/
theorem MarkFailedWithBackoff_outbox (execErr : Option Error) (id t : Int) (s : Store) :
    (MarkFailedWithBackoff execErr id t s).2.outbox = s.outbox ∨
    (MarkFailedWithBackoff execErr id t s).2.outbox = updateWhereId id (setFailed t) s.outbox := by
  unfold MarkFailedWithBackoff
  split
  · exact Or.inl rfl
  · split
    · exact Or.inl rfl
    · exact Or.inr rfl

/-- The two ways `MarkSentAndUpdateEvent` ends: with nil and the rows of the id
`SENT`, or with an error and the table untouched. It does not panic. -/
theorem MarkSentAndUpdateEvent_cases (f : TxFaults) (id : Int) (s : Store) :
    ((MarkSentAndUpdateEvent f id s).1 = FnResult.returned none ∧
      rowsAffected id s.outbox ≠ 0 ∧
      (MarkSentAndUpdateEvent f id s).2.outbox = updateWhereId id setSent s.outbox) ∨
    (∃ err, (MarkSentAndUpdateEvent f id s).1 = FnResult.returned (some err) ∧
      (MarkSentAndUpdateEvent f id s).2.outbox = s.outbox) := by
  unfold MarkSentAndUpdateEvent WithinTransaction
  cases hb : f.beginErr with
  | some e => exact Or.inr ⟨e, rfl, rfl⟩
  | none =>
    cases hs : f.stmtErr with
    | some e => exact Or.inr ⟨_, rfl, rfl⟩
    | none =>
      by_cases hz : rowsAffected id s.outbox = 0
      · simp only [hz, if_true]
        exact Or.inr ⟨_, rfl, rfl⟩
      · simp only [hz, if_false]
        cases hc : f.commitErr with
        | some e => exact Or.inr ⟨e, rfl, rfl⟩
        | none => exact Or.inl ⟨rfl, hz, rfl⟩

/-- The table after `ProcessOne`: untouched, or the rows of the record's id marked
`SENT`, `GAVE_UP`, or, only when the record's attempts leave room in the budget,
`FAILED`. -/
theorem ProcessOne_outbox (maxAttempts : Int) (env : ProcessEnv) (e : OutboxEvent) (s : Store) :
    (ProcessOne maxAttempts env e s).store.outbox = s.outbox ∨
    (ProcessOne maxAttempts env e s).store.outbox = updateWhereId e.ID setSent s.outbox ∨
    (ProcessOne maxAttempts env e s).store.outbox
      = updateWhereId e.ID (setGaveUp env.dbNow) s.outbox ∨
    (wrap64 (e.Attempts + 1) < maxAttempts ∧
      ∃ t, (ProcessOne maxAttempts env e s).store.outbox
        = updateWhereId e.ID (setFailed t) s.outbox) := by
  unfold ProcessOne
  by_cases hp : env.produce.panicked = true
  · rw [if_pos hp]; exact Or.inl rfl
  · rw [if_neg hp]
    cases he : env.produce.err with
    | some err =>
      simp only
      cases hd : NextBackoffWithJitter e.Attempts env.draw with
      | none => exact Or.inl rfl
      | some d =>
        simp only
        unfold markOutboxFailedOrGaveUp
        by_cases hg : wrap64 (e.Attempts + 1) ≥ maxAttempts
        · rw [if_pos hg]
          rcases MarkGaveUp_outbox env.markErr env.dbNow e.ID s with h | h
          · exact Or.inl h
          · exact Or.inr (Or.inr (Or.inl h))
        · rw [if_neg hg]
          rcases MarkFailedWithBackoff_outbox env.markErr e.ID (env.clock + d) s with h | h
          · exact Or.inl h
          · exact Or.inr (Or.inr (Or.inr ⟨by omega, _, h⟩))
    | none =>
      simp only
      rcases MarkSentAndUpdateEvent_cases env.sentFaults e.ID s with ⟨h1, _, h2⟩ | ⟨err, h1, h2⟩
      · generalize MarkSentAndUpdateEvent env.sentFaults e.ID s = r at h1 h2
        obtain ⟨r1, s1⟩ := r
        simp only at h1 h2
        subst h1
        exact Or.inr (Or.inl h2)
      · generalize MarkSentAndUpdateEvent env.sentFaults e.ID s = r at h1 h2
        obtain ⟨r1, s1⟩ := r
        simp only at h1 h2
        subst h1
        simp only
        rcases MarkGaveUp_outbox env.markErr env.dbNow e.ID s1 with h | h
        · exact Or.inl (h.trans h2)
        · exact Or.inr (Or.inr (Or.inl (h.trans (by rw [h2]))))

/-! ## Reservation -/

/-- The rows delivered by `RETURNING` are the rows updated, in some order. -/
theorem returning_perm (rank : Int → Int) (rows : List OutboxEvent) :
    (returning rank rows).Perm rows :=
  List.perm_insertionSort _ rows

/-- A row is delivered by `RETURNING` exactly when it was updated. -/
theorem mem_returning (rank : Int → Int) (rows : List OutboxEvent) (b : OutboxEvent) :
    b ∈ returning rank rows ↔ b ∈ rows :=
  (returning_perm rank rows).mem_iff

/-- A picked row is a row of the table that satisfies the reservation predicate. -/
theorem mem_picked (dbNow limit maxAttempts : Int) (t : List OutboxEvent) (r : OutboxEvent)
    (h : r ∈ picked dbNow limit maxAttempts t) :
    r ∈ t ∧ eligible dbNow maxAttempts r = true := by
  unfold picked at h
  have h1 := List.mem_of_mem_take h
  have h2 := (List.perm_insertionSort (fun a b : OutboxEvent => a.ID ≤ b.ID) _).mem_iff.mp h1
  exact List.mem_filter.mp h2

/-- A row that satisfies the reservation predicate is `NEW` or `FAILED`, and its
attempts are below the budget. -/
theorem eligible_spec (dbNow maxAttempts : Int) (r : OutboxEvent)
    (h : eligible dbNow maxAttempts r = true) :
    (r.Status = OutboxStatus.NEW ∨ r.Status = OutboxStatus.FAILED) ∧
    r.NextAttemptAt ≤ dbNow ∧ r.Attempts < maxAttempts := by
  unfold eligible at h
  simp only [Bool.and_eq_true, Bool.or_eq_true, beq_iff_eq, decide_eq_true_eq] at h
  exact ⟨h.1.1, h.1.2, h.2⟩

/-- The picked rows have pairwise different ids when the table has. -/
theorem picked_nodup (dbNow limit maxAttempts : Int) (t : List OutboxEvent)
    (hpk : (t.map (fun r => r.ID)).Nodup) :
    ((picked dbNow limit maxAttempts t).map (fun r => r.ID)).Nodup := by
  unfold picked
  have h1 : ((t.filter (eligible dbNow maxAttempts)).map (fun r => r.ID)).Nodup :=
    hpk.sublist ((List.filter_sublist t).map _)
  have h2 : (((t.filter (eligible dbNow maxAttempts)).insertionSort
      (fun a b => a.ID ≤ b.ID)).map (fun r => r.ID)).Nodup :=
    ((List.perm_insertionSort (fun a b : OutboxEvent => a.ID ≤ b.ID) _).map _).nodup_iff.mpr h1
  exact h2.sublist ((List.take_sublist _ _).map _)

/-- The table after `ReserveOutboxBatch`: untouched, or with the lease stamped on the
rows whose id was picked; what it returns is the picked rows with the lease stamped. -/
theorem ReserveOutboxBatch_cases (queryErr rowsErr : Option Error) (rank : Int → Int)
    (dbNow lease limit maxAttempts : Int) (s : Store) :
    ((∃ err, (ReserveOutboxBatch queryErr rowsErr rank dbNow lease limit maxAttempts s).1
        = Except.error err) ∨
     (ReserveOutboxBatch queryErr rowsErr rank dbNow lease limit maxAttempts s).1
        = Except.ok (returning rank ((picked dbNow limit maxAttempts s.outbox).map
            (stampLease dbNow (PgInterval lease))))) ∧
    ((ReserveOutboxBatch queryErr rowsErr rank dbNow lease limit maxAttempts s).2.outbox = s.outbox ∨
     (ReserveOutboxBatch queryErr rowsErr rank dbNow lease limit maxAttempts s).2.outbox
        = s.outbox.map (fun r =>
            if r.ID ∈ (picked dbNow limit maxAttempts s.outbox).map (fun r => r.ID)
            then stampLease dbNow (PgInterval lease) r else r)) ∧
    ((ReserveOutboxBatch queryErr rowsErr rank dbNow lease limit maxAttempts s).2.events = s.events) ∧
    ((ReserveOutboxBatch queryErr rowsErr rank dbNow lease limit maxAttempts s).2.outboxSeq
        = s.outboxSeq) := by
  unfold ReserveOutboxBatch
  cases queryErr with
  | some e => exact ⟨Or.inl ⟨_, rfl⟩, Or.inl rfl, rfl, rfl⟩
  | none =>
    by_cases hl : limit < 0
    · dsimp only
      rw [if_pos hl]
      exact ⟨Or.inl ⟨_, rfl⟩, Or.inl rfl, rfl, rfl⟩
    · dsimp only
      rw [if_neg hl]
      cases rowsErr with
      | some e => exact ⟨Or.inl ⟨_, rfl⟩, Or.inr rfl, rfl, rfl⟩
      | none => exact ⟨Or.inr rfl, Or.inr rfl, rfl, rfl⟩

/-- A map of the table that keeps the ids maps the row of every id. -/
theorem find_map_keepID (id : Int) (g : OutboxEvent → OutboxEvent)
    (hg : ∀ r, (g r).ID = r.ID) (t : List OutboxEvent) :
    (t.map g).find? (fun r => decide (r.ID = id))
      = (t.find? (fun r => decide (r.ID = id))).map g := by
  induction t with
  | nil => rfl
  | cons r t ih =>
    by_cases h : r.ID = id
    · have h3 : (g r).ID = id := by rw [hg]; exact h
      rw [List.map_cons, List.find?_cons_of_pos _ (by simpa using h3),
        List.find?_cons_of_pos _ (by simpa using h)]
      rfl
    · have h3 : ¬ (g r).ID = id := by rw [hg]; exact h
      rw [List.map_cons, List.find?_cons_of_neg _ (by simpa using h3),
        List.find?_cons_of_neg _ (by simpa using h)]
      exact ih

/-- Stamping the lease on the picked rows keeps every id. -/
theorem stampPicked_ID (dbNow leaseSeconds : Int) (ids : List Int) (r : OutboxEvent) :
    (if r.ID ∈ ids then stampLease dbNow leaseSeconds r else r).ID = r.ID := by
  split <;> rfl

/-- Stamping the lease on the picked rows keeps every status. -/
theorem stampPicked_Status (dbNow leaseSeconds : Int) (ids : List Int) (r : OutboxEvent) :
    (if r.ID ∈ ids then stampLease dbNow leaseSeconds r else r).Status = r.Status := by
  split <;> rfl

/-- Stamping the lease on the picked rows keeps every attempts counter. -/
theorem stampPicked_Attempts (dbNow leaseSeconds : Int) (ids : List Int) (r : OutboxEvent) :
    (if r.ID ∈ ids then stampLease dbNow leaseSeconds r else r).Attempts = r.Attempts := by
  split <;> rfl

/-! ## Status transitions -/

/-- C6 does not hold as stated: the mark statements carry no guard on the current
status. A `SENT` row becomes `FAILED` under `MarkFailedWithBackoff` and `GAVE_UP`
under `MarkGaveUp`, and a `GAVE_UP` row becomes `SENT` under
`MarkSentAndUpdateEvent`. The relay itself gets there: the fresh record is reserved,
its lease expires while the send is in flight, a second reservation sends it and
marks it `SENT`, and the failure of the first send then marks it `FAILED`. -/
theorem terminal_status_counterexample :
    rowOf 1 sentStore = some sentRow ∧ sentRow.Status = OutboxStatus.SENT ∧
    (rowOf 1 (MarkFailedWithBackoff none 1 500 sentStore).2).map (fun r => r.Status)
      = some OutboxStatus.FAILED ∧
    (rowOf 1 (MarkGaveUp none 100 1 sentStore).2).map (fun r => r.Status)
      = some OutboxStatus.GAVE_UP ∧
    (rowOf 1 (MarkSentAndUpdateEvent noFaults 1 (MarkGaveUp none 100 1 sentStore).2).2).map
        (fun r => r.Status)
      = some OutboxStatus.SENT ∧
    GetOperationsFromOutbox noFaults byId 6000000000 (5 * Second) 10 3 leasedStore
      = ((FnResult.returned none, [releasedRow]), releasedStore) ∧
    (ProcessOne 3 (calmEnv (ProduceMessage 3 (always SendOutcome.ok) 1 [123, 125]))
        releasedRow releasedStore).store = sentStore ∧
    (rowOf 1 (ProcessOne 3
        (calmEnv (ProduceMessage 3 (always (SendOutcome.kerr ErrLeaderNotAvailable)) 1 [123, 125]))
        leasedRow sentStore).store).map (fun r => (r.Status, r.Attempts))
      = some (OutboxStatus.FAILED, 1) := by
  decide

/-- C6, amended: for every table state and every id with a row, whatever the status
of that row (`SENT` and `GAVE_UP` included): `ReserveOutboxBatch` leaves the row's
status as it is and returns only rows whose status is `NEW` or `FAILED`; a mark
operation given another id leaves the row as it is; and `MarkFailedWithBackoff`,
`MarkGaveUp` and `MarkSentAndUpdateEvent` given the row's id set its status to
`FAILED`, `GAVE_UP` and `SENT` respectively whenever they return nil. -/
theorem status_transitions (s : Store) (id : Int) (r : OutboxEvent)
    (hrow : rowOf id s = some r) :
    (∀ queryErr rowsErr rank dbNow lease limit maxAttempts,
      (rowOf id (ReserveOutboxBatch queryErr rowsErr rank dbNow lease limit maxAttempts s).2).map
          (fun x => x.Status) = some r.Status ∧
      ∀ batch, (ReserveOutboxBatch queryErr rowsErr rank dbNow lease limit maxAttempts s).1
          = Except.ok batch →
        ∀ b ∈ batch, b.Status = OutboxStatus.NEW ∨ b.Status = OutboxStatus.FAILED) ∧
    (∀ id2, id2 ≠ id → ∀ execErr f dbNow t,
      rowOf id (MarkFailedWithBackoff execErr id2 t s).2 = some r ∧
      rowOf id (MarkGaveUp execErr dbNow id2 s).2 = some r ∧
      rowOf id (MarkSentAndUpdateEvent f id2 s).2 = some r) ∧
    (∀ execErr t, (MarkFailedWithBackoff execErr id t s).1 = none →
      (rowOf id (MarkFailedWithBackoff execErr id t s).2).map (fun x => x.Status)
        = some OutboxStatus.FAILED) ∧
    (∀ execErr dbNow, (MarkGaveUp execErr dbNow id s).1 = none →
      (rowOf id (MarkGaveUp execErr dbNow id s).2).map (fun x => x.Status)
        = some OutboxStatus.GAVE_UP) ∧
    (∀ f, (MarkSentAndUpdateEvent f id s).1 = FnResult.returned none →
      (rowOf id (MarkSentAndUpdateEvent f id s).2).map (fun x => x.Status)
        = some OutboxStatus.SENT) := by
  unfold rowOf at hrow
  refine ⟨?_, ?_, ?_, ?_, ?_⟩
  · intro queryErr rowsErr rank dbNow lease limit maxAttempts
    obtain ⟨hres, hout, _, _⟩ :=
      ReserveOutboxBatch_cases queryErr rowsErr rank dbNow lease limit maxAttempts s
    constructor
    · unfold rowOf
      rcases hout with h | h
      · rw [h, hrow]; rfl
      · rw [h, find_map_keepID id _ (stampPicked_ID _ _ _), hrow]
        simp only [Option.map_some']
        rw [stampPicked_Status]
    · intro batch hb b hmem
      rcases hres with ⟨err, h⟩ | h
      · rw [h] at hb; cases hb
      · rw [h] at hb
        injection hb with hb
        subst hb
        obtain ⟨x, hx, rfl⟩ := List.mem_map.mp ((mem_returning _ _ _).mp hmem)
        exact (eligible_spec _ _ _ (mem_picked _ _ _ _ _ hx).2).1
  · intro id2 hne execErr f dbNow t
    have hne2 : id ≠ id2 := fun h => hne h.symm
    refine ⟨?_, ?_, ?_⟩
    · unfold rowOf
      rcases MarkFailedWithBackoff_outbox execErr id2 t s with h | h
      · rw [h, hrow]
      · rw [h, find_updateWhereId_other id2 id (setFailed t) (fun _ => rfl) hne2, hrow]
    · unfold rowOf
      rcases MarkGaveUp_outbox execErr dbNow id2 s with h | h
      · rw [h, hrow]
      · rw [h, find_updateWhereId_other id2 id (setGaveUp dbNow) (fun _ => rfl) hne2, hrow]
    · unfold rowOf
      rcases MarkSentAndUpdateEvent_cases f id2 s with ⟨_, _, h⟩ | ⟨_, _, h⟩
      · rw [h, find_updateWhereId_other id2 id setSent (fun _ => rfl) hne2, hrow]
      · rw [h, hrow]
  · intro execErr t hnil
    unfold MarkFailedWithBackoff at hnil ⊢
    cases execErr with
    | some e => simp at hnil
    | none =>
      by_cases hov : attemptsOverflow id s.outbox = true
      · simp [hov] at hnil
      · simp only [hov]
        unfold rowOf
        simp only [Bool.false_eq_true, if_false]
        rw [find_updateWhereId_self id (setFailed t) (fun _ => rfl), hrow]
        rfl
  · intro execErr dbNow hnil
    unfold MarkGaveUp at hnil ⊢
    cases execErr with
    | some e => simp at hnil
    | none =>
      by_cases hov : attemptsOverflow id s.outbox = true
      · simp [hov] at hnil
      · simp only [hov]
        unfold rowOf
        simp only [Bool.false_eq_true, if_false]
        rw [find_updateWhereId_self id (setGaveUp dbNow) (fun _ => rfl), hrow]
        rfl
  · intro f hnil
    rcases MarkSentAndUpdateEvent_cases f id s with ⟨_, _, h⟩ | ⟨err, h1, _⟩
    · unfold rowOf
      rw [h, find_updateWhereId_self id setSent (fun _ => rfl), hrow]
      rfl
    · rw [h1] at hnil
      simp at hnil

/-- C6 (amended) at a concrete input: the sent row of the example store. -/
theorem status_transitions_witness :
    rowOf 1 sentStore = some sentRow ∧
    (rowOf 1 (MarkGaveUp none 100 1 sentStore).2).map (fun x => x.Status)
      = some OutboxStatus.GAVE_UP :=
  ⟨by decide, (status_transitions sentStore 1 sentRow (by decide)).2.2.2.1 none 100 (by decide)⟩

/-! ## The attempts of a record stay within the budget -/

/-- Under the primary key the row found for an id is the only row of that id. -/
theorem eq_of_find_of_mem (id : Int) (e r : OutboxEvent) (t : List OutboxEvent)
    (hpk : (t.map (fun r => r.ID)).Nodup)
    (hrow : t.find? (fun r => decide (r.ID = id)) = some e)
    (hmem : r ∈ t) (hid : r.ID = id) : r = e := by
  induction t with
  | nil => cases hmem
  | cons x t ih =>
    rw [List.map_cons, List.nodup_cons] at hpk
    by_cases h : x.ID = id
    · rw [List.find?_cons_of_pos _ (by simpa using h)] at hrow
      injection hrow with hrow
      subst hrow
      rcases List.mem_cons.mp hmem with h1 | h1
      · exact h1
      · exact absurd (List.mem_map.mpr ⟨r, h1, by rw [hid, h]⟩) hpk.1
    · rw [List.find?_cons_of_neg _ (by simpa using h)] at hrow
      rcases List.mem_cons.mp hmem with h1 | h1
      · subst h1; exact absurd hid h
      · exact ih hpk.2 hrow h1

/-- Under the primary key every row of the table is the row found for its id. -/
theorem find_of_mem (r : OutboxEvent) (t : List OutboxEvent)
    (hpk : (t.map (fun r => r.ID)).Nodup) (hmem : r ∈ t) :
    t.find? (fun x => decide (x.ID = r.ID)) = some r := by
  induction t with
  | nil => cases hmem
  | cons x t ih =>
    rw [List.map_cons, List.nodup_cons] at hpk
    rcases List.mem_cons.mp hmem with h1 | h1
    · subst h1
      rw [List.find?_cons_of_pos _ (by simp)]
    · have hne : ¬ x.ID = r.ID := fun h =>
        hpk.1 (List.mem_map.mpr ⟨r, h1, h.symm⟩)
      rw [List.find?_cons_of_neg _ (by simpa using hne)]
      exact ih hpk.2 h1

/-- An update of the one row `e` of an id keeps the budget invariant when the new
row is terminal or within the budget. -/
theorem attemptsInBudget_updateWhereId (m id : Int) (set : OutboxEvent → OutboxEvent)
    (e : OutboxEvent) (t : List OutboxEvent)
    (hpk : (t.map (fun r => r.ID)).Nodup)
    (hrow : t.find? (fun r => decide (r.ID = id)) = some e)
    (hinv : attemptsInBudget m t)
    (hset : ((set e).Status = OutboxStatus.NEW ∨ (set e).Status = OutboxStatus.FAILED) →
      0 ≤ (set e).Attempts ∧ (set e).Attempts < m) :
    attemptsInBudget m (updateWhereId id set t) := by
  intro r' hr' hst
  unfold updateWhereId at hr'
  obtain ⟨r, hr, rfl⟩ := List.mem_map.mp hr'
  by_cases h : r.ID = id
  · have hre : r = e := eq_of_find_of_mem id e r t hpk hrow hr h
    subst hre
    rw [if_pos h] at hst ⊢
    exact hset hst
  · rw [if_neg h] at hst ⊢
    exact hinv r hr hst

/-- One `ProcessOne` of a stored record whose attempts are within the budget keeps
the primary key and the budget invariant, and leaves the rows of other ids alone. -/
theorem ProcessOne_keeps (m : Int) (env : ProcessEnv) (e : OutboxEvent) (s : Store)
    (hmax : m ≤ maxInt64)
    (hpk : primaryKey s) (hinv : attemptsInBudget m s.outbox)
    (hrow : rowOf e.ID s = some e) (h0 : 0 ≤ e.Attempts) (h1 : e.Attempts < m) :
    primaryKey (ProcessOne m env e s).store ∧
    attemptsInBudget m (ProcessOne m env e s).store.outbox ∧
    ∀ id2, id2 ≠ e.ID → rowOf id2 (ProcessOne m env e s).store = rowOf id2 s := by
  have hw : wrap64 (e.Attempts + 1) = e.Attempts + 1 :=
    wrap64_of_inRange _ (by omega) (by omega)
  unfold primaryKey rowOf at *
  rcases ProcessOne_outbox m env e s with h | h | h | ⟨hlt, t, h⟩
  · rw [h]
    exact ⟨hpk, hinv, fun _ _ => rfl⟩
  · rw [h]
    refine ⟨?_, ?_, ?_⟩
    · rw [map_ID_updateWhereId e.ID setSent (fun _ => rfl)]; exact hpk
    · apply attemptsInBudget_updateWhereId m e.ID setSent e s.outbox hpk hrow hinv
      intro hst
      rcases hst with hst | hst <;> cases hst
    · intro id2 hne
      exact find_updateWhereId_other e.ID id2 setSent (fun _ => rfl) hne s.outbox
  · rw [h]
    refine ⟨?_, ?_, ?_⟩
    · rw [map_ID_updateWhereId e.ID (setGaveUp env.dbNow) (fun _ => rfl)]; exact hpk
    · apply attemptsInBudget_updateWhereId m e.ID (setGaveUp env.dbNow) e s.outbox hpk hrow hinv
      intro hst
      rcases hst with hst | hst <;> cases hst
    · intro id2 hne
      exact find_updateWhereId_other e.ID id2 (setGaveUp env.dbNow) (fun _ => rfl) hne s.outbox
  · rw [h]
    rw [hw] at hlt
    refine ⟨?_, ?_, ?_⟩
    · rw [map_ID_updateWhereId e.ID (setFailed t) (fun _ => rfl)]; exact hpk
    · apply attemptsInBudget_updateWhereId m e.ID (setFailed t) e s.outbox hpk hrow hinv
      intro _
      show 0 ≤ e.Attempts + 1 ∧ e.Attempts + 1 < m
      exact ⟨by omega, hlt⟩
    · intro id2 hne
      exact find_updateWhereId_other e.ID id2 (setFailed t) (fun _ => rfl) hne s.outbox

/-- A reservation that returns rows has stamped the lease on them in the table. -/
theorem ReserveOutboxBatch_ok (queryErr rowsErr : Option Error) (rank : Int → Int)
    (dbNow lease limit maxAttempts : Int) (s : Store) :
    (∃ err, (ReserveOutboxBatch queryErr rowsErr rank dbNow lease limit maxAttempts s).1
        = Except.error err) ∨
    ((ReserveOutboxBatch queryErr rowsErr rank dbNow lease limit maxAttempts s).1
        = Except.ok (returning rank ((picked dbNow limit maxAttempts s.outbox).map
            (stampLease dbNow (PgInterval lease)))) ∧
     (ReserveOutboxBatch queryErr rowsErr rank dbNow lease limit maxAttempts s).2.outbox
        = s.outbox.map (fun r =>
            if r.ID ∈ (picked dbNow limit maxAttempts s.outbox).map (fun r => r.ID)
            then stampLease dbNow (PgInterval lease) r else r)) := by
  unfold ReserveOutboxBatch
  cases queryErr with
  | some e => exact Or.inl ⟨_, rfl⟩
  | none =>
    by_cases hl : limit < 0
    · dsimp only
      rw [if_pos hl]
      exact Or.inl ⟨_, rfl⟩
    · dsimp only
      rw [if_neg hl]
      cases rowsErr with
      | some e => exact Or.inl ⟨_, rfl⟩
      | none => exact Or.inr ⟨rfl, rfl⟩

/-- The two ways `GetOperationsFromOutbox` ends: with no record and the table
untouched, or with the picked rows, the lease stamped on them in the table too. -/
theorem GetOperationsFromOutbox_cases (f : TxFaults) (rank : Int → Int)
    (dbNow lease batchSize maxAttempts : Int) (s : Store) :
    ((GetOperationsFromOutbox f rank dbNow lease batchSize maxAttempts s).1.2 = [] ∧
      (GetOperationsFromOutbox f rank dbNow lease batchSize maxAttempts s).2.outbox = s.outbox) ∨
    ((GetOperationsFromOutbox f rank dbNow lease batchSize maxAttempts s).1.2
        = returning rank ((picked dbNow batchSize maxAttempts s.outbox).map
            (stampLease dbNow (PgInterval lease))) ∧
      (GetOperationsFromOutbox f rank dbNow lease batchSize maxAttempts s).2.outbox
        = s.outbox.map (fun r =>
            if r.ID ∈ (picked dbNow batchSize maxAttempts s.outbox).map (fun r => r.ID)
            then stampLease dbNow (PgInterval lease) r else r)) := by
  have hres := ReserveOutboxBatch_ok f.stmtErr f.rowsErr rank dbNow lease batchSize maxAttempts s
  unfold GetOperationsFromOutbox WithinTransaction
  cases hb : f.beginErr with
  | some e => exact Or.inl ⟨rfl, rfl⟩
  | none =>
    dsimp only
    generalize ReserveOutboxBatch f.stmtErr f.rowsErr rank dbNow lease batchSize maxAttempts s = r
      at hres
    obtain ⟨r1, s1⟩ := r
    dsimp only at hres
    rcases hres with ⟨err, h⟩ | ⟨h, hout⟩
    · subst h
      exact Or.inl ⟨rfl, rfl⟩
    · subst h
      dsimp only
      cases hc : f.commitErr with
      | some e => exact Or.inl ⟨rfl, rfl⟩
      | none => exact Or.inr ⟨rfl, hout⟩

/-- A reservation keeps the primary key and the budget invariant, and the records it
returns are stored as returned, pairwise different and within the budget. -/
theorem GetOperationsFromOutbox_keeps (m : Int) (f : TxFaults) (rank : Int → Int)
    (dbNow lease batchSize : Int)
    (s : Store) (hpk : primaryKey s) (hinv : attemptsInBudget m s.outbox) :
    primaryKey (GetOperationsFromOutbox f rank dbNow lease batchSize m s).2 ∧
    attemptsInBudget m (GetOperationsFromOutbox f rank dbNow lease batchSize m s).2.outbox ∧
    ((GetOperationsFromOutbox f rank dbNow lease batchSize m s).1.2.map (fun r => r.ID)).Nodup ∧
    ∀ e ∈ (GetOperationsFromOutbox f rank dbNow lease batchSize m s).1.2,
      rowOf e.ID (GetOperationsFromOutbox f rank dbNow lease batchSize m s).2 = some e ∧
      0 ≤ e.Attempts ∧ e.Attempts < m := by
  unfold primaryKey rowOf at *
  rcases GetOperationsFromOutbox_cases f rank dbNow lease batchSize m s with ⟨hb, ho⟩ | ⟨hb, ho⟩
  · rw [hb, ho]
    exact ⟨hpk, hinv, List.nodup_nil, fun e he => by cases he⟩
  · rw [hb, ho]
    have hids : (s.outbox.map (fun r =>
            if r.ID ∈ (picked dbNow batchSize m s.outbox).map (fun r => r.ID)
            then stampLease dbNow (PgInterval lease) r else r)).map (fun r => r.ID)
          = s.outbox.map (fun r => r.ID) := by
      rw [List.map_map]
      apply List.map_congr_left
      intro r _
      exact stampPicked_ID _ _ _ r
    refine ⟨by rw [hids]; exact hpk, ?_, ?_, ?_⟩
    · intro r' hr' hst
      obtain ⟨r, hr, rfl⟩ := List.mem_map.mp hr'
      rw [stampPicked_Status] at hst
      rw [stampPicked_Attempts]
      exact hinv r hr hst
    · apply ((returning_perm rank _).map (fun r => r.ID)).nodup_iff.mpr
      rw [List.map_map]
      exact picked_nodup dbNow batchSize m s.outbox hpk
    · intro e he
      obtain ⟨r, hr, rfl⟩ := List.mem_map.mp ((mem_returning _ _ _).mp he)
      obtain ⟨hmem, hel⟩ := mem_picked _ _ _ _ _ hr
      obtain ⟨hst, _, hlt⟩ := eligible_spec _ _ _ hel
      refine ⟨?_, (hinv r hmem hst).1, hlt⟩
      show List.find? (fun (x : OutboxEvent) => decide (x.ID = r.ID)) _ = _
      rw [find_map_keepID r.ID _ (stampPicked_ID _ _ _), find_of_mem r s.outbox hpk hmem]
      simp only [Option.map_some']
      rw [if_pos (List.mem_map.mpr ⟨r, hr, rfl⟩)]

/-! ## The attempts counter of a record in one round -/

/-- C8 does not hold as stated: the send of the reserved fresh record succeeds, the
database is unreachable afterwards, so `MarkSentAndUpdateEvent` fails and so does the
`MarkGaveUp` that follows, whose error is discarded. The row is not marked `SENT`
and its attempts are those of before, not one more. -/
theorem attempts_bump_counterexample :
    ProduceMessage 3 (always SendOutcome.ok) 1 [123, 125]
      = { err := none, panicked := false, sent := [mkMessage 1 [123, 125]], sleeps := [] } ∧
    rowOf 1 leasedStore = some leasedRow ∧
    ProcessOne 3
        { calmEnv (ProduceMessage 3 (always SendOutcome.ok) 1 [123, 125]) with
          sentFaults := dbDown, markErr := some (Error.pg "08006") }
        leasedRow leasedStore
      = { store := leasedStore,
          calls := [Call.ProduceMessage 1 [123, 125], Call.MarkSentAndUpdateEvent 1,
                    Call.MarkGaveUp 1],
          panicked := false } ∧
    leasedRow.Status = OutboxStatus.NEW ∧ leasedRow.Attempts = 0 := by
  decide

/-- C8, amended: for every `ProcessOne` invocation on a stored record the row's
attempts afterwards equal the attempts before plus 0 or plus 1, whatever sends and
sleeps the producer's loop performed. The row afterwards is the row before (no mark
statement was applied: a panic, or a failed statement whose error is discarded), the
row marked `SENT` (attempts intact), or the row after `MarkGaveUp` or
`MarkFailedWithBackoff` (one attempt more). In particular: plus 0 when the send
succeeded and `MarkSentAndUpdateEvent` returned nil; plus 1 when the send succeeded,
`MarkSentAndUpdateEvent` failed and the `MarkGaveUp` statement did not; plus 1 when
the send failed, the backoff was computed and the mark statement did not fail. -/
theorem attempts_bumped_at_most_once (maxAttempts : Int) (env : ProcessEnv) (e : OutboxEvent)
    (s : Store) (hpk : primaryKey s) (hrow : rowOf e.ID s = some e) :
    (∃ row, rowOf e.ID (ProcessOne maxAttempts env e s).store = some row ∧
      (((row = e ∨ row = setSent e) ∧ row.Attempts = e.Attempts) ∨
       ((row = setGaveUp env.dbNow e ∨ ∃ t, row = setFailed t e) ∧
          row.Attempts = e.Attempts + 1))) ∧
    (∀ sent sleeps,
      ProcessOne maxAttempts
          { env with produce := { env.produce with sent := sent, sleeps := sleeps } } e s
        = ProcessOne maxAttempts env e s) ∧
    (env.produce.panicked = false → env.produce.err = none →
      (MarkSentAndUpdateEvent env.sentFaults e.ID s).1 = FnResult.returned none →
      rowOf e.ID (ProcessOne maxAttempts env e s).store = some (setSent e)) ∧
    (env.produce.panicked = false → env.produce.err = none →
      (∃ err, (MarkSentAndUpdateEvent env.sentFaults e.ID s).1 = FnResult.returned (some err)) →
      env.markErr = none → e.Attempts + 1 ≤ attemptsColumnMax →
      rowOf e.ID (ProcessOne maxAttempts env e s).store = some (setGaveUp env.dbNow e)) ∧
    (env.produce.panicked = false → env.produce.err.isSome = true →
      (NextBackoffWithJitter e.Attempts env.draw).isSome = true →
      env.markErr = none → 0 ≤ e.Attempts → e.Attempts + 1 ≤ attemptsColumnMax →
      (rowOf e.ID (ProcessOne maxAttempts env e s).store).map (fun r => r.Attempts)
        = some (e.Attempts + 1)) := by
  refine ⟨?_, ?_, ?_, ?_, ?_⟩
  · unfold rowOf at hrow ⊢
    rcases ProcessOne_outbox maxAttempts env e s with h | h | h | ⟨_, t, h⟩
    · rw [h]
      exact ⟨e, hrow, Or.inl ⟨Or.inl rfl, rfl⟩⟩
    · rw [h, find_updateWhereId_self e.ID setSent (fun _ => rfl), hrow]
      exact ⟨setSent e, rfl, Or.inl ⟨Or.inr rfl, rfl⟩⟩
    · rw [h, find_updateWhereId_self e.ID (setGaveUp env.dbNow) (fun _ => rfl), hrow]
      exact ⟨setGaveUp env.dbNow e, rfl, Or.inr ⟨Or.inl rfl, rfl⟩⟩
    · rw [h, find_updateWhereId_self e.ID (setFailed t) (fun _ => rfl), hrow]
      exact ⟨setFailed t e, rfl, Or.inr ⟨Or.inr ⟨t, rfl⟩, rfl⟩⟩
  · intro sent sleeps
    rfl
  · intro hret hok hnil
    rcases MarkSentAndUpdateEvent_cases env.sentFaults e.ID s with ⟨h1, _, h2⟩ | ⟨err, h1, _⟩
    · unfold ProcessOne
      rw [if_neg (by simp [hret])]
      simp only [hok]
      generalize MarkSentAndUpdateEvent env.sentFaults e.ID s = r at h1 h2
      obtain ⟨r1, s1⟩ := r
      dsimp only at h1 h2
      subst h1
      dsimp only
      unfold rowOf at hrow ⊢
      rw [h2, find_updateWhereId_self e.ID setSent (fun _ => rfl), hrow]
      rfl
    · rw [h1] at hnil
      simp at hnil
  · intro hret hok hfail hmark hr
    rcases MarkSentAndUpdateEvent_cases env.sentFaults e.ID s with ⟨h1, _, _⟩ | ⟨err, h1, h2⟩
    · obtain ⟨err, herr⟩ := hfail
      rw [h1] at herr
      simp at herr
    · unfold ProcessOne
      rw [if_neg (by simp [hret])]
      simp only [hok, hmark]
      generalize MarkSentAndUpdateEvent env.sentFaults e.ID s = r at h1 h2
      obtain ⟨r1, s1⟩ := r
      dsimp only at h1 h2
      subst h1
      dsimp only
      have hpk1 : primaryKey s1 := by unfold primaryKey at hpk ⊢; rw [h2]; exact hpk
      have hrow1 : rowOf e.ID s1 = some e := by unfold rowOf at hrow ⊢; rw [h2]; exact hrow
      exact (rowOf_MarkGaveUp env.dbNow e.ID e s1 hpk1 hrow1 hr).2
  · intro hret herr hd hmark h0 hr
    obtain ⟨err, herr⟩ := Option.isSome_iff_exists.mp herr
    obtain ⟨d, hd⟩ := Option.isSome_iff_exists.mp hd
    have hmain := rowOf_ProcessOne_of_error maxAttempts env e s err d hpk hrow h0 hr hret herr
      hd hmark
    by_cases h : e.Attempts + 1 ≥ maxAttempts
    · rw [(hmain.1 h).2]; rfl
    · rw [(hmain.2 (by omega)).2]; rfl

/-- C8 (amended) at a concrete input: the reserved fresh record, three failed sends
of the producer in one round, one attempt more on the row. -/
theorem attempts_bumped_at_most_once_witness :
    (ProduceMessage 3 (always (SendOutcome.kerr ErrLeaderNotAvailable)) 1 [123, 125]).sent.length = 3 ∧
    (rowOf 1 (ProcessOne 3
        (calmEnv (ProduceMessage 3 (always (SendOutcome.kerr ErrLeaderNotAvailable)) 1 [123, 125]))
        leasedRow leasedStore).store).map (fun r => r.Attempts)
      = some (leasedRow.Attempts + 1) :=
  ⟨by decide,
   (attempts_bumped_at_most_once 3
      (calmEnv (ProduceMessage 3 (always (SendOutcome.kerr ErrLeaderNotAvailable)) 1 [123, 125]))
      leasedRow leasedStore (by decide) (by decide)).2.2.2.2
      (by decide) (by decide) (by decide) (by decide) (by decide) (by decide)⟩

/-! ## The transactional writer -/

/-- The callback of `CreateEvent` either returns nil, having appended the event row
and its outbox row, whose payload is what the cast to `jsonb` makes of the supplied
one, or returns an error. It does not panic. -/
theorem createEventFn_cases (jsonb : List Nat → Option (List Nat)) (f : CreateFaults)
    (dbNow : Int) (ev : Event) (payload : List Nat) (s : Store) :
    (f.insertEventErr = none ∧ f.insertOutboxErr = none ∧
      s.events.any (fun r => r.id == ev.ID) = false ∧
      ∃ document, jsonb payload = some document ∧
      createEventFn jsonb f dbNow ev payload s
        = (FnResult.returned none,
            { events := s.events ++ [eventRow dbNow ev],
              outbox := s.outbox ++
                [{ ID := s.outboxSeq + 1, AggregateID := ev.ID, AggregateType := AggregateEvent,
                   EventType := EventCreated, Payload := document, Status := OutboxStatus.NEW,
                   Attempts := 0, NextAttemptAt := dbNow, CreatedAt := dbNow }],
              outboxSeq := s.outboxSeq + 1 })) ∨
    (∃ err, (createEventFn jsonb f dbNow ev payload s).1 = FnResult.returned (some err) ∧
      (f.insertEventErr = none → s.events.any (fun r => r.id == ev.ID) = true →
        err = ErrEventAlreadyExists)) := by
  unfold createEventFn RepoCreateEvent execCreateEvent
  cases hq : f.insertEventErr with
  | some e =>
    right
    dsimp only
    by_cases h1 : isNoRows e = true
    · rw [if_pos h1]; exact ⟨_, rfl, fun h => by cases h⟩
    · rw [if_neg h1]
      by_cases h2 : isDuplicateKeyError e = true
      · rw [if_pos h2]; exact ⟨_, rfl, fun h => by cases h⟩
      · rw [if_neg h2]; exact ⟨_, rfl, fun h => by cases h⟩
  | none =>
    dsimp only
    by_cases hex : s.events.any (fun r => r.id == ev.ID) = true
    · right
      rw [if_pos hex]
      exact ⟨ErrEventAlreadyExists, rfl, fun _ _ => rfl⟩
    · rw [if_neg hex]
      dsimp only
      unfold InsertOutbox
      cases ho : f.insertOutboxErr with
      | some e => right; exact ⟨_, rfl, fun _ h => absurd h hex⟩
      | none =>
        dsimp only
        cases hj : jsonb payload with
        | none => right; exact ⟨_, rfl, fun _ h => absurd h hex⟩
        | some document =>
          left
          have hfk : (s.events ++ [eventRow dbNow ev]).any (fun r => r.id == ev.ID) = true := by
            rw [List.any_append]
            simp [eventRow]
          dsimp only
          rw [if_pos hfk]
          exact ⟨rfl, rfl, by simpa using hex, document, rfl, rfl⟩

/-- C9 does not hold as stated: the payload of the new outbox row is not the
supplied bytes. The statement writes it as `($4)::jsonb`, and the column gives a
`jsonb` value back in the database's own rendering: the document of the one member
`a` with value 1, supplied in 7 bytes with no space after the colon, is stored and
later read in 8 bytes, with that space. -/
theorem CreateEvent_payload_counterexample :
    (CreateEvent jsonbText noCreateFaults 0 freshEvent [123, 34, 97, 34, 58, 49, 125]
        emptyStore).1 = FnResult.returned none ∧
    (CreateEvent jsonbText noCreateFaults 0 freshEvent [123, 34, 97, 34, 58, 49, 125]
        emptyStore).2.outbox.map (fun r => r.Payload) = [[123, 34, 97, 34, 58, 32, 49, 125]] ∧
    [123, 34, 97, 34, 58, 32, 49, 125] ≠ [123, 34, 97, 34, 58, 49, 125] := by
  decide

/-- C9, amended: for every store state, event, payload (and whatever the database
does, its cast to `jsonb` included), either `CreateEvent` returns nil and the store
gained exactly one event row, that of the event, and exactly one outbox row, with
`aggregate_id` = the event's id, `aggregate_type = event`,
`event_type = event_created`, `status = NEW`, `attempts = 0`,
`next_attempt_at = created_at = now()` and, as payload, the `jsonb` value the
database makes of the supplied bytes; or it returns an error (a failure of the
outbox insert, a payload the database does not read as JSON, or a failure of the
commit included) and neither table changed. -/
theorem CreateEvent_atomic (jsonb : List Nat → Option (List Nat)) (f : CreateFaults)
    (dbNow : Int) (ev : Event) (payload : List Nat) (s : Store) :
    ((CreateEvent jsonb f dbNow ev payload s).1 = FnResult.returned none ∧
      ∃ document, jsonb payload = some document ∧
      (CreateEvent jsonb f dbNow ev payload s).2.events = s.events ++ [eventRow dbNow ev] ∧
      (CreateEvent jsonb f dbNow ev payload s).2.outbox = s.outbox ++
        [{ ID := s.outboxSeq + 1, AggregateID := ev.ID, AggregateType := "event",
           EventType := "event_created", Payload := document, Status := OutboxStatus.NEW,
           Attempts := 0, NextAttemptAt := dbNow, CreatedAt := dbNow }]) ∨
    (∃ err, (CreateEvent jsonb f dbNow ev payload s).1 = FnResult.returned (some err) ∧
      (CreateEvent jsonb f dbNow ev payload s).2.events = s.events ∧
      (CreateEvent jsonb f dbNow ev payload s).2.outbox = s.outbox) := by
  unfold CreateEvent WithinTransaction
  cases hb : f.beginErr with
  | some e => exact Or.inr ⟨e, rfl, rfl, rfl⟩
  | none =>
    dsimp only
    rcases createEventFn_cases jsonb f dbNow ev payload s with
      ⟨_, _, _, document, hdoc, h⟩ | ⟨err, h, _⟩
    · rw [h]
      dsimp only
      cases hc : f.commitErr with
      | some e => exact Or.inr ⟨e, rfl, rfl, rfl⟩
      | none => exact Or.inl ⟨rfl, document, hdoc, rfl, rfl⟩
    · generalize createEventFn jsonb f dbNow ev payload s = r at h
      obtain ⟨r1, s1⟩ := r
      dsimp only at h
      subst h
      exact Or.inr ⟨err, rfl, rfl, rfl⟩

/-- A `CreateEvent` that returns nil found no event of that id and appended the
event row and its outbox row. -/
theorem CreateEvent_success (jsonb : List Nat → Option (List Nat)) (f : CreateFaults)
    (dbNow : Int) (ev : Event) (payload : List Nat) (s : Store)
    (h : (CreateEvent jsonb f dbNow ev payload s).1 = FnResult.returned none) :
    s.events.any (fun r => r.id == ev.ID) = false ∧
    (CreateEvent jsonb f dbNow ev payload s).2.events = s.events ++ [eventRow dbNow ev] ∧
    ∃ document, jsonb payload = some document ∧
    (CreateEvent jsonb f dbNow ev payload s).2.outbox = s.outbox ++
      [{ ID := s.outboxSeq + 1, AggregateID := ev.ID, AggregateType := AggregateEvent,
         EventType := EventCreated, Payload := document, Status := OutboxStatus.NEW,
         Attempts := 0, NextAttemptAt := dbNow, CreatedAt := dbNow }] := by
  unfold CreateEvent WithinTransaction at h ⊢
  cases hb : f.beginErr with
  | some e => rw [hb] at h; simp at h
  | none =>
    rw [hb] at h
    dsimp only at h ⊢
    rcases createEventFn_cases jsonb f dbNow ev payload s with
      ⟨_, _, hex, document, hdoc, hfn⟩ | ⟨err, hfn, _⟩
    · rw [hfn] at h ⊢
      dsimp only at h ⊢
      cases hc : f.commitErr with
      | some e => rw [hc] at h; simp at h
      | none => exact ⟨hex, rfl, document, hdoc, rfl⟩
    · generalize createEventFn jsonb f dbNow ev payload s = r at h hfn
      obtain ⟨r1, s1⟩ := r
      dsimp only at hfn
      subst hfn
      simp at h

/-- A `CreateEvent` for an id that is in table `events` returns an error, which is
`ErrEventAlreadyExists` unless the database fails before it can answer, and changes
neither table. -/
theorem CreateEvent_existing (jsonb : List Nat → Option (List Nat)) (f : CreateFaults)
    (dbNow : Int) (ev : Event) (payload : List Nat) (s : Store)
    (hex : s.events.any (fun r => r.id == ev.ID) = true) :
    ∃ err, (CreateEvent jsonb f dbNow ev payload s).1 = FnResult.returned (some err) ∧
      (CreateEvent jsonb f dbNow ev payload s).2.events = s.events ∧
      (CreateEvent jsonb f dbNow ev payload s).2.outbox = s.outbox ∧
      (f.beginErr = none → f.insertEventErr = none → err = ErrEventAlreadyExists) := by
  unfold CreateEvent WithinTransaction
  cases hb : f.beginErr with
  | some e => exact ⟨e, rfl, rfl, rfl, fun h => by cases h⟩
  | none =>
    dsimp only
    rcases createEventFn_cases jsonb f dbNow ev payload s with
      ⟨_, _, hno, _⟩ | ⟨err, hfn, herr⟩
    · rw [hex] at hno; cases hno
    · generalize createEventFn jsonb f dbNow ev payload s = r at hfn
      obtain ⟨r1, s1⟩ := r
      dsimp only at hfn
      subst hfn
      exact ⟨err, rfl, rfl, rfl, fun _ hq => herr hq hex⟩

/-- C10: for every store state (that respects the foreign key of the outbox) and
every event E, if `CreateEvent(E)` succeeds then the event is stored with exactly one
outbox row of its id, and every later `CreateEvent` with the same id, in whatever
store still holds the event, returns an error and leaves both the events table and
the outbox table unchanged; the error is `ErrEventAlreadyExists` whenever the
database begins the transaction and answers the insert. Replayed at once, it leaves
exactly one outbox row with `aggregate_id = E.id`. -/
theorem CreateEvent_replay (jsonb : List Nat → Option (List Nat)) (f1 : CreateFaults)
    (now1 : Int) (E : Event) (p1 : List Nat) (s : Store) (hfk : foreignKey s)
    (hfirst : (CreateEvent jsonb f1 now1 E p1 s).1 = FnResult.returned none) :
    (CreateEvent jsonb f1 now1 E p1 s).2.events.any (fun r => r.id == E.ID) = true ∧
    outboxRowsOf E.ID (CreateEvent jsonb f1 now1 E p1 s).2 = 1 ∧
    (∀ (s2 : Store) (f2 : CreateFaults) (now2 : Int) (E2 : Event) (p2 : List Nat),
      E2.ID = E.ID → s2.events.any (fun r => r.id == E.ID) = true →
      (∃ err, (CreateEvent jsonb f2 now2 E2 p2 s2).1 = FnResult.returned (some err)) ∧
      (f2.beginErr = none → f2.insertEventErr = none →
        (CreateEvent jsonb f2 now2 E2 p2 s2).1
          = FnResult.returned (some ErrEventAlreadyExists)) ∧
      (CreateEvent jsonb f2 now2 E2 p2 s2).2.events = s2.events ∧
      (CreateEvent jsonb f2 now2 E2 p2 s2).2.outbox = s2.outbox) ∧
    (∀ (f2 : CreateFaults) (now2 : Int) (E2 : Event) (p2 : List Nat), E2.ID = E.ID →
      outboxRowsOf E.ID
        (CreateEvent jsonb f2 now2 E2 p2 (CreateEvent jsonb f1 now1 E p1 s).2).2 = 1) := by
  obtain ⟨hno, hev, document, _, hout⟩ := CreateEvent_success jsonb f1 now1 E p1 s hfirst
  have hin : (CreateEvent jsonb f1 now1 E p1 s).2.events.any (fun r => r.id == E.ID) = true := by
    rw [hev, List.any_append]
    simp [eventRow]
  have hzero : s.outbox.countP (fun r => r.AggregateID == E.ID) = 0 := by
    rw [List.countP_eq_zero]
    intro r hr hb
    have heq : r.AggregateID = E.ID := by simpa using hb
    have := hfk r hr
    rw [heq, hno] at this
    cases this
  have hone : outboxRowsOf E.ID (CreateEvent jsonb f1 now1 E p1 s).2 = 1 := by
    unfold outboxRowsOf
    rw [hout, List.countP_append, hzero]
    simp
  refine ⟨hin, hone, ?_, ?_⟩
  · intro s2 f2 now2 E2 p2 hid hex
    rw [← hid] at hex
    obtain ⟨err, h1, h2, h3, h4⟩ := CreateEvent_existing jsonb f2 now2 E2 p2 s2 hex
    refine ⟨⟨err, h1⟩, ?_, h2, h3⟩
    intro hb hq
    rw [h1, h4 hb hq]
  · intro f2 now2 E2 p2 hid
    have hex : (CreateEvent jsonb f1 now1 E p1 s).2.events.any (fun r => r.id == E2.ID)
        = true := by
      rw [hid]; exact hin
    obtain ⟨_, _, _, h3, _⟩ := CreateEvent_existing jsonb f2 now2 E2 p2 _ hex
    unfold outboxRowsOf at hone ⊢
    rw [h3]
    exact hone

/-- C10 at a concrete input: the example event created in the empty database and
replayed at once. -/
theorem CreateEvent_replay_witness :
    (CreateEvent jsonbText
        { beginErr := none, insertEventErr := none, insertOutboxErr := none, commitErr := none }
        0 freshEvent [123, 125] emptyStore).2 = freshStore ∧
    (CreateEvent jsonbText
        { beginErr := none, insertEventErr := none, insertOutboxErr := none, commitErr := none }
        50 freshEvent [123, 125] freshStore).1
      = FnResult.returned (some ErrEventAlreadyExists) ∧
    outboxRowsOf freshEvent.ID
      (CreateEvent jsonbText
        { beginErr := none, insertEventErr := none, insertOutboxErr := none, commitErr := none }
        50 freshEvent [123, 125]
        (CreateEvent jsonbText
          { beginErr := none, insertEventErr := none, insertOutboxErr := none, commitErr := none }
          0 freshEvent [123, 125] emptyStore).2).2 = 1 :=
  ⟨by decide, by decide,
   (CreateEvent_replay jsonbText
      { beginErr := none, insertEventErr := none, insertOutboxErr := none, commitErr := none }
      0 freshEvent [123, 125] emptyStore
      (by decide) (by decide)).2.2.2
      { beginErr := none, insertEventErr := none, insertOutboxErr := none, commitErr := none }
      50 freshEvent [123, 125] rfl⟩

/-! ## Which rows a reservation selects -/

/-- The sub-select `picked` lists its rows in ascending order of id. -/
theorem picked_sorted (dbNow limit maxAttempts : Int) (t : List OutboxEvent) :
    (picked dbNow limit maxAttempts t).Sorted (fun a b => a.ID ≤ b.ID) := by
  haveI : IsTotal OutboxEvent (fun a b => a.ID ≤ b.ID) := ⟨fun a b => le_total a.ID b.ID⟩
  haveI : IsTrans OutboxEvent (fun a b => a.ID ≤ b.ID) := ⟨fun _ _ _ h1 h2 => le_trans h1 h2⟩
  unfold picked
  exact (List.sorted_insertionSort (fun a b : OutboxEvent => a.ID ≤ b.ID) _).sublist
    (List.take_sublist _ _)

/-- The sub-select `picked` keeps `limit` rows, or all eligible rows when there are fewer. -/
theorem picked_length (dbNow limit maxAttempts : Int) (t : List OutboxEvent) :
    (picked dbNow limit maxAttempts t).length
      = min limit.toNat (t.filter (eligible dbNow maxAttempts)).length := by
  unfold picked
  rw [List.length_take,
    (List.perm_insertionSort (fun a b : OutboxEvent => a.ID ≤ b.ID) _).length_eq]

/-- An eligible row that the sub-select `picked` leaves out has an id that is not
below that of any picked row. -/
theorem picked_smallest (dbNow limit maxAttempts : Int) (t : List OutboxEvent)
    (r : OutboxEvent) (hr : r ∈ t) (hel : eligible dbNow maxAttempts r = true)
    (hout : r ∉ picked dbNow limit maxAttempts t) :
    ∀ b ∈ picked dbNow limit maxAttempts t, b.ID ≤ r.ID := by
  haveI : IsTotal OutboxEvent (fun a b => a.ID ≤ b.ID) := ⟨fun a b => le_total a.ID b.ID⟩
  haveI : IsTrans OutboxEvent (fun a b => a.ID ≤ b.ID) := ⟨fun _ _ _ h1 h2 => le_trans h1 h2⟩
  intro b hb
  unfold picked at hout hb
  have hsorted := List.sorted_insertionSort (fun a b : OutboxEvent => a.ID ≤ b.ID)
    (t.filter (eligible dbNow maxAttempts))
  have hmem : r ∈ (t.filter (eligible dbNow maxAttempts)).insertionSort
      (fun a b => a.ID ≤ b.ID) :=
    (List.perm_insertionSort _ _).mem_iff.mpr (List.mem_filter.mpr ⟨hr, hel⟩)
  rw [← List.take_append_drop limit.toNat
    ((t.filter (eligible dbNow maxAttempts)).insertionSort (fun a b => a.ID ≤ b.ID))] at hmem
  rcases List.mem_append.mp hmem with h | h
  · exact absurd h hout
  · exact hsorted.rel_of_mem_take_of_mem_drop hb h

/-- C11 does not hold as stated: two fresh rows are both selected, and a database
that reaches the row of id 2 first delivers them, and `ReserveOutboxBatch` returns
them, in the order 2, 1. -/
theorem reservation_order_counterexample :
    (ReserveOutboxBatch none none byIdDescending 10 (5 * Second) 10 3 twoRowStore).1
      = Except.ok [stampLease 10 5 freshRow2, stampLease 10 5 freshRow] ∧
    ((picked 10 10 3 twoRowStore.outbox).map (fun r => r.ID)) = [1, 2] :=
  ⟨rfl, rfl⟩

/-- C11, amended: for every table state (ids unique), time now, `limit ≥ 0` and
`maxAttempts`, with no concurrent locks and no failure of the database,
`ReserveOutboxBatch` returns exactly the min(limit, number of eligible rows) rows of
smallest id among the rows with status in {NEW, FAILED}, `attempts < maxAttempts`
and `next_attempt_at ≤ now`, each id at most once, with the lease stamped on them;
no ineligible row is returned. The sub-select picks them in ascending order of id;
the returned slice has the order in which the database delivers the updated rows,
which is ascending id whenever that order follows the ids. -/
theorem reservation_selects_first_eligible (rank : Int → Int)
    (dbNow lease limit maxAttempts : Int) (s : Store)
    (hpk : primaryKey s) (hlimit : 0 ≤ limit) :
    ∃ batch,
      (ReserveOutboxBatch none none rank dbNow lease limit maxAttempts s).1 = Except.ok batch ∧
      batch.Perm ((picked dbNow limit maxAttempts s.outbox).map
        (stampLease dbNow (PgInterval lease))) ∧
      batch.length = min limit.toNat (s.outbox.filter (eligible dbNow maxAttempts)).length ∧
      (batch.map (fun r => r.ID)).Nodup ∧
      (∀ b ∈ batch, ∃ r ∈ s.outbox,
        (r.Status = OutboxStatus.NEW ∨ r.Status = OutboxStatus.FAILED) ∧
        r.NextAttemptAt ≤ dbNow ∧ r.Attempts < maxAttempts ∧
        b = stampLease dbNow (PgInterval lease) r) ∧
      (∀ r ∈ s.outbox, eligible dbNow maxAttempts r = true →
        r.ID ∉ batch.map (fun r => r.ID) → ∀ b ∈ batch, b.ID < r.ID) ∧
      ((picked dbNow limit maxAttempts s.outbox).map (fun r => r.ID)).Sorted (· < ·) ∧
      ((∀ i j, i ≤ j → rank i ≤ rank j) → (batch.map (fun r => r.ID)).Sorted (· < ·)) := by
  have hperm := returning_perm rank ((picked dbNow limit maxAttempts s.outbox).map
    (stampLease dbNow (PgInterval lease)))
  have hnd := picked_nodup dbNow limit maxAttempts s.outbox hpk
  have hids : ((picked dbNow limit maxAttempts s.outbox).map
      (stampLease dbNow (PgInterval lease))).map (fun r => r.ID)
      = (picked dbNow limit maxAttempts s.outbox).map (fun r => r.ID) := by
    rw [List.map_map]; rfl
  have hsortedLe : ((picked dbNow limit maxAttempts s.outbox).map (fun r => r.ID)).Sorted
      (· ≤ ·) := List.pairwise_map.mpr (picked_sorted dbNow limit maxAttempts s.outbox)
  have hsortedLt : ((picked dbNow limit maxAttempts s.outbox).map (fun r => r.ID)).Sorted
      (· < ·) := hsortedLe.lt_of_le hnd
  refine ⟨_, ?_, hperm, ?_, ?_, ?_, ?_, hsortedLt, ?_⟩
  · unfold ReserveOutboxBatch
    dsimp only
    rw [if_neg (by omega)]
  · rw [hperm.length_eq, List.length_map, picked_length]
  · exact ((hperm.map (fun r => r.ID)).nodup_iff).mpr (by rw [hids]; exact hnd)
  · intro b hb
    obtain ⟨r, hr, rfl⟩ := List.mem_map.mp ((mem_returning _ _ _).mp hb)
    obtain ⟨hmem, hel⟩ := mem_picked _ _ _ _ _ hr
    obtain ⟨h1, h2, h3⟩ := eligible_spec _ _ _ hel
    exact ⟨r, hmem, h1, h2, h3, rfl⟩
  · intro r hr hel hnot b hb
    obtain ⟨x, hx, rfl⟩ := List.mem_map.mp ((mem_returning _ _ _).mp hb)
    have hrout : r ∉ picked dbNow limit maxAttempts s.outbox := by
      intro hin
      apply hnot
      rw [(hperm.map (fun r => r.ID)).mem_iff, hids]
      exact List.mem_map.mpr ⟨r, hin, rfl⟩
    have hle := picked_smallest dbNow limit maxAttempts s.outbox r hr hel hrout x hx
    have hne : x.ID ≠ r.ID := by
      intro heq
      apply hnot
      rw [(hperm.map (fun r => r.ID)).mem_iff, hids]
      exact List.mem_map.mpr ⟨x, hx, heq⟩
    show x.ID < r.ID
    omega
  · intro hmono
    have hs : ((picked dbNow limit maxAttempts s.outbox).map
        (stampLease dbNow (PgInterval lease))).Sorted (fun a b => rank a.ID ≤ rank b.ID) := by
      apply List.pairwise_map.mpr
      exact (picked_sorted dbNow limit maxAttempts s.outbox).imp (fun h => hmono _ _ h)
    unfold returning
    rw [hs.insertionSort_eq, hids]
    exact hsortedLt

/-- C11 (amended) at a concrete input: two fresh rows, a limit of 1, a database that
delivers by descending id. The row of id 1 is returned. -/
theorem reservation_selects_first_eligible_witness :
    ∃ batch,
      (ReserveOutboxBatch none none byIdDescending 10 (5 * Second) 1 3 twoRowStore).1
        = Except.ok batch ∧
      batch.length = min (1 : Int).toNat (twoRowStore.outbox.filter (eligible 10 3)).length ∧
      batch.map (fun r => r.ID) = [1] := by
  obtain ⟨batch, h1, _, h3, _⟩ :=
    reservation_selects_first_eligible byIdDescending 10 (5 * Second) 1 3 twoRowStore
      (by decide) (by decide)
  refine ⟨batch, h1, h3, ?_⟩
  have h : (ReserveOutboxBatch none none byIdDescending 10 (5 * Second) 1 3 twoRowStore).1
      = Except.ok [stampLease 10 5 freshRow] := rfl
  rw [h] at h1
  injection h1 with h1
  rw [← h1]
  rfl

/-! ## The lease -/

/-- Under the primary key a row of the table has the id of a picked row exactly when
it is a picked row. -/
theorem mem_picked_ids_iff (dbNow limit maxAttempts : Int) (t : List OutboxEvent)
    (hpk : (t.map (fun r => r.ID)).Nodup) (r : OutboxEvent) (hr : r ∈ t) :
    r.ID ∈ (picked dbNow limit maxAttempts t).map (fun r => r.ID)
      ↔ r ∈ picked dbNow limit maxAttempts t := by
  constructor
  · intro h
    obtain ⟨x, hx, hid⟩ := List.mem_map.mp h
    have hxt := (mem_picked _ _ _ _ _ hx).1
    have : x = r := List.inj_on_of_nodup_map hpk hxt hr hid
    rw [← this]; exact hx
  · intro h
    exact List.mem_map.mpr ⟨r, h, rfl⟩

/-- The whole seconds of a lease that is not negative: at most the lease, and less
than a second below it. -/
theorem PgInterval_bounds (lease : Int) (h : 0 ≤ lease) :
    PgInterval lease * Second ≤ lease ∧ lease - Second < PgInterval lease * Second ∧
    (lease % Second = 0 → PgInterval lease * Second = lease) := by
  unfold PgInterval
  rw [Int.tdiv_eq_ediv h (by decide)]
  unfold Second
  omega

/-- C12 does not hold as stated: with a lease of 1.5 s the reserved fresh row gets
`next_attempt_at = now + 1 s`, not `now + 1.5 s`. -/
theorem lease_stamping_counterexample :
    (ReserveOutboxBatch none none byId 10 1500000000 10 3 freshStore).1
      = Except.ok [{ freshRow with NextAttemptAt := 1000000010 }] ∧
    rowOf 1 (ReserveOutboxBatch none none byId 10 1500000000 10 3 freshStore).2
      = some { freshRow with NextAttemptAt := 1000000010 } ∧
    (1000000010 : Int) ≠ 10 + 1500000000 :=
  ⟨rfl, by decide, by decide⟩

/-- C12, amended: for every lease duration `≥ 0`, a `ReserveOutboxBatch` that returns
rows sets `next_attempt_at` of every selected row to `now()` plus the whole seconds
of the lease (`PgInterval`), which is at most `now + lease`, less than a second
below it, and exactly `now + lease` when the lease is a whole number of seconds; it
leaves status, attempts, payload and every other column of the selected rows
unchanged, leaves all non-selected rows and table `events` unchanged, and returns
the selected rows as updated. -/
theorem lease_stamping (queryErr rowsErr : Option Error) (rank : Int → Int)
    (dbNow lease limit maxAttempts : Int) (s : Store) (batch : List OutboxEvent)
    (hpk : primaryKey s) (hlease : 0 ≤ lease)
    (hok : (ReserveOutboxBatch queryErr rowsErr rank dbNow lease limit maxAttempts s).1
      = Except.ok batch) :
    (ReserveOutboxBatch queryErr rowsErr rank dbNow lease limit maxAttempts s).2.outbox
      = s.outbox.map (fun r =>
          if r ∈ picked dbNow limit maxAttempts s.outbox
          then { r with NextAttemptAt := dbNow + PgInterval lease * Second } else r) ∧
    (ReserveOutboxBatch queryErr rowsErr rank dbNow lease limit maxAttempts s).2.events
      = s.events ∧
    batch.Perm ((picked dbNow limit maxAttempts s.outbox).map
      (fun r => { r with NextAttemptAt := dbNow + PgInterval lease * Second })) ∧
    dbNow + PgInterval lease * Second ≤ dbNow + lease ∧
    dbNow + lease - Second < dbNow + PgInterval lease * Second ∧
    (lease % Second = 0 → dbNow + PgInterval lease * Second = dbNow + lease) := by
  obtain ⟨hb1, hb2, hb3⟩ := PgInterval_bounds lease hlease
  rcases ReserveOutboxBatch_ok queryErr rowsErr rank dbNow lease limit maxAttempts s with
    ⟨err, h⟩ | ⟨h, hout⟩
  · rw [h] at hok; cases hok
  · rw [h] at hok
    injection hok with hok
    refine ⟨?_, (ReserveOutboxBatch_cases queryErr rowsErr rank dbNow lease limit maxAttempts s).2.2.1,
      ?_, by omega, by omega, fun hz => by rw [hb3 hz]⟩
    · rw [hout]
      apply List.map_congr_left
      intro r hr
      by_cases hin : r ∈ picked dbNow limit maxAttempts s.outbox
      · rw [if_pos hin, if_pos ((mem_picked_ids_iff _ _ _ _ hpk r hr).mpr hin)]
        rfl
      · rw [if_neg hin, if_neg (fun h => hin ((mem_picked_ids_iff _ _ _ _ hpk r hr).mp h))]
    · rw [← hok]
      exact returning_perm rank _

/-- C12 (amended) at a concrete input: the fresh row reserved with a lease of 1.5 s. -/
theorem lease_stamping_witness :
    (ReserveOutboxBatch none none byId 10 1500000000 10 3 freshStore).2.outbox
      = freshStore.outbox.map (fun r =>
          if r ∈ picked 10 10 3 freshStore.outbox
          then { r with NextAttemptAt := 10 + PgInterval 1500000000 * Second } else r) :=
  (lease_stamping none none byId 10 1500000000 10 3 freshStore
    [{ freshRow with NextAttemptAt := 1000000010 }] (by decide) (by decide) rfl).1

/-- C13 does not hold as stated: with a lease of 0.5 s the fresh row is reserved at
time 10 and again at time 11, well before `10 + lease`. -/
theorem lease_window_counterexample :
    ((0 : Int) < 500000000 ∧ (10 : Int) ≤ 11 ∧ (11 : Int) < 10 + 500000000) ∧
    (ReserveOutboxBatch none none byId 10 500000000 10 3 freshStore).1
      = Except.ok [{ freshRow with NextAttemptAt := 10 }] ∧
    (ReserveOutboxBatch none none byId 11 500000000 10 3
        (ReserveOutboxBatch none none byId 10 500000000 10 3 freshStore).2).1
      = Except.ok [{ freshRow with NextAttemptAt := 11 }] :=
  ⟨by decide, rfl, rfl⟩

/-- C13, amended: for every table state, every lease and every pair of times with
`t2 < t1 +` the whole seconds of the lease, a `ReserveOutboxBatch` at `t1` followed
(with no mark operation in between) by a `ReserveOutboxBatch` at `t2` return
disjoint sets of ids. A lease below one second gives no such window. -/
theorem lease_window (q1 r1 q2 r2 : Option Error) (rank1 rank2 : Int → Int)
    (t1 t2 lease limit1 max1 lease2 limit2 max2 : Int) (s : Store)
    (b1 b2 : List OutboxEvent)
    (ht : t2 < t1 + PgInterval lease * Second)
    (h1 : (ReserveOutboxBatch q1 r1 rank1 t1 lease limit1 max1 s).1 = Except.ok b1)
    (h2 : (ReserveOutboxBatch q2 r2 rank2 t2 lease2 limit2 max2
            (ReserveOutboxBatch q1 r1 rank1 t1 lease limit1 max1 s).2).1 = Except.ok b2) :
    ∀ x ∈ b1, ∀ y ∈ b2, x.ID ≠ y.ID := by
  intro x hx y hy hid
  rcases ReserveOutboxBatch_ok q1 r1 rank1 t1 lease limit1 max1 s with ⟨err, h⟩ | ⟨h, hout⟩
  · rw [h] at h1; cases h1
  · rw [h] at h1
    injection h1 with h1
    rw [← h1] at hx
    obtain ⟨x0, hx0, rfl⟩ := List.mem_map.mp ((mem_returning _ _ _).mp hx)
    rcases ReserveOutboxBatch_ok q2 r2 rank2 t2 lease2 limit2 max2
      (ReserveOutboxBatch q1 r1 rank1 t1 lease limit1 max1 s).2 with ⟨err, h'⟩ | ⟨h', _⟩
    · rw [h'] at h2; cases h2
    · rw [h'] at h2
      injection h2 with h2
      rw [← h2] at hy
      obtain ⟨y0, hy0, rfl⟩ := List.mem_map.mp ((mem_returning _ _ _).mp hy)
      obtain ⟨hmem, hel⟩ := mem_picked _ _ _ _ _ hy0
      have hdue := (eligible_spec _ _ _ hel).2.1
      rw [hout] at hmem
      obtain ⟨z, _, rfl⟩ := List.mem_map.mp hmem
      have hzid : z.ID = x0.ID := by
        have h3 : (stampLease t1 (PgInterval lease) x0).ID
            = (stampLease t2 (PgInterval lease2)
                (if z.ID ∈ (picked t1 limit1 max1 s.outbox).map (fun r => r.ID)
                 then stampLease t1 (PgInterval lease) z else z)).ID := hid
        have h4 := stampPicked_ID t1 (PgInterval lease)
          ((picked t1 limit1 max1 s.outbox).map (fun r => r.ID)) z
        have h5 : (stampLease t2 (PgInterval lease2)
                (if z.ID ∈ (picked t1 limit1 max1 s.outbox).map (fun r => r.ID)
                 then stampLease t1 (PgInterval lease) z else z)).ID
            = (if z.ID ∈ (picked t1 limit1 max1 s.outbox).map (fun r => r.ID)
                 then stampLease t1 (PgInterval lease) z else z).ID := rfl
        rw [h5, h4] at h3
        exact h3.symm
      have hin : z.ID ∈ (picked t1 limit1 max1 s.outbox).map (fun r => r.ID) := by
        rw [hzid]; exact List.mem_map.mpr ⟨x0, hx0, rfl⟩
      rw [if_pos hin] at hdue
      have : t1 + PgInterval lease * Second ≤ t2 := hdue
      omega

/-- C13 (amended) at a concrete input: a lease of 5 s, two fresh rows and a limit of
1; the first reservation takes the row of id 1, the second, one second later, that
of id 2. -/
theorem lease_window_witness :
    (ReserveOutboxBatch none none byId 1000000010 5000000000 1 3
        (ReserveOutboxBatch none none byId 10 5000000000 1 3 twoRowStore).2).1
      = Except.ok [stampLease 1000000010 5 freshRow2] ∧
    ∀ x ∈ [stampLease 10 5 freshRow], ∀ y ∈ [stampLease 1000000010 5 freshRow2], x.ID ≠ y.ID :=
  ⟨rfl,
   lease_window none none none none byId byId 10 1000000010 5000000000 1 3 5000000000 1 3
    twoRowStore [stampLease 10 5 freshRow] [stampLease 1000000010 5 freshRow2]
    (by decide) rfl rfl⟩

/-! ## Marking a record sent -/

/-- The statement `markSentSQL` affects no row exactly when the table has no row of
the id. -/
theorem rowsAffected_eq_zero_iff (id : Int) (s : Store) :
    rowsAffected id s.outbox = 0 ↔ rowOf id s = none := by
  unfold rowsAffected rowOf
  rw [List.countP_eq_zero, List.find?_eq_none]

/-- C14: for every table state and id, if a row with that id exists and the
database calls succeed, `MarkSentAndUpdateEvent` returns nil and the only change is
that row's status becoming `SENT` (attempts, `next_attempt_at`, payload and every
other column intact, every other row and table `events` intact); if no row with that
id exists the call returns a non-nil error, whatever the database does, and the
store is unchanged. -/
theorem MarkSentAndUpdateEvent_postcondition (f : TxFaults) (id : Int) (s : Store) :
    (∀ r, rowOf id s = some r →
      f.beginErr = none → f.stmtErr = none → f.commitErr = none →
      MarkSentAndUpdateEvent f id s
        = (FnResult.returned none,
            { s with outbox := s.outbox.map (fun x =>
                if x.ID = id then { x with Status := OutboxStatus.SENT } else x) }) ∧
      rowOf id (MarkSentAndUpdateEvent f id s).2
        = some { r with Status := OutboxStatus.SENT } ∧
      ∀ id2, id2 ≠ id →
        rowOf id2 (MarkSentAndUpdateEvent f id s).2 = rowOf id2 s) ∧
    (rowOf id s = none →
      ∃ err, MarkSentAndUpdateEvent f id s = (FnResult.returned (some err), s)) := by
  constructor
  · intro r hrow hb hs hc
    have hz : ¬ rowsAffected id s.outbox = 0 := by
      rw [rowsAffected_eq_zero_iff, hrow]; simp
    have heq : MarkSentAndUpdateEvent f id s
        = (FnResult.returned none,
            { s with outbox := s.outbox.map (fun x =>
                if x.ID = id then { x with Status := OutboxStatus.SENT } else x) }) := by
      unfold MarkSentAndUpdateEvent WithinTransaction
      rw [hb, hs, hc]
      dsimp only
      rw [if_neg hz]
      rfl
    refine ⟨heq, ?_, ?_⟩
    · rw [heq]
      unfold rowOf at hrow ⊢
      show List.find? _ (updateWhereId id setSent s.outbox) = _
      rw [find_updateWhereId_self id setSent (fun _ => rfl), hrow]
      rfl
    · intro id2 hne
      rw [heq]
      unfold rowOf
      show List.find? _ (updateWhereId id setSent s.outbox) = _
      exact find_updateWhereId_other id id2 setSent (fun _ => rfl) hne s.outbox
  · intro hrow
    have hz : rowsAffected id s.outbox = 0 := (rowsAffected_eq_zero_iff id s).mpr hrow
    unfold MarkSentAndUpdateEvent WithinTransaction
    cases hb : f.beginErr with
    | some e => exact ⟨e, rfl⟩
    | none =>
      cases hs : f.stmtErr with
      | some e => exact ⟨_, rfl⟩
      | none =>
        dsimp only
        rw [if_pos hz]
        exact ⟨_, rfl⟩

/-- C14 at a concrete input: the reserved fresh row is marked sent; an id without a
row is refused. -/
theorem MarkSentAndUpdateEvent_postcondition_witness :
    rowOf 1 (MarkSentAndUpdateEvent noFaults 1 leasedStore).2
      = some { leasedRow with Status := OutboxStatus.SENT } ∧
    ∃ err, MarkSentAndUpdateEvent noFaults 2 leasedStore = (FnResult.returned (some err), leasedStore) :=
  ⟨((MarkSentAndUpdateEvent_postcondition noFaults 1 leasedStore).1 leasedRow
      (by decide) rfl rfl rfl).2.1,
   (MarkSentAndUpdateEvent_postcondition noFaults 2 leasedStore).2 (by decide)⟩

/-! ## Transactions -/

/-- What `WithinTransaction` does when the callback returns: it commits after nil,
returning the commit's error if there is one, and rolls back after an error, which
it returns; a failed commit and a rollback leave the tables as they were. -/
theorem WithinTransaction_returned (commitErr : Option Error)
    (tFunc : Store → FnResult × Store) (s s1 : Store) (r : Option Error)
    (h : tFunc s = (FnResult.returned r, s1)) :
    (r = none → commitErr = none →
      WithinTransaction none commitErr tFunc s = (FnResult.returned none, s1)) ∧
    (r = none → ∀ e, commitErr = some e →
      WithinTransaction none commitErr tFunc s = (FnResult.returned (some e), rollback s s1)) ∧
    (∀ e, r = some e →
      WithinTransaction none commitErr tFunc s = (FnResult.returned (some e), rollback s s1)) ∧
    (rollback s s1).events = s.events ∧ (rollback s s1).outbox = s.outbox := by
  unfold WithinTransaction
  refine ⟨?_, ?_, ?_, rfl, rfl⟩
  · intro hr hc; subst hr; subst hc; rw [h]
  · intro hr e hc; subst hr; subst hc; rw [h]
  · intro e hr; subst hr; rw [h]

/-- C15 fails on the code for a callback that panics: the deferred function of
`WithinTransaction` finds the named result `err` still nil and commits. Whatever the
callback wrote before the panic persists; for instance the outbox row inserted by a
callback that then panics is in the table afterwards, whereas the same insert
followed by an error return is rolled back. -/
theorem WithinTransaction_commits_on_panic :
    (∀ (s s1 : Store),
      WithinTransaction none none (fun _ => (FnResult.panicked, s1)) s
        = (FnResult.panicked, s1)) ∧
    WithinTransaction none none insertThenPanic eventOnlyStore
      = (FnResult.panicked, freshStore) ∧
    (WithinTransaction none none insertThenFail eventOnlyStore).2.outbox = [] := by
  refine ⟨fun s s1 => rfl, by decide, by decide⟩

/-! ## The backoff -/

/-- Half of a duration, as Go computes it, is positive only from 2 ns on. -/
theorem tdiv_two (b : Int) :
    (b ≤ 1 → Int.tdiv b 2 ≤ 0) ∧ (2 ≤ b → Int.tdiv b 2 = b / 2 ∧ 0 < b / 2) := by
  constructor
  · intro h
    by_cases h0 : 0 ≤ b
    · rw [Int.tdiv_eq_ediv h0 (by decide)]; omega
    · have h1 : b = -(-b) := by omega
      rw [h1, Int.neg_tdiv, Int.tdiv_eq_ediv (by omega) (by decide)]
      omega
  · intro h
    rw [Int.tdiv_eq_ediv (by omega) (by decide)]
    exact ⟨rfl, by omega⟩

/-- Function `NextBackoffWithJitter` in terms of the capped base: a panic when the
base is below 2 ns, and otherwise half the base plus a jitter below half the base. -/
theorem NextBackoffWithJitter_eq (n : Int) (draw : Nat) (h0 : 0 ≤ n) :
    NextBackoffWithJitter n draw
      = if cappedBase n ≤ 1 then none
        else some (cappedBase n / 2 + (draw : Int) % (cappedBase n / 2)) := by
  unfold NextBackoffWithJitter Int63n
  have hn : ¬ n < 0 := by omega
  simp only [hn, if_false]
  show (match (if Int.tdiv (cappedBase n) 2 ≤ 0 then none
      else some ((draw : Int) % Int.tdiv (cappedBase n) 2)) with
    | none => none
    | some jitter => some (Int.tdiv (cappedBase n) 2 + jitter)) = _
  by_cases hb : cappedBase n ≤ 1
  · rw [if_pos ((tdiv_two _).1 hb), if_pos hb]
  · obtain ⟨h1, h2⟩ := (tdiv_two (cappedBase n)).2 (by omega)
    rw [h1, if_neg (show ¬ cappedBase n / 2 ≤ 0 by omega), if_neg hb]

/-- Up to attempt 33 the capped base of the code is the base of the spec. -/
theorem cappedBase_small (n : Int) (h0 : 0 ≤ n) (h1 : n ≤ 33) :
    cappedBase n = specBase n ∧ 2 ≤ cappedBase n := by
  interval_cases n <;> decide

/-- From attempt 34 to 63 the shift has overflowed: the capped base of the code is
not positive, or it is the cap (as is the base of the spec). -/
theorem cappedBase_overflow (n : Int) (h0 : 34 ≤ n) (h1 : n ≤ 63) :
    specBase n = 30 * Minute ∧ (cappedBase n ≤ 0 ∨ cappedBase n = 30 * Minute) := by
  interval_cases n <;> decide

/-- From attempt 64 on the shift gives 0. -/
theorem cappedBase_zero (n : Int) (h0 : 64 ≤ n) : cappedBase n = 0 := by
  have hs : shl64 Second n = 0 := by
    unfold shl64
    exact if_pos h0
  unfold cappedBase
  rw [hs]
  decide

/-- The half-jitter bounds of a delay computed from a base of at least 2 ns. -/
theorem half_jitter_bounds (b : Int) (draw : Nat) (hb : 2 ≤ b) :
    b / 2 ≤ b / 2 + (draw : Int) % (b / 2) ∧ b / 2 + (draw : Int) % (b / 2) < b ∧
    0 < b / 2 + (draw : Int) % (b / 2) := by
  have hpos : 0 < b / 2 := by omega
  have h1 := Int.emod_nonneg (draw : Int) (by omega : b / 2 ≠ 0)
  have h2 := Int.emod_lt_of_pos (draw : Int) hpos
  refine ⟨by omega, by omega, by omega⟩

/-- Up to attempt 33 `NextBackoffWithJitter` returns, and the delay is at least half
the base of the spec, below the base, not zero and at most 30 minutes. -/
theorem NextBackoffWithJitter_half_jitter (n : Int) (draw : Nat) (h0 : 0 ≤ n) (h1 : n ≤ 33) :
    ∃ d, NextBackoffWithJitter n draw = some d ∧
      specBase n / 2 ≤ d ∧ d < specBase n ∧ 0 < d ∧ d ≤ 30 * Minute := by
  obtain ⟨hc, h2⟩ := cappedBase_small n h0 h1
  obtain ⟨hb1, hb2, hb3⟩ := half_jitter_bounds (cappedBase n) draw h2
  refine ⟨_, by rw [NextBackoffWithJitter_eq n draw h0, if_neg (by omega)], ?_, ?_, hb3, ?_⟩
  · rw [← hc]; exact hb1
  · rw [← hc]; exact hb2
  · have : specBase n ≤ 30 * Minute := by unfold specBase; exact min_le_right _ _
    rw [← hc] at this
    omega

/-- C16 fails on the code: for attempt 34 the shift `time.Second << 34` overflows to
-1 266 874 889 709 551 616 ns, which the cap lets through, and `rand.Int63n` panics on
half of it, whatever the draw; from attempt 64 on the shift gives 0 and `rand.Int63n`
panics on 0. -/
theorem NextBackoffWithJitter_panics :
    shl64 Second 34 = -1266874889709551616 ∧
    (∀ draw, NextBackoffWithJitter 34 draw = none) ∧
    (∀ n draw, 64 ≤ n → NextBackoffWithJitter n draw = none) := by
  refine ⟨by decide, ?_, ?_⟩
  · intro draw
    rw [NextBackoffWithJitter_eq 34 draw (by decide), if_pos (by decide)]
  · intro n draw hn
    rw [NextBackoffWithJitter_eq n draw (by omega), cappedBase_zero n hn, if_pos (by decide)]

/-- C17 does not hold as stated: for attempt 11 the base is capped at 30 min, the
delay with draw 0 is 15 min (900 s), and the claimed lower bound `2^10 s` is 1024 s. -/
theorem backoff_interval_counterexample :
    NextBackoffWithJitter 11 0 = some (900 * Second) ∧
    ¬ (2 ^ (11 - 1) * Second ≤ 900 * Second) := by
  decide

/-- C17, amended: for every attempt `n ≥ 0` the delay returned by
`NextBackoffWithJitter(n)` lies in the interval
`[min(2^n s, 30 min) / 2, min(2^n s, 30 min)]`, that is `[2^(n-1) s, 2^n s]` up to
attempt 10 and `[15 min, 30 min]` from attempt 11 on; up to attempt 33 a delay is
returned. -/
theorem backoff_interval (n : Int) (draw : Nat) (h0 : 0 ≤ n) :
    (∀ d, NextBackoffWithJitter n draw = some d → specBase n / 2 ≤ d ∧ d ≤ specBase n) ∧
    (n ≤ 33 → ∃ d, NextBackoffWithJitter n draw = some d) ∧
    (n ≤ 10 → specBase n = 2 ^ n.toNat * Second) ∧
    (11 ≤ n → specBase n = 30 * Minute) := by
  refine ⟨?_, ?_, ?_, ?_⟩
  · intro d hd
    by_cases h33 : n ≤ 33
    · obtain ⟨d2, hd2, hlo, hhi, _, _⟩ := NextBackoffWithJitter_half_jitter n draw h0 h33
      rw [hd] at hd2
      injection hd2 with hd2
      subst hd2
      exact ⟨hlo, by omega⟩
    · rw [NextBackoffWithJitter_eq n draw h0] at hd
      by_cases h63 : n ≤ 63
      · obtain ⟨hs, hc⟩ := cappedBase_overflow n (by omega) h63
        rcases hc with hc | hc
        · rw [if_pos (by omega)] at hd; cases hd
        · have h2 : (2 : Int) ≤ cappedBase n := by rw [hc]; decide
          obtain ⟨hb1, hb2, _⟩ := half_jitter_bounds (cappedBase n) draw h2
          rw [if_neg (by omega)] at hd
          injection hd with hd
          subst hd
          rw [hs, ← hc]
          exact ⟨hb1, by omega⟩
      · rw [cappedBase_zero n (by omega), if_pos (by decide)] at hd
        cases hd
  · intro h33
    obtain ⟨d, hd, _⟩ := NextBackoffWithJitter_half_jitter n draw h0 h33
    exact ⟨d, hd⟩
  · intro h10
    interval_cases n <;> decide
  · intro h11
    unfold specBase
    apply min_eq_right
    have hle : (2 : Int) ^ 11 ≤ 2 ^ n.toNat :=
      pow_le_pow_right₀ (by decide) (by omega)
    unfold Minute Second
    nlinarith

/-- C17 (amended) at a concrete input: attempt 11, draw 0. -/
theorem backoff_interval_witness :
    specBase 11 / 2 ≤ 900 * Second ∧ 900 * Second ≤ specBase 11 :=
  (backoff_interval 11 0 (by decide)).1 (900 * Second) (by decide)

/-! ## The producer's loop -/

/-- After a retryable failure that is not on the last attempt, with at most 33
earlier attempts and no cancellation, the loop sleeps and goes on. -/
theorem afterRetryable_continue (M : Int) (a : AttemptEnv) (attempt : Int) (e : Error)
    (sent : List ProducerMessage) (sleeps : List Int) (next : List Int → ProduceResult)
    (hne : attempt ≠ M) (h0 : 1 ≤ attempt) (h1 : attempt ≤ 34)
    (hs : a.sleepCanceled = false) :
    ∃ d, afterRetryable M a attempt e sent sleeps next = next (sleeps ++ [d]) := by
  obtain ⟨d, hd, hpos⟩ := NextBackoffWithJitter_small (attempt - 1) a.draw (by omega) (by omega)
  refine ⟨d, ?_⟩
  unfold afterRetryable SleepCtx
  rw [if_neg hne, hd, hs]
  dsimp only
  rw [if_neg (by omega)]
  rfl

/-- After a retryable failure on the last attempt the loop ends with the error
`produce failed after M attempts`, without a sleep. -/
theorem afterRetryable_last (M : Int) (a : AttemptEnv) (e : Error)
    (sent : List ProducerMessage) (sleeps : List Int) (next : List Int → ProduceResult) :
    afterRetryable M a M e sent sleeps next
      = { err := some (produceFailed M (some e)), panicked := false, sent := sent,
          sleeps := sleeps } := by
  unfold afterRetryable
  rw [if_pos rfl]

/-- The loop of `ProduceMessage` from an attempt that is `j` attempts before the
first final outcome, for a budget of at most 35 and a context that is never
cancelled: `j + 1` more sends, `j` more sleeps, and the result of the final outcome. -/
theorem produceLoop_to_final (M : Int) (env : Int → AttemptEnv) (id : Int) (msg : List Nat)
    (hM : M ≤ 35)
    (hctx : ∀ k, (env k).ctxDone = false ∧ (env k).sleepCanceled = false)
    (i : Int) (hiM : i ≤ M) (hfinal : (env i).send.isFinal = true) :
    ∀ (j fuel : Nat) (attempt : Int) (lastErr : Option Error)
      (sent : List ProducerMessage) (sleeps : List Int),
      1 ≤ attempt → attempt + j = i → j < fuel →
      (∀ k, attempt ≤ k → k < i → (env k).send.isFinal = false) →
      ∃ sl, sl.length = j ∧
        produceLoop M env id msg fuel attempt lastErr sent sleeps
          = { err := (env i).send.finalResult, panicked := false,
              sent := sent ++ List.replicate (j + 1) (mkMessage id msg),
              sleeps := sleeps ++ sl } := by
  intro j
  induction j with
  | zero =>
    intro fuel attempt lastErr sent sleeps h1 hji hfuel _
    have hai : attempt = i := by omega
    subst hai
    obtain ⟨f, rfl⟩ : ∃ f, fuel = f + 1 := ⟨fuel - 1, by omega⟩
    refine ⟨[], rfl, ?_⟩
    unfold produceLoop
    rw [(hctx attempt).1]
    simp only [Bool.false_eq_true, if_false]
    cases hsend : (env attempt).send with
    | ok => simp [SendOutcome.finalResult]
    | kerr k =>
      rw [hsend] at hfinal
      have hp : isPermanent k = true := hfinal
      simp [SendOutcome.finalResult, hp]
    | other s =>
      rw [hsend] at hfinal
      cases hfinal
  | succ j ih =>
    intro fuel attempt lastErr sent sleeps h1 hji hfuel hbefore
    obtain ⟨f, rfl⟩ : ∃ f, fuel = f + 1 := ⟨fuel - 1, by omega⟩
    have hlt : attempt < i := by omega
    have hnf := hbefore attempt (le_refl _) hlt
    have hstep : ∀ (e : Error) (sent2 : List ProducerMessage),
        ∃ sl, sl.length = j + 1 ∧
          afterRetryable M (env attempt) attempt e sent2 sleeps
            (produceLoop M env id msg f (attempt + 1) (some e) sent2)
            = { err := (env i).send.finalResult, panicked := false,
                sent := sent2 ++ List.replicate (j + 1) (mkMessage id msg),
                sleeps := sleeps ++ sl } := by
      intro e sent2
      obtain ⟨d, hd⟩ := afterRetryable_continue M (env attempt) attempt e sent2 sleeps
        (produceLoop M env id msg f (attempt + 1) (some e) sent2)
        (by omega) h1 (by omega) (hctx attempt).2
      obtain ⟨sl, hlen, hres⟩ := ih f (attempt + 1) (some e) sent2 (sleeps ++ [d])
        (by omega) (by push_cast at hji ⊢; omega) (by omega)
        (fun k hk1 hk2 => hbefore k (by omega) hk2)
      refine ⟨d :: sl, by simp [hlen], ?_⟩
      rw [hd, hres]
      simp
    unfold produceLoop
    rw [(hctx attempt).1]
    simp only [Bool.false_eq_true, if_false]
    cases hsend : (env attempt).send with
    | ok => rw [hsend] at hnf; cases hnf
    | kerr k =>
      rw [hsend] at hnf
      have hp : isPermanent k = false := hnf
      simp only [hp, Bool.false_eq_true, if_false]
      obtain ⟨sl, hlen, hres⟩ := hstep (Error.kafka k) (sent ++ [mkMessage id msg])
      refine ⟨sl, hlen, ?_⟩
      rw [hres]
      simp [List.replicate_succ]
    | other s =>
      simp only
      obtain ⟨sl, hlen, hres⟩ := hstep (Error.client s) (sent ++ [mkMessage id msg])
      refine ⟨sl, hlen, ?_⟩
      rw [hres]
      simp [List.replicate_succ]

/-- The loop of `ProduceMessage` from an attempt that is `j` attempts before the
last one, when no outcome up to the last is final, for a budget of at most 35 and a
context that is never cancelled: `j + 1` more sends, `j` more sleeps, and the error
`produce failed after M attempts` around the last send error. -/
theorem produceLoop_to_exhausted (M : Int) (env : Int → AttemptEnv) (id : Int)
    (msg : List Nat) (hM : M ≤ 35)
    (hctx : ∀ k, (env k).ctxDone = false ∧ (env k).sleepCanceled = false) :
    ∀ (j fuel : Nat) (attempt : Int) (lastErr : Option Error)
      (sent : List ProducerMessage) (sleeps : List Int),
      1 ≤ attempt → attempt + j = M → j < fuel →
      (∀ k, attempt ≤ k → k ≤ M → (env k).send.isFinal = false) →
      ∃ sl, sl.length = j ∧
        produceLoop M env id msg fuel attempt lastErr sent sleeps
          = { err := some (produceFailed M (env M).send.toError), panicked := false,
              sent := sent ++ List.replicate (j + 1) (mkMessage id msg),
              sleeps := sleeps ++ sl } := by
  intro j
  induction j with
  | zero =>
    intro fuel attempt lastErr sent sleeps h1 hji hfuel hnone
    have hai : attempt = M := by omega
    subst hai
    obtain ⟨f, rfl⟩ : ∃ f, fuel = f + 1 := ⟨fuel - 1, by omega⟩
    have hnf := hnone attempt (le_refl _) (le_refl _)
    refine ⟨[], rfl, ?_⟩
    unfold produceLoop
    rw [(hctx attempt).1]
    simp only [Bool.false_eq_true, if_false]
    cases hsend : (env attempt).send with
    | ok => rw [hsend] at hnf; cases hnf
    | kerr k =>
      rw [hsend] at hnf
      have hp : isPermanent k = false := hnf
      simp only [hp, Bool.false_eq_true, if_false]
      rw [afterRetryable_last]
      simp [SendOutcome.toError]
    | other s =>
      simp only
      rw [afterRetryable_last]
      simp [SendOutcome.toError]
  | succ j ih =>
    intro fuel attempt lastErr sent sleeps h1 hji hfuel hnone
    obtain ⟨f, rfl⟩ : ∃ f, fuel = f + 1 := ⟨fuel - 1, by omega⟩
    have hnf := hnone attempt (le_refl _) (by omega)
    have hstep : ∀ (e : Error) (sent2 : List ProducerMessage),
        ∃ sl, sl.length = j + 1 ∧
          afterRetryable M (env attempt) attempt e sent2 sleeps
            (produceLoop M env id msg f (attempt + 1) (some e) sent2)
            = { err := some (produceFailed M (env M).send.toError), panicked := false,
                sent := sent2 ++ List.replicate (j + 1) (mkMessage id msg),
                sleeps := sleeps ++ sl } := by
      intro e sent2
      obtain ⟨d, hd⟩ := afterRetryable_continue M (env attempt) attempt e sent2 sleeps
        (produceLoop M env id msg f (attempt + 1) (some e) sent2)
        (by omega) h1 (by omega) (hctx attempt).2
      obtain ⟨sl, hlen, hres⟩ := ih f (attempt + 1) (some e) sent2 (sleeps ++ [d])
        (by omega) (by push_cast at hji ⊢; omega) (by omega)
        (fun k hk1 hk2 => hnone k (by omega) hk2)
      refine ⟨d :: sl, by simp [hlen], ?_⟩
      rw [hd, hres]
      simp
    unfold produceLoop
    rw [(hctx attempt).1]
    simp only [Bool.false_eq_true, if_false]
    cases hsend : (env attempt).send with
    | ok => rw [hsend] at hnf; cases hnf
    | kerr k =>
      rw [hsend] at hnf
      have hp : isPermanent k = false := hnf
      simp only [hp, Bool.false_eq_true, if_false]
      obtain ⟨sl, hlen, hres⟩ := hstep (Error.kafka k) (sent ++ [mkMessage id msg])
      refine ⟨sl, hlen, ?_⟩
      rw [hres]
      simp [List.replicate_succ]
    | other s =>
      simp only
      obtain ⟨sl, hlen, hres⟩ := hstep (Error.client s) (sent ++ [mkMessage id msg])
      refine ⟨sl, hlen, ?_⟩
      rw [hres]
      simp [List.replicate_succ]

/-- The retry loop of the producer for budgets up to 35, under a context that is
never cancelled, with `M = max(1, configured maxAttempts)`: if the first final
outcome (success or permanent error) is that of send `i ≤ M`, `ProduceMessage`
performs exactly `i` sends and `i - 1` sleeps and returns nil after a success and
`permanent kafka error` after a permanent error; if none of the first `M` outcomes is
final it performs exactly `M` sends and `M - 1` sleeps and returns
`produce failed after M attempts` around the last send error. -/
theorem produce_loop_up_to_35 (cfg : Int) (env : Int → AttemptEnv) (id : Int) (msg : List Nat)
    (hM : NewProducer cfg ≤ 35)
    (hctx : ∀ k, (env k).ctxDone = false ∧ (env k).sleepCanceled = false) :
    1 ≤ NewProducer cfg ∧
    (∀ i : Int, 1 ≤ i → i ≤ NewProducer cfg →
      (∀ k, 1 ≤ k → k < i → (env k).send.isFinal = false) →
      (env i).send.isFinal = true →
      ∃ sl, sl.length = i.toNat - 1 ∧
        ProduceMessage (NewProducer cfg) env id msg
          = { err := (env i).send.finalResult, panicked := false,
              sent := List.replicate i.toNat (mkMessage id msg), sleeps := sl }) ∧
    ((∀ k, 1 ≤ k → k ≤ NewProducer cfg → (env k).send.isFinal = false) →
      ∃ sl, sl.length = (NewProducer cfg).toNat - 1 ∧
        ProduceMessage (NewProducer cfg) env id msg
          = { err := some (produceFailed (NewProducer cfg)
                (env (NewProducer cfg)).send.toError),
              panicked := false,
              sent := List.replicate (NewProducer cfg).toNat (mkMessage id msg),
              sleeps := sl }) := by
  have h1 : 1 ≤ NewProducer cfg := by
    unfold NewProducer
    split <;> omega
  refine ⟨h1, ?_, ?_⟩
  · intro i hi1 hiM hbefore hfinal
    obtain ⟨sl, hlen, hres⟩ := produceLoop_to_final (NewProducer cfg) env id msg hM hctx i hiM
      hfinal (i - 1).toNat (NewProducer cfg).toNat 1 none [] [] (le_refl 1) (by omega) (by omega)
      hbefore
    refine ⟨sl, by omega, ?_⟩
    have hn : (i - 1).toNat + 1 = i.toNat := by omega
    unfold ProduceMessage
    rw [hres, hn, List.nil_append, List.nil_append]
  · intro hnone
    obtain ⟨sl, hlen, hres⟩ := produceLoop_to_exhausted (NewProducer cfg) env id msg hM hctx
      (NewProducer cfg - 1).toNat (NewProducer cfg).toNat 1 none [] [] (le_refl 1) (by omega)
      (by omega) hnone
    refine ⟨sl, by omega, ?_⟩
    have hn : (NewProducer cfg - 1).toNat + 1 = (NewProducer cfg).toNat := by omega
    unfold ProduceMessage
    rw [hres, hn, List.nil_append, List.nil_append]

/-- C18 fails on the code for a producer budget of 36: against a broker that answers
every send with leader-not-available, under a context that is never cancelled,
`ProduceMessage` does not perform 36 sends and return the error `produce failed
after 36 attempts`; after send 35 it computes the sleep `NextBackoffWithJitter(34)`
and panics. -/
theorem produce_budget_36_panics :
    NewProducer 36 = 36 ∧
    (ProduceMessage (NewProducer 36) (always (SendOutcome.kerr ErrLeaderNotAvailable)) 1
        [123, 125]).panicked = true ∧
    (ProduceMessage (NewProducer 36) (always (SendOutcome.kerr ErrLeaderNotAvailable)) 1
        [123, 125]).err = none ∧
    (ProduceMessage (NewProducer 36) (always (SendOutcome.kerr ErrLeaderNotAvailable)) 1
        [123, 125]).sent.length = 35 ∧
    (ProduceMessage (NewProducer 36) (always (SendOutcome.kerr ErrLeaderNotAvailable)) 1
        [123, 125]).sleeps.length = 34 := by
  decide

/-! ## Classification of broker errors -/

/-- C19 does not hold as stated: `isPermanent` is also true for
`sarama.ErrInvalidMessage` (code 2, a corrupt message), which is none of topic or
cluster authorisation failure, invalid request, message too large and SASL
authentication failure. -/
theorem isPermanent_counterexample :
    isPermanent ErrInvalidMessage = true ∧
    ErrInvalidMessage ≠ ErrTopicAuthorizationFailed ∧
    ErrInvalidMessage ≠ ErrClusterAuthorizationFailed ∧
    ErrInvalidMessage ≠ ErrInvalidRequest ∧
    ErrInvalidMessage ≠ ErrMessageSizeTooLarge ∧
    ErrInvalidMessage ≠ ErrSASLAuthenticationFailed := by
  decide

/-- C19, amended: for every Kafka error code `k`, `isPermanent(k)` is true if and
only if `k` is an authorisation failure (topic or cluster), a malformed (invalid)
request, an invalid (corrupt) message, message-too-large, or a SASL authentication
failure; every other code, in particular leader-not-available, request-timed-out and
not-enough-replicas, and every non-Kafka error, is treated as retryable: on a send
that is not the last of the budget `ProduceMessage` sleeps and sends again, and it
ends with `produce failed after M attempts`, whereas a permanent code ends the loop
after one send with `permanent kafka error`. -/
theorem isPermanent_iff (k : KError) :
    (isPermanent k = true ↔
      k = ErrTopicAuthorizationFailed ∨ k = ErrClusterAuthorizationFailed ∨
      k = ErrInvalidRequest ∨ k = ErrInvalidMessage ∨ k = ErrMessageSizeTooLarge ∨
      k = ErrSASLAuthenticationFailed) ∧
    isPermanent ErrLeaderNotAvailable = false ∧
    isPermanent ErrRequestTimedOut = false ∧
    isPermanent ErrNotEnoughReplicas = false ∧
    isPermanent ErrNotEnoughReplicasAfterAppend = false ∧
    (∀ txt id msg,
      ProduceMessage 2 (always (SendOutcome.other txt)) id msg
        = { err := some (produceFailed 2 (some (Error.client txt))), panicked := false,
            sent := [mkMessage id msg, mkMessage id msg], sleeps := [500000000] }) ∧
    (isPermanent k = false → ∀ id msg,
      ProduceMessage 2 (always (SendOutcome.kerr k)) id msg
        = { err := some (produceFailed 2 (some (Error.kafka k))), panicked := false,
            sent := [mkMessage id msg, mkMessage id msg], sleeps := [500000000] }) ∧
    (isPermanent k = true → ∀ id msg,
      ProduceMessage 2 (always (SendOutcome.kerr k)) id msg
        = { err := some (Error.wrap "permanent kafka error" (Error.kafka k)),
            panicked := false, sent := [mkMessage id msg], sleeps := [] }) := by
  have h2 : (2 : Int).toNat = 2 := rfl
  have hz := NextBackoffWithJitter_zero 0
  refine ⟨?_, by decide, by decide, by decide, by decide, ?_, ?_, ?_⟩
  · unfold isPermanent
    simp only [Bool.or_eq_true, beq_iff_eq, or_assoc]
  · intro txt id msg
    unfold ProduceMessage
    rw [h2]
    simp [produceLoop, afterRetryable, always, SleepCtx, hz]
  · intro hk id msg
    unfold ProduceMessage
    rw [h2]
    simp [produceLoop, afterRetryable, always, SleepCtx, hz, hk]
  · intro hk id msg
    unfold ProduceMessage
    rw [h2]
    simp [produceLoop, always, hk]

/-- C19 (amended) at a concrete input: leader-not-available is retried. -/
theorem isPermanent_iff_witness :
    ProduceMessage 2 (always (SendOutcome.kerr ErrLeaderNotAvailable)) 1 [123, 125]
      = { err := some (produceFailed 2 (some (Error.kafka ErrLeaderNotAvailable))),
          panicked := false,
          sent := [mkMessage 1 [123, 125], mkMessage 1 [123, 125]], sleeps := [500000000] } :=
  (isPermanent_iff ErrLeaderNotAvailable).2.2.2.2.2.2.1 (by decide) 1 [123, 125]

/-! ## The message handed to the broker -/

/-- Every decimal digit character is read back as its digit and is not a minus sign. -/
theorem digitChar_spec (k : Nat) (hk : k < 10) :
    digitValue (Nat.digitChar k) = k ∧ Nat.digitChar k ≠ '-' := by
  interval_cases k <;> decide

/-- The digits written for a number, in front of the digits `ds` already written,
start with a digit and are read back as that number followed by `ds`. -/
theorem toDigitsCore_spec : ∀ (fuel n : Nat) (ds : List Char), n < fuel →
    ∃ c cs, Nat.toDigitsCore 10 fuel n ds = c :: cs ∧ c ≠ '-' ∧
      List.foldl (fun acc c => acc * 10 + digitValue c) 0 (c :: cs)
        = List.foldl (fun acc c => acc * 10 + digitValue c) n ds := by
  intro fuel
  induction fuel with
  | zero => intro n ds h; omega
  | succ fuel ih =>
    intro n ds h
    obtain ⟨hval, hne⟩ := digitChar_spec (n % 10) (Nat.mod_lt _ (by decide))
    unfold Nat.toDigitsCore
    by_cases h0 : n / 10 = 0
    · refine ⟨Nat.digitChar (n % 10), ds, by simp [h0], hne, ?_⟩
      rw [List.foldl_cons, hval]
      have : 0 * 10 + n % 10 = n := by omega
      rw [this]
    · obtain ⟨c, cs, hc, hcne, hfold⟩ := ih (n / 10) (Nat.digitChar (n % 10) :: ds) (by omega)
      refine ⟨c, cs, by simp [h0, hc], hcne, ?_⟩
      rw [hfold, List.foldl_cons, hval]
      have : n / 10 * 10 + n % 10 = n := by omega
      rw [this]

/-- The decimal string of an integer is read back as that integer. -/
theorem parseDecimal_toString (i : Int) : parseDecimal (toString i) = i := by
  cases i with
  | ofNat n =>
    obtain ⟨c, cs, hc, hne, hfold⟩ := toDigitsCore_spec (n + 1) n [] (by omega)
    have hdata : (toString (Int.ofNat n)).data = c :: cs := hc
    unfold parseDecimal
    rw [hdata]
    simp only [hne, if_false]
    unfold parseNat
    rw [hfold]
    rfl
  | negSucc n =>
    obtain ⟨c, cs, hc, hne, hfold⟩ := toDigitsCore_spec (n + 1 + 1) (n + 1) [] (by omega)
    have hdata : (toString (Int.negSucc n)).data = '-' :: (c :: cs) := by
      show ("-" ++ Nat.repr (n + 1)).data = _
      rw [String.data_append]
      show ['-'] ++ Nat.toDigitsCore 10 (n + 1 + 1) (n + 1) [] = _
      rw [hc]
      rfl
    unfold parseDecimal
    rw [hdata]
    simp only [if_true]
    unfold parseNat
    rw [hfold]
    rfl

/-- Every message `ProduceMessage` hands to the broker is the message built from its
arguments: the loop adds copies of it to the messages sent before. -/
theorem produceLoop_sent (M : Int) (env : Int → AttemptEnv) (id : Int) (msg : List Nat) :
    ∀ (fuel : Nat) (attempt : Int) (lastErr : Option Error)
      (sent : List ProducerMessage) (sleeps : List Int),
      ∃ n, (produceLoop M env id msg fuel attempt lastErr sent sleeps).sent
        = sent ++ List.replicate n (mkMessage id msg) := by
  intro fuel
  induction fuel with
  | zero =>
    intro attempt lastErr sent sleeps
    exact ⟨0, by simp [produceLoop]⟩
  | succ fuel ih =>
    intro attempt lastErr sent sleeps
    have hstep : ∀ (e : Error),
        ∃ n, (afterRetryable M (env attempt) attempt e (sent ++ [mkMessage id msg]) sleeps
            (produceLoop M env id msg fuel (attempt + 1) (some e)
              (sent ++ [mkMessage id msg]))).sent
          = sent ++ List.replicate n (mkMessage id msg) := by
      intro e
      unfold afterRetryable
      by_cases hlast : attempt = M
      · rw [if_pos hlast]
        exact ⟨1, rfl⟩
      · rw [if_neg hlast]
        cases NextBackoffWithJitter (attempt - 1) (env attempt).draw with
        | none => exact ⟨1, rfl⟩
        | some d =>
          dsimp only
          cases SleepCtx (env attempt).sleepCanceled d with
          | some c => exact ⟨1, rfl⟩
          | none =>
            dsimp only
            obtain ⟨n, hn⟩ := ih (attempt + 1) (some e) (sent ++ [mkMessage id msg])
              (sleeps ++ [d])
            exact ⟨n + 1, by rw [hn, List.replicate_succ]; simp⟩
    unfold produceLoop
    by_cases hctx : (env attempt).ctxDone = true
    · rw [if_pos hctx]
      exact ⟨0, by simp⟩
    · rw [if_neg hctx]
      cases (env attempt).send with
      | ok => exact ⟨1, rfl⟩
      | kerr k =>
        dsimp only
        by_cases hp : isPermanent k = true
        · rw [if_pos hp]
          exact ⟨1, rfl⟩
        · rw [if_neg hp]
          exact hstep (Error.kafka k)
      | other txt => exact hstep (Error.client txt)

/-- C20: for every outbox record, every message that `ProduceMessage`, called by
`ProcessOne` with the record's id and payload, hands to the broker, on every
attempt, has key equal to the base-10 string of the record's outbox id (it reads
back as the id) and value equal to the record's payload bytes unchanged; `ProcessOne`
calls the producer once, with the record's id and payload; distinct ids give
distinct keys, and all sends of one record carry the same key. -/
theorem wire_format (maxAttempts pmax : Int) (script : Int → AttemptEnv) (env : ProcessEnv)
    (e : OutboxEvent) (s : Store) (id1 id2 : Int) (m1 m2 : List Nat) :
    (ProduceMessage pmax script e.ID e.Payload).sent
      = List.replicate (ProduceMessage pmax script e.ID e.Payload).sent.length
          { Key := toString e.ID, Value := e.Payload } ∧
    (ProcessOne maxAttempts env e s).calls.filter isProduceCall
      = [Call.ProduceMessage e.ID e.Payload] ∧
    parseDecimal (mkMessage id1 m1).Key = id1 ∧
    ((mkMessage id1 m1).Key = (mkMessage id2 m2).Key ↔ id1 = id2) := by
  refine ⟨?_, ?_, parseDecimal_toString id1, ?_⟩
  · obtain ⟨n, hn⟩ := produceLoop_sent pmax script e.ID e.Payload pmax.toNat 1 none [] []
    unfold ProduceMessage
    rw [hn, List.nil_append, List.length_replicate]
    rfl
  · unfold ProcessOne markOutboxFailedOrGaveUp
    split
    · rfl
    · split
      · split
        · rfl
        · dsimp only
          split <;> rfl
      · split <;> rfl
  · constructor
    · intro h
      have h1 := parseDecimal_toString id1
      have h2 := parseDecimal_toString id2
      have h3 : toString id1 = toString id2 := h
      rw [h3, h2] at h1
      exact h1.symm
    · intro h
      rw [h]
      rfl

/-! ## The purge of old events -/

/-- Once `DeleteOldEvents` reaches `Exec`, the day count it binds is recorded. -/
theorem execDeleteOld_bound (execErr : Option Error) (parse : String → Option Time)
    (dbNow d : Int) (s : Store) :
    (execDeleteOld execErr parse dbNow d s).bound = some d := by
  unfold execDeleteOld
  generalize execDelete execErr (olderThan parse dbNow d) s = r
  obtain ⟨⟨e, n⟩, s1⟩ := r
  cases e <;> rfl

/-- C21: for every store, every instant and every state of the database connection,
`DeleteOldEvents` called with `days = 0` issues no `DELETE`, returns nil and leaves
the store, table `events` included, as it was. -/
theorem DeleteOldEvents_zero_is_noop (execErr : Option Error) (parse : String → Option Time)
    (dbNow : Int) (s : Store) :
    (DeleteOldEvents execErr parse dbNow (some 0) s).bound = none ∧
    (DeleteOldEvents execErr parse dbNow (some 0) s).err = none ∧
    (DeleteOldEvents execErr parse dbNow (some 0) s).store = s ∧
    (DeleteOldEvents execErr parse dbNow (some 0) s).store.events = s.events :=
  ⟨rfl, rfl, rfl, rfl⟩

/-- C22 does not hold in the code: when `daysToDelete` is not configured the field
`Cron.DaysToDelete` is 0, the use case hands the repository a pointer to that 0, and
the purge issues no `DELETE` and leaves every store as it was. The default of 365
days is taken only for a nil pointer, which the use case never passes: with it the
event of 2020 would be deleted on 2026-01-20, as it is older than 365 days. -/
theorem purge_unconfigured_deletes_nothing (execErr : Option Error)
    (parse : String → Option Time) (dbNow : Int) (schedule interval : Option String)
    (s : Store) :
    UseCaseDeleteOldEventsByYear execErr parse dbNow (unmarshalCron none schedule interval) s
      = (none, s) ∧
    olderThan ParseRFC3339 jan2026 defaultDeleteDays (eventRow 0 oldEvent) = true ∧
    (UseCaseDeleteOldEventsByYear none ParseRFC3339 jan2026 (unmarshalCron none none none)
        oldStore).2.events = [eventRow 0 oldEvent] ∧
    (DeleteOldEvents none ParseRFC3339 jan2026 none oldStore).store.events = [] :=
  ⟨rfl, by decide, by decide, by decide⟩

/-- C30: for every `days` argument, whenever `DeleteOldEvents` issues the `DELETE`
statement the day count `d` bound to it is at least 1: it is `days` itself when
`days > 0` and 365 when `days` is nil or negative (for `days = 0` no statement is
issued), so the cutoff `now() - d` days lies strictly before `now()`. -/
theorem purge_threshold_positive (execErr : Option Error) (parse : String → Option Time)
    (dbNow : Int) (days : Option Int) (s : Store) (d : Int)
    (h : (DeleteOldEvents execErr parse dbNow days s).bound = some d) :
    1 ≤ d ∧
    (∀ n, days = some n → 0 < n → d = n) ∧
    (days = none ∨ (∃ n, days = some n ∧ n < 0) → d = 365) ∧
    days ≠ some 0 ∧
    dbNow - d * Day < dbNow := by
  have key : (days = some d ∧ 0 < d) ∨
      ((days = none ∨ ∃ n, days = some n ∧ n < 0) ∧ d = 365) := by
    cases days with
    | none =>
      have h1 : (execDeleteOld execErr parse dbNow defaultDeleteDays s).bound = some d := h
      rw [execDeleteOld_bound] at h1
      injection h1 with h1
      exact Or.inr ⟨Or.inl rfl, h1.symm⟩
    | some n =>
      unfold DeleteOldEvents at h
      by_cases hpos : n > 0
      · simp only [hpos, if_true] at h
        rw [execDeleteOld_bound] at h
        injection h with h
        subst h
        exact Or.inl ⟨rfl, hpos⟩
      · by_cases hz : n = 0
        · simp only [hpos, hz, if_false, if_true] at h
          cases h
        · simp only [hpos, hz, if_false] at h
          rw [execDeleteOld_bound] at h
          injection h with h
          exact Or.inr ⟨Or.inr ⟨n, rfl, by omega⟩, h.symm⟩
  have hday : (0 : Int) < Day := by decide
  rcases key with ⟨hd, hpos⟩ | ⟨hcase, hd⟩
  · refine ⟨by omega, ?_, ?_, ?_, ?_⟩
    · intro n hn _
      rw [hd] at hn
      injection hn
    · rintro (h0 | ⟨n, hn, hneg⟩)
      · rw [hd] at h0; cases h0
      · rw [hd] at hn
        injection hn with hn
        omega
    · rw [hd]
      intro h0
      injection h0 with h0
      omega
    · have : 0 < d * Day := Int.mul_pos hpos hday
      omega
  · subst hd
    refine ⟨by decide, ?_, fun _ => rfl, ?_, ?_⟩
    · intro n hn hpos
      rcases hcase with h0 | ⟨m, hm, hneg⟩
      · rw [h0] at hn; cases hn
      · rw [hm] at hn
        injection hn with hn
        omega
    · rcases hcase with h0 | ⟨m, hm, hneg⟩
      · rw [h0]; intro h1; cases h1
      · rw [hm]
        intro h1
        injection h1 with h1
        omega
    · have : (0 : Int) < 365 * Day := by decide
      omega

/-- C30 at a concrete input: a misconfigured `days = -5` binds 365 to the statement. -/
theorem purge_threshold_positive_witness :
    (DeleteOldEvents none ParseRFC3339 jan2026 (some (-5)) oldStore).bound = some 365 ∧
    (1 : Int) ≤ 365 ∧
    (∀ n, some (-5 : Int) = some n → 0 < n → (365 : Int) = n) ∧
    (some (-5 : Int) = none ∨ (∃ n, some (-5 : Int) = some n ∧ n < 0) → (365 : Int) = 365) ∧
    some (-5 : Int) ≠ some 0 ∧
    jan2026 - 365 * Day < jan2026 :=
  ⟨by decide,
   purge_threshold_positive none ParseRFC3339 jan2026 (some (-5)) oldStore 365 (by decide)⟩

/-! ## Partial update -/

/-- The state of `createPatchQuery` after a run of fields: the non-empty ones have
been added with consecutive placeholders. -/
theorem foldl_addIfProvided (fs : List (String × String)) : ∀ st : PatchState,
    fs.foldl addIfProvided st =
      { set := st.set ++ assignments st.i (fs.filter (fun f => decide (f.2 ≠ ""))),
        args := st.args ++ (fs.filter (fun f => decide (f.2 ≠ ""))).map (fun f => Arg.text f.2),
        i := st.i + (fs.filter (fun f => decide (f.2 ≠ ""))).length } := by
  induction fs with
  | nil =>
    intro st
    simp [assignments]
  | cons f rest ih =>
    intro st
    rw [List.foldl_cons, ih]
    by_cases hf : f.2 = ""
    · have h1 : addIfProvided st f = st := by
        unfold addIfProvided
        rw [if_neg (by simpa using hf)]
      have h2 : (f :: rest).filter (fun f => decide (f.2 ≠ ""))
          = rest.filter (fun f => decide (f.2 ≠ "")) :=
        List.filter_cons_of_neg (by simpa using hf)
      rw [h1, h2]
    · have h1 : addIfProvided st f = add f.1 f.2 st := by
        unfold addIfProvided
        rw [if_pos hf]
      have h2 : (f :: rest).filter (fun f => decide (f.2 ≠ ""))
          = f :: rest.filter (fun f => decide (f.2 ≠ "")) :=
        List.filter_cons_of_pos (by simpa using hf)
      rw [h1, h2]
      simp only [add, assignments, List.length_cons, List.range'_succ, List.zipWith_cons_cons,
        List.map_cons, List.append_assoc, List.singleton_append]
      congr 1
      omega

/-- The state of `createPatchQuery` before the test `len(set) == 0`. -/
theorem createPatchQuery_eq (patch : Event) :
    createPatchQuery patch =
      if (assignments 1 (providedFields patch)).length = 0 then ("", [])
      else
        ("UPDATE events SET "
            ++ ", ".intercalate (assignments 1 (providedFields patch) ++ ["updated_at = now()"])
            ++ " WHERE id = $" ++ toString (1 + (providedFields patch).length),
         (providedFields patch).map (fun f => Arg.text f.2) ++ [Arg.uuid patch.ID]) := by
  have h := foldl_addIfProvided (patchFields patch) { set := [], args := [], i := 1 }
  have h0 : createPatchQuery patch =
      if ((patchFields patch).foldl addIfProvided { set := [], args := [], i := 1 }).set.length = 0
      then ("", [])
      else
        ("UPDATE events SET "
            ++ ", ".intercalate
                (((patchFields patch).foldl addIfProvided { set := [], args := [], i := 1 }).set
                  ++ ["updated_at = now()"])
            ++ " WHERE id = $"
            ++ toString ((patchFields patch).foldl addIfProvided { set := [], args := [], i := 1 }).i,
         ((patchFields patch).foldl addIfProvided { set := [], args := [], i := 1 }).args
            ++ [Arg.uuid patch.ID]) := rfl
  rw [h0, h]
  rfl

/-- The `SET` list has one assignment for each field. -/
theorem assignments_length (first : Nat) (fs : List (String × String)) :
    (assignments first fs).length = fs.length := by
  simp [assignments]

/-- C23: for every patch with at least one non-empty field among title, description,
user id, start, end, creation date, request time and notification time,
`createPatchQuery` returns the statement of the spec: `UPDATE events SET` with
exactly the columns of the non-empty fields, in that order, assigned to the
placeholders `$1` to `$k`, then `updated_at = now()`, then `WHERE id = $(k+1)`; its
arguments are the values of those fields in the same order followed by the id,
`k + 1` in all. An empty field adds neither an assignment nor an argument. -/
theorem createPatchQuery_spec (patch : Event) (h : providedFields patch ≠ []) :
    createPatchQuery patch = specPatchQuery patch ∧
    (createPatchQuery patch).2.length = (providedFields patch).length + 1 ∧
    (createPatchQuery patch).2
      = (providedFields patch).map (fun f => Arg.text f.2) ++ [Arg.uuid patch.ID] ∧
    (∀ f ∈ providedFields patch, f ∈ patchFields patch ∧ f.2 ≠ "") := by
  have hlen : ¬ (assignments 1 (providedFields patch)).length = 0 := by
    rw [assignments_length]
    intro h0
    exact h (List.length_eq_zero.mp h0)
  have heq : createPatchQuery patch = specPatchQuery patch := by
    rw [createPatchQuery_eq, if_neg hlen]
    unfold specPatchQuery
    rw [Nat.add_comm 1]
  refine ⟨heq, ?_, ?_, ?_⟩
  · rw [heq]
    simp [specPatchQuery]
  · rw [heq]
    rfl
  · intro f hf
    have := List.mem_filter.mp hf
    exact ⟨this.1, by simpa using this.2⟩

/-- C23 at a concrete input: a patch with a new title and a new end. -/
theorem createPatchQuery_spec_witness :
    createPatchQuery titlePatch
      = ("UPDATE events SET title = $1, end_date_event = $2, updated_at = now() WHERE id = $3",
         [Arg.text "new", Arg.text "2026-01-20T13:00:00Z", Arg.uuid 9]) ∧
    (createPatchQuery titlePatch = specPatchQuery titlePatch ∧
     (createPatchQuery titlePatch).2.length = (providedFields titlePatch).length + 1 ∧
     (createPatchQuery titlePatch).2
       = (providedFields titlePatch).map (fun f => Arg.text f.2) ++ [Arg.uuid titlePatch.ID] ∧
     (∀ f ∈ providedFields titlePatch, f ∈ patchFields titlePatch ∧ f.2 ≠ "")) :=
  ⟨by decide, createPatchQuery_spec titlePatch (by decide)⟩

/-! ## Update and delete of an absent id -/

/-- A patch with a non-empty field gives a statement. -/
theorem createPatchQuery_ne_empty (patch : Event) (h : providedFields patch ≠ []) :
    (createPatchQuery patch).1 ≠ "" := by
  rw [createPatchQuery_eq, if_neg (by
    rw [assignments_length]
    intro h0
    exact h (List.length_eq_zero.mp h0))]
  intro h0
  have h1 := congrArg String.length h0
  simp only [String.length_append] at h1
  have h2 : ("UPDATE events SET ".length : Nat) = 18 := by decide
  rw [h2] at h1
  have h3 : ("".length : Nat) = 0 := rfl
  rw [h3] at h1
  omega

/-- C24 does not hold as stated: for the id 9, which is not in table `events`,
`UpdateEvent` with a patch that carries no field issues no statement and returns
nil, not `ErrEventNotFound`. -/
theorem absent_id_counterexample :
    (∀ r ∈ freshStore.events, r.id ≠ emptyPatch.ID) ∧
    RepoUpdateEvent none 5 emptyPatch freshStore = (none, freshStore) ∧
    (RepoUpdateEvent none 5 emptyPatch freshStore).1 ≠ some ErrEventNotFound := by
  decide

/-- C24, amended: for every store and every id that is not in table `events`, when
the statement itself does not fail, `UpdateEvent` with a patch for that id that
carries at least one non-empty field, and `DeleteEvent` for that id, return
`ErrEventNotFound` and leave the store as it was. -/
theorem absent_id_not_found (dbNow : Int) (evt : Event) (s : Store)
    (habsent : ∀ r ∈ s.events, r.id ≠ evt.ID)
    (hfield : providedFields evt ≠ []) :
    RepoUpdateEvent none dbNow evt s = (some ErrEventNotFound, s) ∧
    RepoDeleteEvent none evt.ID s = (some ErrEventNotFound, s) := by
  have hnone : s.events.filter (fun r => r.id == evt.ID) = [] := by
    apply List.filter_eq_nil_iff.mpr
    intro r hr
    simpa using habsent r hr
  constructor
  · unfold RepoUpdateEvent
    rw [if_neg (createPatchQuery_ne_empty evt hfield)]
    simp only [hnone, List.length_nil, if_true]
  · unfold RepoDeleteEvent execDelete
    have hkeep : s.events.filter (fun r => !(r.id == evt.ID)) = s.events := by
      apply List.filter_eq_self.mpr
      intro r hr
      simpa using habsent r hr
    simp only [hnone, hkeep, List.any_nil, List.length_nil, if_true]
    rfl

/-- C24 (amended) at a concrete input: a new title for the absent event 9. -/
theorem absent_id_not_found_witness :
    RepoUpdateEvent none 5 titlePatch freshStore = (some ErrEventNotFound, freshStore) ∧
    RepoDeleteEvent none titlePatch.ID freshStore = (some ErrEventNotFound, freshStore) :=
  absent_id_not_found 5 titlePatch freshStore (by decide) (by decide)

/-! ## Validation of dates -/

/-- C25: for every event and every reading of texts as instants,
`validateEventDates` returns nil if and only if `dateEvent` and the end
(`durationEvent`) both parse, the end instant is strictly after the start instant,
and `timeForNotification` is empty or parses and is strictly before the start
instant. Only the instants are compared, never the zone offsets that were written. -/
theorem validateEventDates_iff (parse : String → Option Time) (event : Event) :
    validateEventDates parse event = none ↔
      ∃ start finish : Time,
        parse event.DateEvent = some start ∧
        parse event.EndDateEvent = some finish ∧
        start.unixNano < finish.unixNano ∧
        (event.TimeForNotification = "" ∨
          ∃ n : Time, parse event.TimeForNotification = some n ∧ n.unixNano < start.unixNano) := by
  unfold validateEventDates
  cases h1 : parse event.DateEvent with
  | none => simp
  | some start =>
    cases h2 : parse event.EndDateEvent with
    | none => simp
    | some finish =>
      by_cases hlt : start.unixNano < finish.unixNano
      · by_cases hn : event.TimeForNotification = ""
        · simp [Time.After, hlt, hn]
        · cases h3 : parse event.TimeForNotification with
          | none => simp [Time.After, hlt, hn, h3]
          | some n =>
            by_cases hb : n.unixNano < start.unixNano
            · simp [Time.After, Time.Before, hlt, hn, h3, hb]
            · simp [Time.After, Time.Before, hlt, hn, h3, hb]
      · simp [Time.After, hlt]

/-- Two ends written with the same time of day, 12:30, against a start at 11:00Z:
the one in zone +01:00 is the instant 11:30Z and passes, the one in zone +02:00 is
the instant 10:30Z and is refused. -/
theorem validateEventDates_by_instant :
    validateEventDates ParseRFC3339
      { freshEvent with EndDateEvent := "2026-01-20T12:30:00+01:00" } = none ∧
    validateEventDates ParseRFC3339
      { freshEvent with EndDateEvent := "2026-01-20T12:30:00+02:00" }
      = some (Error.msg "дата окончания события должна быть после даты начала") := by
  decide

/-! ## Ingress -/

/-- Once the decoding of a body has failed it stays failed. -/
theorem foldl_setField_none (uuid : String → Option Nat) (body : List (String × String)) :
    body.foldl (fun acc kv => acc.bind (fun event => setField uuid event kv)) none = none := by
  induction body with
  | nil => rfl
  | cons kv rest ih => exact ih

/-- A member whose key is not the tag of a required text field leaves that field. -/
theorem setField_keeps (uuid : String → Option Nat) (ev ev1 : Event) (kv : String × String)
    (h : setField uuid ev kv = some ev1) :
    (foldKey kv.1 ≠ foldKey "title" → ev1.Title = ev.Title) ∧
    (foldKey kv.1 ≠ foldKey "dateEvent" → ev1.DateEvent = ev.DateEvent) ∧
    (foldKey kv.1 ≠ foldKey "creationDate" → ev1.CreationDate = ev.CreationDate) ∧
    (foldKey kv.1 ≠ foldKey "durationEvent" → ev1.EndDateEvent = ev.EndDateEvent) ∧
    (foldKey kv.1 ≠ foldKey "userID" → ev1.UserID = ev.UserID) := by
  unfold setField at h
  split_ifs at h with h1 h2 h3 h4 h5 h6 h7 h8 h9
  · cases hu : uuid kv.2 with
    | none => rw [hu] at h; cases h
    | some u =>
      rw [hu] at h
      injection h with h
      subst h
      exact ⟨fun _ => rfl, fun _ => rfl, fun _ => rfl, fun _ => rfl, fun _ => rfl⟩
  all_goals
    injection h with h
    subst h
    refine ⟨fun hk => ?_, fun hk => ?_, fun hk => ?_, fun hk => ?_, fun hk => ?_⟩ <;>
      first
        | rfl
        | exact absurd ‹_› hk

/-- The decoding of a body leaves a required text field whose key the body lacks as
it was. -/
theorem foldl_setField_keeps (uuid : String → Option Nat) (body : List (String × String)) :
    ∀ ev0 ev : Event,
      body.foldl (fun acc kv => acc.bind (fun event => setField uuid event kv)) (some ev0)
        = some ev →
      (lacksKey "title" body → ev.Title = ev0.Title) ∧
      (lacksKey "dateEvent" body → ev.DateEvent = ev0.DateEvent) ∧
      (lacksKey "creationDate" body → ev.CreationDate = ev0.CreationDate) ∧
      (lacksKey "durationEvent" body → ev.EndDateEvent = ev0.EndDateEvent) ∧
      (lacksKey "userID" body → ev.UserID = ev0.UserID) := by
  induction body with
  | nil =>
    intro ev0 ev h
    injection h with h
    subst h
    exact ⟨fun _ => rfl, fun _ => rfl, fun _ => rfl, fun _ => rfl, fun _ => rfl⟩
  | cons kv rest ih =>
    intro ev0 ev h
    rw [List.foldl_cons] at h
    cases h1 : setField uuid ev0 kv with
    | none =>
      have h2 : (some ev0).bind (fun event => setField uuid event kv) = none := h1
      rw [h2, foldl_setField_none] at h
      cases h
    | some ev1 =>
      have h2 : (some ev0).bind (fun event => setField uuid event kv) = some ev1 := h1
      rw [h2] at h
      obtain ⟨a1, a2, a3, a4, a5⟩ := ih ev1 ev h
      obtain ⟨b1, b2, b3, b4, b5⟩ := setField_keeps uuid ev0 ev1 kv h1
      have hr : ∀ tag, lacksKey tag (kv :: rest) → lacksKey tag rest :=
        fun tag hl x hx => hl x (List.mem_cons_of_mem _ hx)
      have hk : ∀ tag, lacksKey tag (kv :: rest) → foldKey kv.1 ≠ foldKey tag :=
        fun tag hl => hl kv (List.mem_cons_self _ _)
      exact ⟨fun hl => (a1 (hr _ hl)).trans (b1 (hk _ hl)),
             fun hl => (a2 (hr _ hl)).trans (b2 (hk _ hl)),
             fun hl => (a3 (hr _ hl)).trans (b3 (hk _ hl)),
             fun hl => (a4 (hr _ hl)).trans (b4 (hk _ hl)),
             fun hl => (a5 (hr _ hl)).trans (b5 (hk _ hl))⟩

/-- An event with an empty required text field does not pass `Validate.Struct`. -/
theorem ValidateStruct_required (parse : String → Option Time) (ev : Event)
    (h : ev.Title = "" ∨ ev.DateEvent = "" ∨ ev.CreationDate = "" ∨ ev.EndDateEvent = "" ∨
      ev.UserID = "") :
    ValidateStruct parse ev ≠ [] := by
  intro h0
  have hlen := congrArg List.length h0
  unfold ValidateStruct at hlen
  simp only [List.length_append, List.length_nil] at hlen
  rcases h with h | h | h | h | h
  · have : (fieldError parse "Title" [Tag.required, Tag.min 1, Tag.max 200] ev.Title).length = 1 := by
      rw [h]; rfl
    omega
  · have : (fieldError parse "DateEvent" [Tag.required, Tag.rfc3339] ev.DateEvent).length = 1 := by
      rw [h]; rfl
    omega
  · have : (fieldError parse "CreationDate" [Tag.required, Tag.rfc3339] ev.CreationDate).length
        = 1 := by
      rw [h]; rfl
    omega
  · have : (fieldError parse "EndDateEvent" [Tag.required, Tag.rfc3339] ev.EndDateEvent).length
        = 1 := by
      rw [h]; rfl
    omega
  · have : (fieldError parse "UserID" [Tag.required, Tag.min 1, Tag.max 100] ev.UserID).length
        = 1 := by
      rw [h]; rfl
    omega

/-- A body that lacks the key of a required text field decodes, if at all, to an
event in which that field is empty. -/
theorem BodyParser_lacks (uuid : String → Option Nat) (body : List (String × String))
    (ev : Event) (h : BodyParser uuid body = some ev)
    (hl : lacksKey "title" body ∨ lacksKey "dateEvent" body ∨ lacksKey "creationDate" body ∨
      lacksKey "durationEvent" body ∨ lacksKey "userID" body) :
    ev.Title = "" ∨ ev.DateEvent = "" ∨ ev.CreationDate = "" ∨ ev.EndDateEvent = "" ∨
      ev.UserID = "" := by
  obtain ⟨a1, a2, a3, a4, a5⟩ := foldl_setField_keeps uuid body zeroEvent ev h
  rcases hl with hl | hl | hl | hl | hl
  · exact Or.inl (a1 hl)
  · exact Or.inr (Or.inl (a2 hl))
  · exact Or.inr (Or.inr (Or.inl (a3 hl)))
  · exact Or.inr (Or.inr (Or.inr (Or.inl (a4 hl))))
  · exact Or.inr (Or.inr (Or.inr (Or.inr (a5 hl))))

/-- A create request whose body lacks the key of a required text field is answered
400 and never reaches the use case. -/
theorem HandlerCreateEvent_rejects (lib : Lib) (usecase : Event → Store → FnResult × Store)
    (body : List (String × String)) (s : Store)
    (hl : lacksKey "title" body ∨ lacksKey "dateEvent" body ∨ lacksKey "creationDate" body ∨
      lacksKey "durationEvent" body ∨ lacksKey "userID" body) :
    HandlerCreateEvent lib usecase body s
      = { status := some 400, forwarded := none, store := s } := by
  unfold HandlerCreateEvent
  cases h : BodyParser lib.uuid body with
  | none => rfl
  | some ev =>
    have hv := ValidateStruct_required lib.parse ev (BodyParser_lacks lib.uuid body ev h hl)
    dsimp only
    rw [if_pos hv]

/-- C26 does not hold as stated: the body of the scenario carries the end under the
key `endDateEvent`, which is the `json` tag of no field of `entity.Event` (the tag
of `EndDateEvent` is `durationEvent`), so the end stays empty, fails the tag
`required`, and the handler answers 400 without reaching the writer. This is so for
every reading of times and UUIDs and for every use case and store. -/
theorem ingress_scenario_counterexample :
    (BodyParser goLib.uuid scenarioBody).map (fun e => e.EndDateEvent) = some "" ∧
    HandlerCreateEvent goLib (UseCaseCreateEvent emptyDocument jsonbText noCreateFaults jan2026)
        scenarioBody emptyStore
      = { status := some 400, forwarded := none, store := emptyStore } ∧
    ∀ (lib : Lib) (usecase : Event → Store → FnResult × Store) (s : Store),
      HandlerCreateEvent lib usecase scenarioBody s
        = { status := some 400, forwarded := none, store := s } :=
  ⟨by decide, by decide,
   fun lib usecase s =>
     HandlerCreateEvent_rejects lib usecase scenarioBody s
       (Or.inr (Or.inr (Or.inr (Or.inl (by unfold lacksKey; decide)))))⟩

/-- C26, amended: the create request of the scenario with the end under the key
`durationEvent` (keys `id`, `title`, `dateEvent`, `durationEvent`, `creationDate`,
`userID`, `rqTm`) is decoded into an event that passes struct validation and date
validation; the handler hands that event to the use case and, whenever the use case
returns nil, answers 200. -/
theorem ingress_happy_path (usecase : Event → Store → FnResult × Store) (s : Store)
    (hok : (usecase scenarioEvent s).1 = FnResult.returned none) :
    BodyParser goLib.uuid durationBody = some scenarioEvent ∧
    ValidateStruct goLib.parse scenarioEvent = [] ∧
    validateEventDates goLib.parse scenarioEvent = none ∧
    HandlerCreateEvent goLib usecase durationBody s
      = { status := some 200, forwarded := some scenarioEvent,
          store := (usecase scenarioEvent s).2 } := by
  have hb : BodyParser goLib.uuid durationBody = some scenarioEvent := by decide
  have hv : ValidateStruct goLib.parse scenarioEvent = [] := by decide
  have hd : validateEventDates goLib.parse scenarioEvent = none := by decide
  refine ⟨hb, hv, hd, ?_⟩
  unfold HandlerCreateEvent
  rw [hb]
  dsimp only
  rw [if_neg (by rw [hv]; exact fun h => h rfl), hd]
  dsimp only
  generalize usecase scenarioEvent s = r at hok
  obtain ⟨r1, s1⟩ := r
  dsimp only at hok
  subst hok
  rfl

/-- C26 (amended) at a concrete input: the writer on an empty, healthy database at
2026-01-20T10:00:00Z. -/
theorem ingress_happy_path_witness :
    (UseCaseCreateEvent emptyDocument jsonbText noCreateFaults jan2026 scenarioEvent emptyStore).1
      = FnResult.returned none ∧
    (BodyParser goLib.uuid durationBody = some scenarioEvent ∧
     ValidateStruct goLib.parse scenarioEvent = [] ∧
     validateEventDates goLib.parse scenarioEvent = none ∧
     HandlerCreateEvent goLib (UseCaseCreateEvent emptyDocument jsonbText noCreateFaults jan2026)
         durationBody emptyStore
       = { status := some 200, forwarded := some scenarioEvent,
           store := (UseCaseCreateEvent emptyDocument jsonbText noCreateFaults jan2026 scenarioEvent
                      emptyStore).2 }) :=
  ⟨by decide,
   ingress_happy_path (UseCaseCreateEvent emptyDocument jsonbText noCreateFaults jan2026) emptyStore
     (by decide)⟩

/-- An update request that carries every required field and leaves out the optional
description and notification time passes the handler: the patch reaches the
repository, which finds no event of that id in the empty store. -/
theorem HandlerUpdateEvent_forwards_full :
    HandlerUpdateEvent goLib (UseCaseUpdateEvent none jan2026) durationBody emptyStore
      = { status := some 404, forwarded := some scenarioEvent, store := emptyStore } := by
  decide

/-- C27 does not hold in the code: the handler of the update runs the struct
validation of the create request, whose tags require title, `dateEvent`,
`creationDate`, `durationEvent` and `userID`. So for every update request whose body
lacks the key of one of these five fields, whatever else it carries, the handler
answers 400, hands nothing to the use case and leaves the store as it was. -/
theorem HandlerUpdateEvent_rejects_partial (lib : Lib)
    (usecase : Event → Store → FnResult × Store) (body : List (String × String)) (s : Store)
    (hl : lacksKey "title" body ∨ lacksKey "dateEvent" body ∨ lacksKey "creationDate" body ∨
      lacksKey "durationEvent" body ∨ lacksKey "userID" body) :
    HandlerUpdateEvent lib usecase body s
      = { status := some 400, forwarded := none, store := s } := by
  unfold HandlerUpdateEvent
  cases h : BodyParser lib.uuid body with
  | none => rfl
  | some ev =>
    have hv := ValidateStruct_required lib.parse ev (BodyParser_lacks lib.uuid body ev h hl)
    dsimp only
    rw [if_pos hv]

/-- C27 at a concrete input: an update that carries the id and a new title only. -/
theorem HandlerUpdateEvent_rejects_partial_witness :
    (lacksKey "title" titleOnlyBody ∨ lacksKey "dateEvent" titleOnlyBody ∨
      lacksKey "creationDate" titleOnlyBody ∨ lacksKey "durationEvent" titleOnlyBody ∨
      lacksKey "userID" titleOnlyBody) ∧
    HandlerUpdateEvent goLib (UseCaseUpdateEvent none jan2026) titleOnlyBody freshStore
      = { status := some 400, forwarded := none, store := freshStore } :=
  ⟨Or.inr (Or.inl (by unfold lacksKey; decide)),
   HandlerUpdateEvent_rejects_partial goLib (UseCaseUpdateEvent none jan2026) titleOnlyBody
     freshStore (Or.inr (Or.inl (by unfold lacksKey; decide)))⟩

/-! ## The worker loop -/

/-- C29 does not hold in the code: `ServiceImpl.worker` has no `recover`. For every
record whose `ProcessOne` panics, the panic passes through the loop: the worker ends
with the store and the calls of that `ProcessOne`, and none of the records that
follow in the channel is processed. -/
theorem worker_panic_not_contained (maxAttempts : Int) (e : OutboxEvent) (env : ProcessEnv)
    (jobs : List (OutboxEvent × ProcessEnv)) (s : Store)
    (hp : (ProcessOne maxAttempts env e s).panicked = true) :
    worker maxAttempts ((e, env) :: jobs) s
      = { store := (ProcessOne maxAttempts env e s).store,
          calls := (ProcessOne maxAttempts env e s).calls,
          panicked := true, processed := 0 } := by
  show (if (ProcessOne maxAttempts env e s).panicked then _ else _) = _
  rw [if_pos hp]

/-- C29 at a concrete input: under a budget of 35 the record that has failed 34
times makes `ProcessOne` panic in `NextBackoffWithJitter(34)`; the fresh record of
id 2 that follows in the channel is never handed to the producer. -/
theorem worker_panic_not_contained_witness :
    (ProcessOne 35 (calmEnv failedResult) (stampLease 10 5 row34)
        { leasedStore34 with outbox := [stampLease 10 5 row34, freshRow2] }).panicked = true ∧
    worker 35 [(stampLease 10 5 row34, calmEnv failedResult), (freshRow2, calmEnv sentResult)]
        { leasedStore34 with outbox := [stampLease 10 5 row34, freshRow2] }
      = { store := (ProcessOne 35 (calmEnv failedResult) (stampLease 10 5 row34)
                      { leasedStore34 with outbox := [stampLease 10 5 row34, freshRow2] }).store,
          calls := (ProcessOne 35 (calmEnv failedResult) (stampLease 10 5 row34)
                      { leasedStore34 with outbox := [stampLease 10 5 row34, freshRow2] }).calls,
          panicked := true, processed := 0 } :=
  ⟨by decide,
   worker_panic_not_contained 35 (stampLease 10 5 row34) (calmEnv failedResult)
     [(freshRow2, calmEnv sentResult)]
     { leasedStore34 with outbox := [stampLease 10 5 row34, freshRow2] } (by decide)⟩

/-- After a panic no goroutine of the relay takes another step. -/
theorem relayStep_crashed (cfg : RelayConfig) (t : Tick) (st : RelayState)
    (h : st.crashed = true) : relayStep cfg t st = none := by
  cases t <;> simp [relayStep, h]

/-! ## Exclusivity of the workers -/

/-- The table after `ProcessOne` has the ids it had. -/
theorem ProcessOne_ids (maxAttempts : Int) (env : ProcessEnv) (e : OutboxEvent) (s : Store) :
    (ProcessOne maxAttempts env e s).store.outbox.map (fun r => r.ID)
      = s.outbox.map (fun r => r.ID) := by
  rcases ProcessOne_outbox maxAttempts env e s with h | h | h | ⟨_, t, h⟩
  · rw [h]
  · rw [h]; exact map_ID_updateWhereId e.ID setSent (fun _ => rfl) s.outbox
  · rw [h]; exact map_ID_updateWhereId e.ID (setGaveUp env.dbNow) (fun _ => rfl) s.outbox
  · rw [h]; exact map_ID_updateWhereId e.ID (setFailed t) (fun _ => rfl) s.outbox

/-- The table after a reservation has the ids it had; the batch has pairwise
distinct ids, and each of its records was due at the time of the reservation. -/
theorem GetOperationsFromOutbox_batch (f : TxFaults) (rank : Int → Int)
    (dbNow lease batchSize maxAttempts : Int) (s : Store) (hpk : primaryKey s) :
    (GetOperationsFromOutbox f rank dbNow lease batchSize maxAttempts s).2.outbox.map
        (fun r => r.ID) = s.outbox.map (fun r => r.ID) ∧
    ((GetOperationsFromOutbox f rank dbNow lease batchSize maxAttempts s).1.2.map
        (fun r => r.ID)).Nodup ∧
    ∀ e ∈ (GetOperationsFromOutbox f rank dbNow lease batchSize maxAttempts s).1.2,
      ∃ x ∈ s.outbox, x.ID = e.ID ∧ x.NextAttemptAt ≤ dbNow := by
  rcases GetOperationsFromOutbox_cases f rank dbNow lease batchSize maxAttempts s with
    ⟨h1, h2⟩ | ⟨h1, h2⟩
  · rw [h1, h2]
    exact ⟨rfl, List.nodup_nil, fun e he => absurd he (List.not_mem_nil _)⟩
  · rw [h1, h2]
    refine ⟨?_, ?_, ?_⟩
    · rw [List.map_map]
      apply List.map_congr_left
      intro r _
      exact stampPicked_ID _ _ _ r
    · have hp : ((returning rank ((picked dbNow batchSize maxAttempts s.outbox).map
            (stampLease dbNow (PgInterval lease)))).map (fun r => r.ID)).Perm
          ((picked dbNow batchSize maxAttempts s.outbox).map (fun r => r.ID)) := by
        have h3 := (returning_perm rank ((picked dbNow batchSize maxAttempts s.outbox).map
            (stampLease dbNow (PgInterval lease)))).map (fun r => r.ID)
        rw [List.map_map] at h3
        exact h3
      exact hp.nodup_iff.mpr (picked_nodup dbNow batchSize maxAttempts s.outbox hpk)
    · intro e he
      obtain ⟨x, hx, rfl⟩ := List.mem_map.mp ((mem_returning _ _ _).mp he)
      obtain ⟨hmem, hel⟩ := mem_picked _ _ _ _ _ hx
      exact ⟨x, hmem, rfl, (eligible_spec _ _ _ hel).2.1⟩

/-- While the leases of the records in flight are running, a row that is due is the
row of none of them. -/
theorem leaseHeld_spec (dbNow : Int) (st : RelayState) (h : leaseHeld dbNow st = true)
    (e : OutboxEvent) (he : e ∈ inflight st) (x : OutboxEvent) (hx : x ∈ st.store.outbox)
    (hid : x.ID = e.ID) : dbNow < x.NextAttemptAt := by
  unfold leaseHeld at h
  have h1 := List.all_eq_true.mp h e he
  have h2 := List.all_eq_true.mp h1 x hx
  simpa [hid] using h2

/-- One step of the relay keeps the primary key of the table and, when a poll
happens while the leases of the records in flight are running, the distinctness of
the ids in flight. -/
theorem relayStep_keeps (cfg : RelayConfig) (t : Tick) (st st1 : RelayState)
    (hstep : relayStep cfg t st = some st1)
    (hpk : primaryKey st.store)
    (hnd : ((inflight st).map (fun r => r.ID)).Nodup)
    (hl : ∀ dbNow, pollTime t = some dbNow → leaseHeld dbNow st = true) :
    primaryKey st1.store ∧ ((inflight st1).map (fun r => r.ID)).Nodup := by
  cases t with
  | poll f rank dbNow =>
    have hheld := hl dbNow rfl
    obtain ⟨hids, hbnd, hdue⟩ :=
      GetOperationsFromOutbox_batch f rank dbNow cfg.Lease cfg.BatchSize cfg.MaxAttempts
        st.store hpk
    dsimp only [relayStep] at hstep
    by_cases hg : st.crashed = true ∨ st.pending ≠ []
    · rw [if_pos hg] at hstep
      cases hstep
    · rw [if_neg hg] at hstep
      have hpend : st.pending = [] := by
        by_contra hne
        exact hg (Or.inr hne)
      generalize GetOperationsFromOutbox f rank dbNow cfg.Lease cfg.BatchSize cfg.MaxAttempts
        st.store = g at hstep hids hbnd hdue
      obtain ⟨⟨r, events⟩, s1⟩ := g
      have hpk1 : primaryKey s1 := by
        show (s1.outbox.map (fun r => r.ID)).Nodup
        rw [show s1.outbox.map (fun r => r.ID) = st.store.outbox.map (fun r => r.ID) from hids]
        exact hpk
      cases r with
      | panicked =>
        injection hstep with hstep
        subst hstep
        exact ⟨hpk1, hnd⟩
      | returned err =>
        cases err with
        | some err =>
          injection hstep with hstep
          subst hstep
          exact ⟨hpk1, hnd⟩
        | none =>
          injection hstep with hstep
          subst hstep
          refine ⟨hpk1, ?_⟩
          have hrest : ((st.jobs ++ st.busy.map (fun b => b.2)).map (fun r => r.ID)).Nodup := by
            have h0 := hnd
            unfold inflight at h0
            rw [hpend, List.nil_append] at h0
            exact h0
          show ((events ++ st.jobs ++ st.busy.map (fun b => b.2)).map (fun r => r.ID)).Nodup
          rw [List.append_assoc, List.map_append]
          refine List.Nodup.append hbnd hrest ?_
          intro id h1 h2
          obtain ⟨e, he, rfl⟩ := List.mem_map.mp h1
          obtain ⟨e2, he2, hid2⟩ := List.mem_map.mp h2
          obtain ⟨x, hx, hxid, hxdue⟩ := hdue e he
          have he2in : e2 ∈ inflight st := by
            unfold inflight
            rw [hpend, List.nil_append]
            exact he2
          have := leaseHeld_spec dbNow st hheld e2 he2in x hx (hxid.trans hid2.symm)
          omega
  | send =>
    dsimp only [relayStep] at hstep
    by_cases hg : st.crashed = true
    · rw [if_pos hg] at hstep
      cases hstep
    · rw [if_neg hg] at hstep
      cases hp : st.pending with
      | nil =>
        rw [hp] at hstep
        cases hstep
      | cons e rest =>
        rw [hp] at hstep
        dsimp only at hstep
        by_cases hcap : (st.jobs.length : Int) < cfg.BatchSize * 2
        · rw [if_pos hcap] at hstep
          injection hstep with hstep
          subst hstep
          refine ⟨hpk, ?_⟩
          have hperm : (rest ++ (st.jobs ++ [e]) ++ st.busy.map (fun b => b.2)).Perm
              (e :: rest ++ st.jobs ++ st.busy.map (fun b => b.2)) := by
            have h1 : rest ++ (st.jobs ++ [e]) ++ st.busy.map (fun b => b.2)
                = (rest ++ st.jobs) ++ e :: st.busy.map (fun b => b.2) := by
              simp [List.append_assoc]
            rw [h1]
            exact List.perm_middle
          have h0 := hnd
          unfold inflight at h0
          rw [hp] at h0
          exact ((hperm.map (fun r => r.ID)).nodup_iff).mpr h0
        · rw [if_neg hcap] at hstep
          cases hstep
  | receive id =>
    dsimp only [relayStep] at hstep
    by_cases hg : st.crashed = true ∨ id < 0 ∨ cfg.Workers ≤ id ∨
        st.busy.any (fun b => b.1 == id) = true
    · rw [if_pos hg] at hstep
      cases hstep
    · rw [if_neg hg] at hstep
      cases hj : st.jobs with
      | nil =>
        rw [hj] at hstep
        cases hstep
      | cons e rest =>
        rw [hj] at hstep
        injection hstep with hstep
        subst hstep
        refine ⟨hpk, ?_⟩
        have hperm : (st.pending ++ rest ++ e :: st.busy.map (fun b => b.2)).Perm
            (st.pending ++ e :: rest ++ st.busy.map (fun b => b.2)) := by
          have h1 : st.pending ++ e :: rest ++ st.busy.map (fun b => b.2)
              = st.pending ++ e :: (rest ++ st.busy.map (fun b => b.2)) := by
            simp [List.append_assoc]
          have h2 : st.pending ++ rest ++ e :: st.busy.map (fun b => b.2)
              = (st.pending ++ rest) ++ e :: st.busy.map (fun b => b.2) := rfl
          rw [h1, h2]
          refine List.perm_middle.trans ?_
          refine (List.Perm.symm ?_)
          refine List.perm_middle.trans ?_
          rw [List.append_assoc]
        have h0 := hnd
        unfold inflight at h0
        rw [hj] at h0
        exact ((hperm.map (fun r => r.ID)).nodup_iff).mpr h0
  | done id env =>
    dsimp only [relayStep] at hstep
    by_cases hg : st.crashed = true
    · rw [if_pos hg] at hstep
      cases hstep
    · rw [if_neg hg] at hstep
      cases hb : st.busy.find? (fun b => b.1 == id) with
      | none =>
        rw [hb] at hstep
        cases hstep
      | some b =>
        rw [hb] at hstep
        injection hstep with hstep
        subst hstep
        constructor
        · show ((ProcessOne cfg.MaxAttempts env b.2 st.store).store.outbox.map
              (fun r => r.ID)).Nodup
          rw [ProcessOne_ids]
          exact hpk
        · have hsub : (st.pending ++ st.jobs
                ++ (st.busy.filter (fun x => !(x.1 == id))).map (fun b => b.2)).Sublist
              (st.pending ++ st.jobs ++ st.busy.map (fun b => b.2)) :=
            List.Sublist.append (List.Sublist.refl _)
              ((List.filter_sublist _).map _)
          exact (hnd.sublist (hsub.map (fun r => r.ID)))

/-- C28 does not hold as stated: with a lease of 5 s, the only record is reserved at
time 10, queued and received by worker 0, whose `ProcessOne` is still running when
the poll at 6 s finds the lease run out, reserves the record again and queues it;
worker 1 receives it. Both workers are then processing the record of id 1. -/
theorem exclusivity_counterexample :
    run demoRelay overrun (initial freshStore)
      = some { store := releasedStore, pending := [], jobs := [],
               busy := [(1, releasedRow), (0, leasedRow)], crashed := false } ∧
    releasedRow.ID = leasedRow.ID ∧
    ¬ ([(1, releasedRow), (0, leasedRow)].map (fun b => b.2.ID)).Nodup := by
  decide

/-- C28, amended: in every execution of the relay (one poller, any number of
workers, any interleaving of their steps) in which each poll happens while the
lease of every record still waiting, queued or in progress is running, the records
waiting to be sent, queued and in progress have pairwise distinct ids; in
particular no two workers are processing records of the same id. A record whose
queueing and processing outlast its lease is reserved and queued again. -/
theorem exclusivity_within_lease (cfg : RelayConfig) (ticks : List Tick) :
    ∀ (st st1 : RelayState),
      primaryKey st.store →
      ((inflight st).map (fun r => r.ID)).Nodup →
      timely cfg ticks st = true →
      run cfg ticks st = some st1 →
      ((inflight st1).map (fun r => r.ID)).Nodup ∧
      (st1.busy.map (fun b => b.2.ID)).Nodup := by
  induction ticks with
  | nil =>
    intro st st1 _ hnd _ hrun
    injection hrun with hrun
    subst hrun
    refine ⟨hnd, ?_⟩
    have hsub : (st.busy.map (fun b => b.2)).Sublist (inflight st) :=
      List.sublist_append_right _ _
    have := hnd.sublist (hsub.map (fun r => r.ID))
    rw [List.map_map] at this
    exact this
  | cons t ts ih =>
    intro st st1 hpk hnd ht hrun
    cases hstep : relayStep cfg t st with
    | none =>
      have h0 : run cfg (t :: ts) st = none := by
        show (match relayStep cfg t st with
              | some st1 => run cfg ts st1
              | none => none) = none
        rw [hstep]
      rw [h0] at hrun
      cases hrun
    | some st2 =>
      have h0 : run cfg (t :: ts) st = run cfg ts st2 := by
        show (match relayStep cfg t st with
              | some st1 => run cfg ts st1
              | none => none) = _
        rw [hstep]
      rw [h0] at hrun
      have ht0 : ((match pollTime t with
                   | some dbNow => leaseHeld dbNow st
                   | none => true) &&
                  (match relayStep cfg t st with
                   | some st1 => timely cfg ts st1
                   | none => true)) = true := ht
      rw [hstep] at ht0
      obtain ⟨ht1, ht2⟩ := Bool.and_eq_true_iff.mp ht0
      have hl : ∀ dbNow, pollTime t = some dbNow → leaseHeld dbNow st = true := by
        intro dbNow hpt
        rw [hpt] at ht1
        exact ht1
      obtain ⟨hpk2, hnd2⟩ := relayStep_keeps cfg t st st2 hstep hpk hnd hl
      exact ih st2 st1 hpk2 hnd2 ht2 hrun

/-- C28 (amended) at a concrete input: worker 0 is done within the lease, and the
poll in between reserves nothing. -/
theorem exclusivity_within_lease_witness :
    primaryKey (initial freshStore).store ∧
    ((inflight (initial freshStore)).map (fun r => r.ID)).Nodup ∧
    timely demoRelay inTime (initial freshStore) = true ∧
    run demoRelay inTime (initial freshStore)
      = some { store := { freshStore with
                            outbox := [{ leasedRow with Status := OutboxStatus.SENT }] },
               pending := [], jobs := [], busy := [], crashed := false } ∧
    ((inflight { store := { freshStore with
                              outbox := [{ leasedRow with Status := OutboxStatus.SENT }] },
                 pending := [], jobs := [], busy := [], crashed := false }).map
        (fun r => r.ID)).Nodup ∧
    (([] : List (Int × OutboxEvent)).map (fun b => b.2.ID)).Nodup :=
  ⟨by decide, by decide, by decide, by decide,
   exclusivity_within_lease demoRelay inTime (initial freshStore)
     { store := { freshStore with outbox := [{ leasedRow with Status := OutboxStatus.SENT }] },
       pending := [], jobs := [], busy := [], crashed := false }
     (by decide) (by decide) (by decide) (by decide)⟩

/-! ## The attempts of a record under the relay -/

/-- What a step of the relay does to the state, step by step. -/
theorem relayStep_cases (cfg : RelayConfig) (t : Tick) (st st1 : RelayState)
    (h : relayStep cfg t st = some st1) :
    (∃ f rank dbNow, t = Tick.poll f rank dbNow ∧ st.pending = [] ∧
      st1.store = (GetOperationsFromOutbox f rank dbNow cfg.Lease cfg.BatchSize
        cfg.MaxAttempts st.store).2 ∧
      st1.jobs = st.jobs ∧ st1.busy = st.busy ∧
      (st1.pending = [] ∨
        st1.pending = (GetOperationsFromOutbox f rank dbNow cfg.Lease cfg.BatchSize
          cfg.MaxAttempts st.store).1.2)) ∨
    (st1.store = st.store ∧ ∀ e, e ∈ inflight st1 ↔ e ∈ inflight st) ∨
    (∃ id env b, t = Tick.done id env ∧ b ∈ st.busy ∧
      st1.store = (ProcessOne cfg.MaxAttempts env b.2 st.store).store ∧
      st1.pending = st.pending ∧ st1.jobs = st.jobs ∧
      st1.busy = st.busy.filter (fun x => !(x.1 == b.1))) := by
  cases t with
  | poll f rank dbNow =>
    left
    dsimp only [relayStep] at h
    by_cases hg : st.crashed = true ∨ st.pending ≠ []
    · rw [if_pos hg] at h
      cases h
    · rw [if_neg hg] at h
      have hpend : st.pending = [] := by
        by_contra hne
        exact hg (Or.inr hne)
      refine ⟨f, rank, dbNow, rfl, hpend, ?_⟩
      generalize GetOperationsFromOutbox f rank dbNow cfg.Lease cfg.BatchSize cfg.MaxAttempts
        st.store = g at h
      obtain ⟨⟨r, events⟩, s1⟩ := g
      cases r with
      | panicked =>
        injection h with h
        subst h
        exact ⟨rfl, rfl, rfl, Or.inl hpend⟩
      | returned err =>
        cases err with
        | some err =>
          injection h with h
          subst h
          exact ⟨rfl, rfl, rfl, Or.inl hpend⟩
        | none =>
          injection h with h
          subst h
          exact ⟨rfl, rfl, rfl, Or.inr rfl⟩
  | send =>
    right; left
    dsimp only [relayStep] at h
    by_cases hg : st.crashed = true
    · rw [if_pos hg] at h
      cases h
    · rw [if_neg hg] at h
      cases hp : st.pending with
      | nil =>
        rw [hp] at h
        cases h
      | cons e rest =>
        rw [hp] at h
        dsimp only at h
        by_cases hcap : (st.jobs.length : Int) < cfg.BatchSize * 2
        · rw [if_pos hcap] at h
          injection h with h
          subst h
          refine ⟨rfl, fun x => ?_⟩
          unfold inflight
          rw [hp]
          simp only [List.mem_append, List.mem_cons, List.mem_singleton, List.not_mem_nil,
            or_false]
          tauto
        · rw [if_neg hcap] at h
          cases h
  | receive id =>
    right; left
    dsimp only [relayStep] at h
    by_cases hg : st.crashed = true ∨ id < 0 ∨ cfg.Workers ≤ id ∨
        st.busy.any (fun b => b.1 == id) = true
    · rw [if_pos hg] at h
      cases h
    · rw [if_neg hg] at h
      cases hj : st.jobs with
      | nil =>
        rw [hj] at h
        cases h
      | cons e rest =>
        rw [hj] at h
        injection h with h
        subst h
        refine ⟨rfl, fun x => ?_⟩
        unfold inflight
        rw [hj]
        simp only [List.mem_append, List.mem_cons, List.map_cons]
        tauto
  | done id env =>
    right; right
    dsimp only [relayStep] at h
    by_cases hg : st.crashed = true
    · rw [if_pos hg] at h
      cases h
    · rw [if_neg hg] at h
      cases hb : st.busy.find? (fun b => b.1 == id) with
      | none =>
        rw [hb] at h
        cases h
      | some b =>
        rw [hb] at h
        injection h with h
        subst h
        have hid : b.1 = id := by
          have := List.find?_some hb
          simpa using this
        refine ⟨id, env, b, rfl, List.mem_of_find?_eq_some hb, rfl, rfl, rfl, ?_⟩
        rw [hid]

/-- A reservation leaves the row of a record whose lease is running as it is. -/
theorem rowOf_GetOperationsFromOutbox_leased (f : TxFaults) (rank : Int → Int)
    (dbNow lease batchSize maxAttempts : Int) (s : Store) (hpk : primaryKey s)
    (e : OutboxEvent) (hrow : rowOf e.ID s = some e) (hlease : dbNow < e.NextAttemptAt) :
    rowOf e.ID (GetOperationsFromOutbox f rank dbNow lease batchSize maxAttempts s).2
      = some e := by
  unfold rowOf at *
  rcases GetOperationsFromOutbox_cases f rank dbNow lease batchSize maxAttempts s with
    ⟨_, ho⟩ | ⟨_, ho⟩
  · rw [ho]
    exact hrow
  · rw [ho, find_map_keepID e.ID _ (stampPicked_ID _ _ _), hrow]
    simp only [Option.map_some']
    have hnot : e.ID ∉ (picked dbNow batchSize maxAttempts s.outbox).map (fun r => r.ID) := by
      intro hin
      obtain ⟨x, hx, hxid⟩ := List.mem_map.mp hin
      obtain ⟨hmem, hel⟩ := mem_picked _ _ _ _ _ hx
      have hxe : x = e := eq_of_find_of_mem e.ID e x s.outbox hpk hrow hmem hxid
      rw [hxe] at hel
      have := (eligible_spec _ _ _ hel).2.1
      omega
    rw [if_neg hnot]

/-- The row found for an id is a row of the table, and it has that id. -/
theorem rowOf_mem (id : Int) (s : Store) (e : OutboxEvent) (h : rowOf id s = some e) :
    e ∈ s.outbox ∧ e.ID = id := by
  unfold rowOf at h
  exact ⟨List.mem_of_find?_eq_some h, by simpa using List.find?_some h⟩

/-- A record in the hands of a worker differs in id from every other record in
flight. -/
theorem busy_id_ne (st : RelayState)
    (hnd : ((inflight st).map (fun r => r.ID)).Nodup)
    (b : Int × OutboxEvent) (hb : b ∈ st.busy) (e : OutboxEvent)
    (he : e ∈ st.pending ++ st.jobs
      ++ (st.busy.filter (fun x => !(x.1 == b.1))).map (fun x => x.2)) :
    e.ID ≠ b.2.ID := by
  unfold inflight at hnd
  rw [List.map_append] at hnd
  obtain ⟨_, hbusy, hdis⟩ := List.nodup_append.mp hnd
  rcases List.mem_append.mp he with h1 | h2
  · intro hid
    exact hdis (List.mem_map.mpr ⟨e, h1, rfl⟩)
      (List.mem_map.mpr ⟨b.2, List.mem_map.mpr ⟨b, hb, rfl⟩, hid.symm⟩)
  · obtain ⟨b2, hb2, rfl⟩ := List.mem_map.mp h2
    obtain ⟨hb2mem, hb2ne⟩ := List.mem_filter.mp hb2
    intro hid
    rw [List.map_map] at hbusy
    have heq : b2 = b := List.inj_on_of_nodup_map hbusy hb2mem hb hid
    rw [heq] at hb2ne
    simp at hb2ne

/-- One step of the relay keeps the invariant, when a poll happens while the leases
of the records in flight are running. -/
theorem relayStep_inv (cfg : RelayConfig) (hmax : cfg.MaxAttempts ≤ maxInt64)
    (t : Tick) (st st1 : RelayState)
    (hstep : relayStep cfg t st = some st1)
    (hinv : relayInv cfg.MaxAttempts st)
    (hl : ∀ dbNow, pollTime t = some dbNow → leaseHeld dbNow st = true) :
    relayInv cfg.MaxAttempts st1 := by
  obtain ⟨hpk, hbud, hnd, hrows⟩ := hinv
  obtain ⟨hpk1, hnd1⟩ := relayStep_keeps cfg t st st1 hstep hpk hnd hl
  refine ⟨hpk1, ?_, hnd1, ?_⟩
  · rcases relayStep_cases cfg t st st1 hstep with
      ⟨f, rank, dbNow, _, _, hs, _, _, _⟩ | ⟨hs, _⟩ | ⟨id, env, b, _, hb, hs, _, _, _⟩
    · rw [hs]
      exact (GetOperationsFromOutbox_keeps cfg.MaxAttempts f rank dbNow cfg.Lease cfg.BatchSize
        st.store hpk hbud).2.1
    · rw [hs]
      exact hbud
    · rw [hs]
      have hbin : b.2 ∈ inflight st := by
        unfold inflight
        exact List.mem_append_right _ (List.mem_map.mpr ⟨b, hb, rfl⟩)
      obtain ⟨hrow, h0, h1⟩ := hrows b.2 hbin
      exact (ProcessOne_keeps cfg.MaxAttempts env b.2 st.store hmax hpk hbud hrow h0 h1).2.1
  · intro e he
    rcases relayStep_cases cfg t st st1 hstep with
      ⟨f, rank, dbNow, ht, hpend, hs, hj, hbz, hp⟩ | ⟨hs, hmem⟩ |
      ⟨id, env, b, _, hb, hs, hp, hj, hbz⟩
    · have hheld : leaseHeld dbNow st = true := hl dbNow (by rw [ht]; rfl)
      obtain ⟨_, _, _, hbatch⟩ :=
        GetOperationsFromOutbox_keeps cfg.MaxAttempts f rank dbNow cfg.Lease cfg.BatchSize
          st.store hpk hbud
      have hold : e ∈ inflight st →
          rowOf e.ID st1.store = some e ∧ 0 ≤ e.Attempts ∧ e.Attempts < cfg.MaxAttempts := by
        intro hin
        obtain ⟨hrow, h0, h1⟩ := hrows e hin
        obtain ⟨hmemrow, _⟩ := rowOf_mem e.ID st.store e hrow
        have hlease := leaseHeld_spec dbNow st hheld e hin e hmemrow rfl
        rw [hs]
        exact ⟨rowOf_GetOperationsFromOutbox_leased f rank dbNow cfg.Lease cfg.BatchSize
          cfg.MaxAttempts st.store hpk e hrow hlease, h0, h1⟩
      unfold inflight at he
      rw [hj, hbz] at he
      rcases hp with hp | hp
      · rw [hp, List.nil_append] at he
        apply hold
        unfold inflight
        rw [hpend, List.nil_append]
        exact he
      · rw [hp, List.append_assoc] at he
        rcases List.mem_append.mp he with h1 | h2
        · rw [hs]
          exact hbatch e h1
        · apply hold
          unfold inflight
          rw [hpend, List.nil_append]
          exact h2
    · rw [hs]
      exact hrows e ((hmem e).mp he)
    · have hbin : b.2 ∈ inflight st := by
        unfold inflight
        exact List.mem_append_right _ (List.mem_map.mpr ⟨b, hb, rfl⟩)
      obtain ⟨hrowb, h0b, h1b⟩ := hrows b.2 hbin
      obtain ⟨_, _, hframe⟩ :=
        ProcessOne_keeps cfg.MaxAttempts env b.2 st.store hmax hpk hbud hrowb h0b h1b
      unfold inflight at he
      rw [hp, hj, hbz] at he
      have hne : e.ID ≠ b.2.ID := busy_id_ne st hnd b hb e he
      have hin : e ∈ inflight st := by
        unfold inflight
        rcases List.mem_append.mp he with h1 | h2
        · exact List.mem_append_left _ h1
        · obtain ⟨b2, hb2, rfl⟩ := List.mem_map.mp h2
          exact List.mem_append_right _
            (List.mem_map.mpr ⟨b2, (List.mem_filter.mp hb2).1, rfl⟩)
      obtain ⟨hrow, h0, h1⟩ := hrows e hin
      rw [hs]
      exact ⟨(hframe e.ID hne).trans hrow, h0, h1⟩

/-- An execution of the relay in which every poll finds the leases of the records in
flight running keeps the invariant. -/
theorem run_inv (cfg : RelayConfig) (hmax : cfg.MaxAttempts ≤ maxInt64) (ticks : List Tick) :
    ∀ (st st1 : RelayState), relayInv cfg.MaxAttempts st → timely cfg ticks st = true →
      run cfg ticks st = some st1 → relayInv cfg.MaxAttempts st1 := by
  induction ticks with
  | nil =>
    intro st st1 hinv _ hrun
    injection hrun with hrun
    subst hrun
    exact hinv
  | cons t ts ih =>
    intro st st1 hinv ht hrun
    cases hstep : relayStep cfg t st with
    | none =>
      have h0 : run cfg (t :: ts) st = none := by
        show (match relayStep cfg t st with
              | some st1 => run cfg ts st1
              | none => none) = none
        rw [hstep]
      rw [h0] at hrun
      cases hrun
    | some st2 =>
      have h0 : run cfg (t :: ts) st = run cfg ts st2 := by
        show (match relayStep cfg t st with
              | some st1 => run cfg ts st1
              | none => none) = _
        rw [hstep]
      rw [h0] at hrun
      have ht0 : ((match pollTime t with
                   | some dbNow => leaseHeld dbNow st
                   | none => true) &&
                  (match relayStep cfg t st with
                   | some st1 => timely cfg ts st1
                   | none => true)) = true := ht
      rw [hstep] at ht0
      obtain ⟨ht1, ht2⟩ := Bool.and_eq_true_iff.mp ht0
      have hl : ∀ dbNow, pollTime t = some dbNow → leaseHeld dbNow st = true := by
        intro dbNow hpt
        rw [hpt] at ht1
        exact ht1
      exact ih st2 st1 (relayStep_inv cfg hmax t st st2 hstep hinv hl) ht2 hrun

/-- C7 does not hold as stated: under a budget of 2 the only record, fresh with
attempts 0, outlasts its lease of 5 s twice and is reserved three times, each time
with attempts 0 and each reservation processed once. Every worker decides on the
attempts its reservation read: `0 + 1 >= 2` is false, so each of the three failed
sends runs `MarkFailedWithBackoff`, and the row ends `FAILED` with attempts 3, above
the budget. -/
theorem attempts_bound_counterexample :
    (∀ r ∈ freshStore.outbox, r.Status = OutboxStatus.NEW ∧ r.Attempts = 0) ∧
    (run staleRelay staleMarks (initial freshStore)).map
        (fun st => (rowOf 1 st.store).map (fun r => (r.Status, r.Attempts)))
      = some (some (OutboxStatus.FAILED, 3)) ∧
    ¬ ((3 : Int) ≤ staleRelay.MaxAttempts) := by
  decide

/-- C7, amended: for a record-level `maxAttempts ≥ 1` (a Go `int`), in every state
the relay reaches from freshly inserted rows (`NEW`, attempts 0) by the steps of its
poller and workers, taken in any order, in which every poll happens while the lease
of each record still waiting, queued or in progress is running (so that a record is
processed before it is reserved again), every row whose status is `NEW` or `FAILED`
has attempts not exceeding `maxAttempts` (indeed below it, and not negative). -/
theorem attempts_bound (cfg : RelayConfig) (ticks : List Tick) (s : Store) (st1 : RelayState)
    (hm : 1 ≤ cfg.MaxAttempts) (hmax : cfg.MaxAttempts ≤ maxInt64)
    (hpk : primaryKey s)
    (hfresh : ∀ r ∈ s.outbox, r.Status = OutboxStatus.NEW ∧ r.Attempts = 0)
    (ht : timely cfg ticks (initial s) = true)
    (hrun : run cfg ticks (initial s) = some st1) :
    ∀ r ∈ st1.store.outbox, (r.Status = OutboxStatus.NEW ∨ r.Status = OutboxStatus.FAILED) →
      r.Attempts ≤ cfg.MaxAttempts ∧ r.Attempts < cfg.MaxAttempts ∧ 0 ≤ r.Attempts := by
  have hinit : relayInv cfg.MaxAttempts (initial s) := by
    refine ⟨hpk, ?_, List.nodup_nil, fun e he => absurd he (List.not_mem_nil _)⟩
    intro r hr _
    rw [(hfresh r hr).2]
    exact ⟨le_refl 0, by omega⟩
  obtain ⟨_, hbud, _, _⟩ := run_inv cfg hmax ticks (initial s) st1 hinit ht hrun
  intro r hr hst
  have hb := hbud r hr hst
  exact ⟨by omega, hb.2, hb.1⟩

/-- C7 (amended) at a concrete input: under a budget of 2 the record fails, is marked
within its lease, is reserved again when its backoff has passed, fails again and is
given up with attempts 2; no row is left `NEW` or `FAILED` above the budget. -/
theorem attempts_bound_witness :
    ((1 : Int) ≤ staleRelay.MaxAttempts ∧ staleRelay.MaxAttempts ≤ maxInt64 ∧
      primaryKey freshStore ∧
      (∀ r ∈ freshStore.outbox, r.Status = OutboxStatus.NEW ∧ r.Attempts = 0) ∧
      timely staleRelay retried (initial freshStore) = true ∧
      run staleRelay retried (initial freshStore) = some retriedEnd) ∧
    ∀ r ∈ retriedEnd.store.outbox,
      (r.Status = OutboxStatus.NEW ∨ r.Status = OutboxStatus.FAILED) →
        r.Attempts ≤ staleRelay.MaxAttempts ∧ r.Attempts < staleRelay.MaxAttempts ∧
        0 ≤ r.Attempts :=
  ⟨by decide,
   attempts_bound staleRelay retried freshStore retriedEnd (by decide) (by decide) (by decide)
     (by decide) (by decide) (by decide)⟩

end Calendar
